import Mathlib

/-!
# CS2GO-Retold: entity scan and projection

A shallow embedding of `src/main.go` (`worldToScreen`, `Vector3.Dist`,
`getEntitiesInfo`) and `src/memory.go` (`readMemoryNt`, `readSafe`).

Conventions of the embedding

* a `float32` value is a number, an infinity or NaN; the numbers are
  rationals and their arithmetic is exact (no rounding, no overflow), the
  infinities and NaN follow IEEE 754.
* `uintptr` values are naturals below `2 ^ 64`; pointer arithmetic wraps
  modulo `2 ^ 64`.
* `int32` values are integers, decoded from four little-endian bytes in
  two's complement.
* Go strings are lists of bytes (naturals below 256).
* The remote process is a byte-addressed partial memory image.
-/

namespace CS2GO

/-! ## Floating point -/

/-- Go `float32`. A value is a number, an infinity or NaN. A number is kept
as an exact rational: rounding, overflow to an infinity and the sign of zero
are not modelled. The infinities and NaN follow IEEE 754: NaN is absorbing,
`Inf - Inf`, `0 * Inf` and `Inf / Inf` are NaN, and every comparison with
NaN is false. -/
inductive float32 where
  | num (q : ℚ)
  | inf (negative : Bool)
  | nan
  deriving DecidableEq

/-- Go `a + b` on `float32`. -/
def float32.add : float32 → float32 → float32
  | float32.num a, float32.num b => float32.num (a + b)
  | float32.num _, float32.inf t => float32.inf t
  | float32.inf s, float32.num _ => float32.inf s
  | float32.inf s, float32.inf t => if s = t then float32.inf s else float32.nan
  | float32.nan, _ => float32.nan
  | _, float32.nan => float32.nan

/-- Go `-a` on `float32`. -/
def float32.neg : float32 → float32
  | float32.num a => float32.num (-a)
  | float32.inf s => float32.inf (!s)
  | float32.nan => float32.nan

/-- Go `a * b` on `float32`. -/
def float32.mul : float32 → float32 → float32
  | float32.num a, float32.num b => float32.num (a * b)
  | float32.num a, float32.inf t =>
    if a = 0 then float32.nan else float32.inf (xor (decide (a < 0)) t)
  | float32.inf s, float32.num b =>
    if b = 0 then float32.nan else float32.inf (xor s (decide (b < 0)))
  | float32.inf s, float32.inf t => float32.inf (xor s t)
  | float32.nan, _ => float32.nan
  | _, float32.nan => float32.nan

/-- Go `a / b` on `float32`. A zero divisor is taken as `+0`; no division of
this program has a zero divisor. -/
def float32.div : float32 → float32 → float32
  | float32.num a, float32.num b =>
    if b = 0 then (if a = 0 then float32.nan else float32.inf (decide (a < 0)))
    else float32.num (a / b)
  | float32.num _, float32.inf _ => float32.num 0
  | float32.inf s, float32.num b => float32.inf (xor s (decide (b < 0)))
  | float32.inf _, float32.inf _ => float32.nan
  | float32.nan, _ => float32.nan
  | _, float32.nan => float32.nan

/-- Go `a < b` on `float32`. -/
def float32.less : float32 → float32 → Bool
  | float32.num a, float32.num b => decide (a < b)
  | float32.num _, float32.inf t => !t
  | float32.inf s, float32.num _ => s
  | float32.inf s, float32.inf t => s && !t
  | float32.nan, _ => false
  | _, float32.nan => false

/-- Go `a <= b` on `float32`. -/
def float32.lessEq : float32 → float32 → Bool
  | float32.num a, float32.num b => decide (a ≤ b)
  | float32.num _, float32.inf t => !t
  | float32.inf s, float32.num _ => s
  | float32.inf s, float32.inf t => s || !t
  | float32.nan, _ => false
  | _, float32.nan => false

/-- Go `math.Abs`, on the values of `float32`. -/
def Abs : float32 → float32
  | float32.num a => float32.num |a|
  | float32.inf _ => float32.inf false
  | float32.nan => float32.nan

instance : Add float32 := ⟨float32.add⟩

instance : Neg float32 := ⟨float32.neg⟩

instance : Sub float32 := ⟨fun a b => float32.add a (float32.neg b)⟩

instance : Mul float32 := ⟨float32.mul⟩

instance : Div float32 := ⟨float32.div⟩

instance : LT float32 := ⟨fun a b => float32.less a b = true⟩

instance : LE float32 := ⟨fun a b => float32.lessEq a b = true⟩

instance (a b : float32) : Decidable (a < b) :=
  inferInstanceAs (Decidable (float32.less a b = true))

instance (a b : float32) : Decidable (a ≤ b) :=
  inferInstanceAs (Decidable (float32.lessEq a b = true))

instance (n : Nat) : OfNat float32 n := ⟨float32.num n⟩

instance : OfScientific float32 := ⟨fun m s e => float32.num (OfScientific.ofScientific m s e)⟩

/-- Go conversion `float32(n)` of an unsigned integer. -/
instance : NatCast float32 := ⟨fun n => float32.num n⟩

/-! ## Data model (`src/main.go`, lines 247-296) -/

/-- Go `type Matrix [4][4]float32`. -/
def Matrix : Type := Fin 4 → Fin 4 → float32

/-- Go `type Vector3 struct { X, Y, Z float32 }`. -/
structure Vector3 where
  X : float32
  Y : float32
  Z : float32
  deriving DecidableEq

/-- Go `type Vector2 struct { X, Y float32 }`. -/
structure Vector2 where
  X : float32
  Y : float32
  deriving DecidableEq

/-- Go `type Rectangle struct { Top, Left, Right, Bottom float32 }`. -/
structure Rectangle where
  Top : float32
  Left : float32
  Right : float32
  Bottom : float32
  deriving DecidableEq

/-- Go `type Entity struct`. `Name` is a Go string (bytes); `Bones` is a Go
`map[string]Vector2`, kept as an association list with unique keys. -/
structure Entity where
  Health : Int
  Team : Int
  Name : List Nat
  Position : Vector2
  Bones : List (String × Vector2)
  HeadPos : Vector3
  Distance : float32
  Rect : Rectangle
  deriving DecidableEq

/-- Go `type Offset struct`: the thirteen resolved byte offsets. -/
structure Offset where
  DwViewMatrix : Nat
  DwLocalPlayerPawn : Nat
  DwEntityList : Nat
  M_hPlayerPawn : Nat
  M_iHealth : Nat
  M_lifeState : Nat
  M_iTeamNum : Nat
  M_vOldOrigin : Nat
  M_pGameSceneNode : Nat
  M_modelState : Nat
  M_boneArray : Nat
  M_nodeToWorld : Nat
  M_sSanitizedPlayerName : Nat

/-- `Vector3.Dist` (`src/main.go`, lines 255-257). -/
def Vector3.Dist (v other : Vector3) : float32 :=
  Abs (v.X - other.X) + Abs (v.Y - other.Y) + Abs (v.Z - other.Z)

/-! ## Projection (`src/main.go`, lines 332-353) -/

/-- `worldToScreen`. The two `getSystemMetrics.Call` results are the
arguments `width` and `height`. -/
def worldToScreen (width height : Nat) (viewMatrix : Matrix) (position : Vector3) :
    float32 × float32 :=
  let screenX := viewMatrix 0 0 * position.X + viewMatrix 0 1 * position.Y
    + viewMatrix 0 2 * position.Z + viewMatrix 0 3
  let screenY := viewMatrix 1 0 * position.X + viewMatrix 1 1 * position.Y
    + viewMatrix 1 2 * position.Z + viewMatrix 1 3
  let w := viewMatrix 3 0 * position.X + viewMatrix 3 1 * position.Y
    + viewMatrix 3 2 * position.Z + viewMatrix 3 3
  if w < 0.01 then (-1, -1)
  else
    let invw := 1.0 / w
    let screenX := screenX * invw
    let screenY := screenY * invw
    let widthFloat : float32 := width
    let heightFloat : float32 := height
    let x := widthFloat / 2
    let y := heightFloat / 2
    let x := x + (0.5 * screenX * widthFloat + 0.5)
    let y := y - (0.5 * screenY * heightFloat + 0.5)
    (x, y)

/-- The identity view matrix. -/
def identityMatrix : Matrix := fun i j => if i = j then 1 else 0

/-- Conversion to `uintptr`: wrap-around at 64 bits. -/
def uintptr (n : Nat) : Nat := n % 2 ^ 64

/-- Controller walk, line 452: the Go expression `(8*(i&0x7FFF)>>9)+16`.
In Go `*` and `>>` have the same precedence and associate to the left, so
the product is shifted. -/
def controllerChunkOffset (i : Nat) : Nat := ((8 * (i &&& 0x7FFF)) >>> 9) + 16

/-- Controller walk, line 460: `uintptr(120)*uintptr(i&0x1FF)`. -/
def controllerSlotOffset (i : Nat) : Nat := 120 * (i &&& 0x1FF)

/-- Pawn walk, line 476: `0x8*((entityControllerPawn&0x7FFF)>>9)+16`. -/
def pawnChunkOffset (entityControllerPawn : Nat) : Nat :=
  0x8 * ((entityControllerPawn &&& 0x7FFF) >>> 9) + 16

/-- Pawn walk, line 484: `uintptr(120)*uintptr(entityControllerPawn&0x1FF)`. -/
def pawnSlotOffset (entityControllerPawn : Nat) : Nat :=
  120 * (entityControllerPawn &&& 0x1FF)

/-! ## Remote memory (`src/memory.go`) -/

/-- The remote process image: the byte stored at each readable address. -/
def Image : Type := Nat → Option Nat

/-- `readMemoryNt` (lines 72-89): a buffer of exactly `size` bytes, or an
error when the system call reports a non-zero status, which here is when
some byte of the range is not readable. -/
def readMemoryNt (process : Image) (address : Nat) : Nat → Option (List Nat)
  | 0 => some []
  | size + 1 =>
    match process address, readMemoryNt process (address + 1) size with
    | some b, some buffer => some (b % 256 :: buffer)
    | _, _ => none

/-- Go `binary.LittleEndian.Uint32`. -/
def Uint32 (b : List Nat) : Nat :=
  b.getD 0 0 + b.getD 1 0 * 2 ^ 8 + b.getD 2 0 * 2 ^ 16 + b.getD 3 0 * 2 ^ 24

/-- Go `binary.LittleEndian.Uint64`. -/
def Uint64 (b : List Nat) : Nat :=
  b.getD 0 0 + b.getD 1 0 * 2 ^ 8 + b.getD 2 0 * 2 ^ 16 + b.getD 3 0 * 2 ^ 24
    + b.getD 4 0 * 2 ^ 32 + b.getD 5 0 * 2 ^ 40 + b.getD 6 0 * 2 ^ 48 + b.getD 7 0 * 2 ^ 56

/-- Go conversion `int32(u)` of a `uint32`: two's complement. -/
def int32 (u : Nat) : Int := if u < 2 ^ 31 then (u : Int) else (u : Int) - 2 ^ 32

/-- Go `math.Float32frombits`: the value of the IEEE 754 binary32 pattern
with sign bit, 8 exponent bits and 23 fraction bits. Exponent 255 is an
infinity when the fraction is zero and NaN otherwise; every other pattern is
a number, kept exactly. -/
def Float32frombits (b : Nat) : float32 :=
  let sign : Int := if b / 2 ^ 31 % 2 = 0 then 1 else -1
  let e : Nat := b / 2 ^ 23 % 256
  let m : Nat := b % 2 ^ 23
  if e = 255 then (if m = 0 then float32.inf (decide (b / 2 ^ 31 % 2 = 1)) else float32.nan)
  else if e = 0 then float32.num (mkRat (sign * Int.ofNat m) (2 ^ 149))
  else float32.num (mkRat (sign * Int.ofNat ((2 ^ 23 + m) * 2 ^ (e - 150))) (2 ^ (150 - e)))

/-- Branch `case *int32` of `readSafe`. -/
def decodeInt32 (buffer : List Nat) : Int := int32 (Uint32 buffer)

/-- Branch `case *Vector3` of `readSafe`: three floats at bytes 0, 4 and 8. -/
def decodeVector3 (buffer : List Nat) : Vector3 :=
  { X := Float32frombits (Uint32 ((buffer.drop 0).take 4))
    Y := Float32frombits (Uint32 ((buffer.drop 4).take 4))
    Z := Float32frombits (Uint32 ((buffer.drop 8).take 4)) }

/-- Branch `default` of `readSafe` for `*Matrix`: `binary.Read` fills the
sixteen floats row by row. -/
def decodeMatrix (buffer : List Nat) : Matrix :=
  fun i j => Float32frombits (Uint32 ((buffer.drop (4 * (4 * i.val + j.val))).take 4))

/-! ## Strings: Go's UTF-8 iteration and `strings.Builder.WriteRune` -/

/-- Go `utf8.RuneError`. -/
def RuneError : Nat := 0xFFFD

/-- Lower bound of the second byte accepted after the first byte `s0`
(Go `acceptRanges`). -/
def acceptLo (s0 : Nat) : Nat :=
  if s0 = 0xE0 then 0xA0 else if s0 = 0xF0 then 0x90 else 0x80

/-- Upper bound of the second byte accepted after the first byte `s0`
(Go `acceptRanges`). -/
def acceptHi (s0 : Nat) : Nat :=
  if s0 = 0xED then 0x9F else if s0 = 0xF4 then 0x8F else 0xBF

/-- Go `utf8.DecodeRuneInString`: the first code point of a string and the
number of bytes it takes. Masks and shifts are written with `%` and `*`:
`s0 & 0x1F` is `s0 % 32`, `x << 6` is `x * 64`, and the or-ed fields are
disjoint. -/
def decodeRune : List Nat → Nat × Nat
  | [] => (RuneError, 0)
  | s0 :: rest =>
    if s0 < 0x80 then (s0, 1)
    else if s0 < 0xC2 then (RuneError, 1)
    else if s0 < 0xE0 then
      match rest with
      | s1 :: _ =>
        if s1 < acceptLo s0 ∨ acceptHi s0 < s1 then (RuneError, 1)
        else ((s0 % 32) * 64 + s1 % 64, 2)
      | _ => (RuneError, 1)
    else if s0 < 0xF0 then
      match rest with
      | s1 :: s2 :: _ =>
        if s1 < acceptLo s0 ∨ acceptHi s0 < s1 then (RuneError, 1)
        else if s2 < 0x80 ∨ 0xBF < s2 then (RuneError, 1)
        else ((s0 % 16) * 4096 + (s1 % 64) * 64 + s2 % 64, 3)
      | _ => (RuneError, 1)
    else if s0 < 0xF5 then
      match rest with
      | s1 :: s2 :: s3 :: _ =>
        if s1 < acceptLo s0 ∨ acceptHi s0 < s1 then (RuneError, 1)
        else if s2 < 0x80 ∨ 0xBF < s2 then (RuneError, 1)
        else if s3 < 0x80 ∨ 0xBF < s3 then (RuneError, 1)
        else ((s0 % 8) * 262144 + (s1 % 64) * 4096 + (s2 % 64) * 64 + s3 % 64, 4)
      | _ => (RuneError, 1)
    else (RuneError, 1)

/-- The code points visited by `for _, c := range s`, with `fuel` bounding
the number of iterations. -/
def stringRunesAux : Nat → List Nat → List Nat
  | 0, _ => []
  | _ + 1, [] => []
  | fuel + 1, s0 :: rest =>
    (decodeRune (s0 :: rest)).1
      :: stringRunesAux fuel ((s0 :: rest).drop (decodeRune (s0 :: rest)).2)

/-- The code points visited by `for _, c := range s`. Every iteration
consumes at least one byte, so `s.length` iterations are enough
(`stringRunesAux_fuel`). -/
def stringRunes (s : List Nat) : List Nat := stringRunesAux s.length s

/-- Go `utf8.AppendRune`, which `strings.Builder.WriteRune` calls: append the
UTF-8 encoding of `r` to `p`; surrogates and values above `0x10FFFF` are
written as `RuneError`. -/
def appendRune (p : List Nat) (r : Nat) : List Nat :=
  if r ≤ 0x7F then p ++ [r]
  else if r ≤ 0x7FF then p ++ [0xC0 + r / 64, 0x80 + r % 64]
  else if 0x10FFFF < r ∨ (0xD800 ≤ r ∧ r ≤ 0xDFFF) then p ++ [0xEF, 0xBF, 0xBD]
  else if r ≤ 0xFFFF then p ++ [0xE0 + r / 4096, 0x80 + r / 64 % 64, 0x80 + r % 64]
  else p ++ [0xF0 + r / 262144, 0x80 + r / 4096 % 64, 0x80 + r / 64 % 64, 0x80 + r % 64]

/-- The UTF-8 encoding of a sequence of code points. -/
def encodeRunes : List Nat → List Nat
  | [] => []
  | r :: rs => appendRune [] r ++ encodeRunes rs

/-- A code point that is not a surrogate and not above `0x10FFFF`. -/
def ValidRune (r : Nat) : Prop := r < 0xD800 ∨ (0xE000 ≤ r ∧ r ≤ 0x10FFFF)

/-! ## Character classes of Go's `unicode` package -/

/-- The range tables of Go's `unicode` package for the code points above
U+00FF (`unicode.Letter`, `unicode.Digit`, `unicode.Punct`,
`unicode.White_Space`). The replacement character U+FFFD is a symbol
(category So) and is in none of the four. -/
structure RangeTables where
  Letter : Nat → Bool
  Digit : Nat → Bool
  Punct : Nat → Bool
  White_Space : Nat → Bool
  replacement_not_letter : Letter 0xFFFD = false
  replacement_not_digit : Digit 0xFFFD = false
  replacement_not_punct : Punct 0xFFFD = false
  replacement_not_space : White_Space 0xFFFD = false

/-- Latin-1 letters: the entries of Go's `properties` table with `pLu`,
`pLl` or `pLo`. -/
def latin1Letter (r : Nat) : Bool :=
  (0x41 ≤ r && r ≤ 0x5A) || (0x61 ≤ r && r ≤ 0x7A) || r == 0xAA || r == 0xB5 || r == 0xBA
    || (0xC0 ≤ r && r ≤ 0xD6) || (0xD8 ≤ r && r ≤ 0xF6) || (0xF8 ≤ r && r ≤ 0xFF)

/-- Latin-1 punctuation: the entries of Go's `properties` table with `pP`. -/
def latin1Punct (r : Nat) : Bool :=
  [0x21, 0x22, 0x23, 0x25, 0x26, 0x27, 0x28, 0x29, 0x2A, 0x2C, 0x2D, 0x2E, 0x2F, 0x3A, 0x3B,
    0x3F, 0x40, 0x5B, 0x5C, 0x5D, 0x5F, 0x7B, 0x7D, 0xA1, 0xA7, 0xAB, 0xB6, 0xB7, 0xBB,
    0xBF].contains r

/-- Go `unicode.IsLetter`. -/
def IsLetter (t : RangeTables) (r : Nat) : Bool :=
  if r ≤ 0xFF then latin1Letter r else t.Letter r

/-- Go `unicode.IsDigit`. -/
def IsDigit (t : RangeTables) (r : Nat) : Bool :=
  if r ≤ 0xFF then (0x30 ≤ r && r ≤ 0x39) else t.Digit r

/-- Go `unicode.IsPunct`. -/
def IsPunct (t : RangeTables) (r : Nat) : Bool :=
  if r ≤ 0xFF then latin1Punct r else t.Punct r

/-- Go `unicode.IsSpace`. -/
def IsSpace (t : RangeTables) (r : Nat) : Bool :=
  if r ≤ 0xFF then [0x09, 0x0A, 0x0B, 0x0C, 0x0D, 0x20, 0x85, 0xA0].contains r
  else t.White_Space r

/-- The condition of line 542. -/
def keepRune (t : RangeTables) (c : Nat) : Bool :=
  IsLetter t c || IsDigit t c || IsPunct t c || IsSpace t c

/-- The sanitizing loop of lines 541-546: every code point of `entityName`
that passes line 542 is written to the builder `sanitizedName`. -/
def sanitize (t : RangeTables) (entityName : List Nat) : List Nat :=
  (stringRunes entityName).foldl
    (fun sanitizedName c => if keepRune t c then appendRune sanitizedName c else sanitizedName) []

/-! ## Control flow of one pass of the scan loop -/

/-- How a piece of the loop body ends: it goes on with a value, it hits
`continue` (the candidate is rejected), or a read failed and the function
executes `return entities`. -/
inductive Flow (α : Type) where
  | next (a : α)
  | skip
  | fault
  deriving DecidableEq

/-- The variables of `getEntitiesInfo` that outlive one pass of a loop body,
and the log of the addresses handed to `readSafe` so far. -/
structure Vars where
  reads : List Nat
  entityHead : Vector3

/-- Record that `readSafe` was called at `address`. -/
def Vars.log (s : Vars) (address : Nat) : Vars := { s with reads := s.reads ++ [address] }

/-- A piece of the body of `getEntitiesInfo`: it transforms the variables and
ends in one of the three ways of `Flow`. -/
def Scan (α : Type) : Type := Vars → Flow α × Vars

/-- Sequencing: the second piece runs only when the first one goes on. -/
def Scan.bind {α β : Type} (m : Scan α) (k : α → Scan β) : Scan β := fun s =>
  match m s with
  | (Flow.next a, s1) => k a s1
  | (Flow.skip, s1) => (Flow.skip, s1)
  | (Flow.fault, s1) => (Flow.fault, s1)

/-- A piece that only yields a value. -/
def Scan.pure {α : Type} (a : α) : Scan α := fun s => (Flow.next a, s)

instance : Monad Scan where
  pure := Scan.pure
  bind := Scan.bind

/-- Go `if c { continue }`. -/
def continueIf (c : Prop) [Decidable c] : Scan Unit := fun s =>
  if c then (Flow.skip, s) else (Flow.next (), s)

/-- Assignment `entityHead = currentBone` (line 575). -/
def setEntityHead (currentBone : Vector3) : Scan Unit := fun s =>
  (Flow.next (), { s with entityHead := currentBone })

/-- The current value of the variable `entityHead`. -/
def getEntityHead : Scan Vector3 := fun s => (Flow.next s.entityHead, s)

/-- `readSafe` (`src/memory.go`, lines 91-132) followed by the caller's
`if err != nil { return entities }`: fetch `size` bytes at `address`, where
`size` is the size of the destination type, and decode them by the branch of
the type switch. -/
def readSafe {α : Type} (process : Image) (address size : Nat) (decode : List Nat → α) :
    Scan α := fun s =>
  match readMemoryNt process address size with
  | some buffer => (Flow.next (decode buffer), s.log address)
  | none => (Flow.fault, s.log address)

/-- `readSafe` into a `*uintptr`: 8 bytes. -/
def readSafe_uintptr (process : Image) (address : Nat) : Scan Nat :=
  readSafe process address 8 Uint64

/-- `readSafe` into a `*int32`: 4 bytes. -/
def readSafe_int32 (process : Image) (address : Nat) : Scan Int :=
  readSafe process address 4 decodeInt32

/-- `readSafe` into a `*string`: the size of the string header, 16 bytes on
the 64-bit target, all of which become the string (`*v = string(buffer)`). -/
def readSafe_string (process : Image) (address : Nat) : Scan (List Nat) :=
  readSafe process address 16 id

/-- `readSafe` into a `*Vector3`: 12 bytes. -/
def readSafe_Vector3 (process : Image) (address : Nat) : Scan Vector3 :=
  readSafe process address 12 decodeVector3

/-- `readSafe` into a `*Matrix`: 64 bytes. -/
def readSafe_Matrix (process : Image) (address : Nat) : Scan Matrix :=
  readSafe process address 64 decodeMatrix

/-- The value a successful `readSafe` into a `*uintptr` delivers. -/
def peek_uintptr (process : Image) (address : Nat) : Option Nat :=
  (readMemoryNt process address 8).map Uint64

/-- The value a successful `readSafe` into a `*int32` delivers. -/
def peek_int32 (process : Image) (address : Nat) : Option Int :=
  (readMemoryNt process address 4).map decodeInt32

/-- The value a successful `readSafe` into a `*string` delivers. -/
def peek_string (process : Image) (address : Nat) : Option (List Nat) :=
  (readMemoryNt process address 16).map id

/-- The value a successful `readSafe` into a `*Vector3` delivers. -/
def peek_Vector3 (process : Image) (address : Nat) : Option Vector3 :=
  (readMemoryNt process address 12).map decodeVector3

/-- The value a successful `readSafe` into a `*Matrix` delivers. -/
def peek_Matrix (process : Image) (address : Nat) : Option Matrix :=
  (readMemoryNt process address 64).map decodeMatrix

/-! ## The scan (`src/main.go`, lines 375-607) -/

/-- The joint table `bones` of lines 402-420. -/
def bones : List (String × Nat) :=
  [("head", 6), ("neck_0", 5), ("spine_1", 4), ("spine_2", 2), ("pelvis", 0),
    ("arm_upper_L", 8), ("arm_lower_L", 9), ("hand_L", 10),
    ("arm_upper_R", 13), ("arm_lower_R", 14), ("hand_R", 15),
    ("leg_upper_L", 22), ("leg_lower_L", 23), ("ankle_L", 24),
    ("leg_upper_R", 25), ("leg_lower_R", 26), ("ankle_R", 27)]

/-- One order in which `range bones` may visit the joint table: Go leaves the
iteration order of a map unspecified. -/
structure BoneOrder where
  entries : List (String × Nat)
  perm : entries.Perm bones

/-- What `getEntitiesInfo` takes from its surroundings: the display size that
`getSystemMetrics` reports to `worldToScreen`, the global flags `teamCheck`
and `skeletonRendering`, the tables of the `unicode` package, and the order
in which the joint table is visited while candidate `i` is processed. -/
structure Host where
  width : Nat
  height : Nat
  teamCheck : Bool
  skeletonRendering : Bool
  tables : RangeTables
  boneOrder : Nat → BoneOrder

/-- Go map assignment `m[k] = v`. -/
def mapSet (m : List (String × Vector2)) (k : String) (v : Vector2) : List (String × Vector2) :=
  match m with
  | [] => [(k, v)]
  | (k1, v1) :: rest => if k1 = k then (k, v) :: rest else (k1, v1) :: mapSet rest k v

/-- Go map lookup. -/
def mapGet (m : List (String × Vector2)) (k : String) : Option Vector2 :=
  match m with
  | [] => none
  | (k1, v1) :: rest => if k1 = k then some v1 else mapGet rest k

/-- The bone loop of lines 569-582 over the joints still to visit. -/
def boneLoop (host : Host) (process : Image) (viewMatrix : Matrix) (entityBoneArray : Nat) :
    List (String × Nat) → List (String × Vector2) → Scan (List (String × Vector2))
  | [], entityBones => pure entityBones
  | (boneName, boneIndex) :: rest, entityBones => do
    let currentBone ← readSafe_Vector3 process (uintptr (entityBoneArray + boneIndex * 32))
    let proceed : Scan (List (String × Vector2)) :=
      boneLoop host process viewMatrix entityBoneArray rest
        (mapSet entityBones boneName
          ⟨(worldToScreen host.width host.height viewMatrix currentBone).1,
            (worldToScreen host.width host.height viewMatrix currentBone).2⟩)
    if boneName = "head" then do
      setEntityHead currentBone
      if host.skeletonRendering then proceed else pure entityBones
    else proceed

/-- Lines 510-519: the team check. -/
def teamCheckStep (host : Host) (process : Image) (offsets : Offset) (localPlayerP : Nat)
    (entityTeam : Int) : Scan Unit :=
  if host.teamCheck then do
    let localTeam ← readSafe_int32 process (uintptr (localPlayerP + offsets.M_iTeamNum))
    continueIf (localTeam = entityTeam)
  else pure ()

/-- The values read before the loop (lines 378-446). -/
structure Frame where
  entityList : Nat
  localPlayerP : Nat
  localPlayerGameScene : Nat
  localPlayerSceneOrigin : Vector3
  viewMatrix : Matrix

/-- Lines 378-446: the five reads before the loop. -/
def bootstrap (process : Image) (clientDll : Nat) (offsets : Offset) : Scan Frame := do
  let entityList ← readSafe_uintptr process (uintptr (clientDll + offsets.DwEntityList))
  let localPlayerP ← readSafe_uintptr process (uintptr (clientDll + offsets.DwLocalPlayerPawn))
  let localPlayerGameScene ←
    readSafe_uintptr process (uintptr (localPlayerP + offsets.M_pGameSceneNode))
  let localPlayerSceneOrigin ←
    readSafe_Vector3 process (uintptr (localPlayerGameScene + offsets.M_nodeToWorld))
  let viewMatrix ← readSafe_Matrix process (uintptr (clientDll + offsets.DwViewMatrix))
  pure ⟨entityList, localPlayerP, localPlayerGameScene, localPlayerSceneOrigin, viewMatrix⟩

/-- The body of the loop `for i := 0; i < 64; i++` (lines 448-604) for the
candidate index `i`. -/
def candidate (host : Host) (process : Image) (screenWidth screenHeight : Nat)
    (offsets : Offset) (frame : Frame) (i : Nat) : Scan Entity := do
  let listEntry ←
    readSafe_uintptr process (uintptr (frame.entityList + controllerChunkOffset i))
  continueIf (listEntry = 0)
  let entityController ← readSafe_uintptr process (uintptr (listEntry + controllerSlotOffset i))
  continueIf (entityController = 0)
  let entityControllerPawn ←
    readSafe_uintptr process (uintptr (entityController + offsets.M_hPlayerPawn))
  continueIf (entityControllerPawn = 0)
  let listEntry ←
    readSafe_uintptr process (uintptr (frame.entityList + pawnChunkOffset entityControllerPawn))
  continueIf (listEntry = 0)
  let entityPawn ←
    readSafe_uintptr process (uintptr (listEntry + pawnSlotOffset entityControllerPawn))
  continueIf (entityPawn = 0)
  continueIf (entityPawn = frame.localPlayerP)
  let entityLifeState ← readSafe_int32 process (uintptr (entityPawn + offsets.M_lifeState))
  continueIf (entityLifeState ≠ 256)
  let entityTeam ← readSafe_int32 process (uintptr (entityPawn + offsets.M_iTeamNum))
  continueIf (entityTeam = 0)
  teamCheckStep host process offsets frame.localPlayerP entityTeam
  let entityHealth ← readSafe_int32 process (uintptr (entityPawn + offsets.M_iHealth))
  continueIf (entityHealth < 1 ∨ entityHealth > 100)
  let entityNameAddress ←
    readSafe_uintptr process (uintptr (entityController + offsets.M_sSanitizedPlayerName))
  let entityName ← readSafe_string process entityNameAddress
  continueIf (entityName = [])
  let sanitizedNameStr := sanitize host.tables entityName
  let gameScene ← readSafe_uintptr process (uintptr (entityPawn + offsets.M_pGameSceneNode))
  continueIf (gameScene = 0)
  let entityBoneArray ← readSafe_uintptr process
    (uintptr (uintptr (gameScene + offsets.M_modelState) + offsets.M_boneArray))
  continueIf (entityBoneArray = 0)
  let entityOrigin ← readSafe_Vector3 process (uintptr (entityPawn + offsets.M_vOldOrigin))
  let entityBones ←
    boneLoop host process frame.viewMatrix entityBoneArray (host.boneOrder i).entries []
  let entityHead ← getEntityHead
  let entityHeadTop : Vector3 := ⟨entityHead.X, entityHead.Y, entityHead.Z + 7⟩
  let entityHeadBottom : Vector3 := ⟨entityHead.X, entityHead.Y, entityHead.Z - 5⟩
  let screenPosHeadX := (worldToScreen host.width host.height frame.viewMatrix entityHeadTop).1
  let screenPosHeadTopY := (worldToScreen host.width host.height frame.viewMatrix entityHeadTop).2
  let screenPosHeadBottomY :=
    (worldToScreen host.width host.height frame.viewMatrix entityHeadBottom).2
  let screenPosFeetX := (worldToScreen host.width host.height frame.viewMatrix entityOrigin).1
  let screenPosFeetY := (worldToScreen host.width host.height frame.viewMatrix entityOrigin).2
  let entityBoxTop : Vector3 := ⟨entityOrigin.X, entityOrigin.Y, entityOrigin.Z + 70⟩
  let screenPosBoxTop := (worldToScreen host.width host.height frame.viewMatrix entityBoxTop).2
  continueIf (screenPosHeadX ≤ -1 ∨ screenPosFeetY ≤ -1 ∨ screenPosHeadX ≥ (screenWidth : float32)
    ∨ screenPosHeadTopY ≥ (screenHeight : float32))
  let boxHeight := screenPosFeetY - screenPosBoxTop
  pure
    { Health := entityHealth
      Team := entityTeam
      Name := sanitizedNameStr
      Distance := entityOrigin.Dist frame.localPlayerSceneOrigin
      Position := ⟨screenPosFeetX, screenPosFeetY⟩
      Bones := entityBones
      HeadPos := ⟨screenPosHeadX, screenPosHeadTopY, screenPosHeadBottomY⟩
      Rect := ⟨screenPosBoxTop, screenPosFeetX - boxHeight / 4, screenPosFeetX + boxHeight / 4,
        screenPosFeetY⟩ }

/-- The loop over the candidate indices still to visit: an accepted candidate
is appended to `entities`, a rejected one is passed over, and a failed read
returns the `entities` collected so far. -/
def scanLoop (body : Nat → Scan Entity) : List Nat → List Entity → Vars → List Entity × Vars
  | [], entities, s => (entities, s)
  | i :: rest, entities, s =>
    match body i s with
    | (Flow.next tempEntity, s1) => scanLoop body rest (entities ++ [tempEntity]) s1
    | (Flow.skip, s1) => scanLoop body rest entities s1
    | (Flow.fault, s1) => (entities, s1)

/-- `getEntitiesInfo` together with the final state of its variables. -/
def getEntitiesRun (host : Host) (process : Image) (clientDll screenWidth screenHeight : Nat)
    (offsets : Offset) : List Entity × Vars :=
  match bootstrap process clientDll offsets ⟨[], ⟨0, 0, 0⟩⟩ with
  | (Flow.next frame, s1) =>
    scanLoop (candidate host process screenWidth screenHeight offsets frame) (List.range 64) [] s1
  | (_, s1) => ([], s1)

/-- `getEntitiesInfo` (`src/main.go`, lines 375-607). -/
def getEntitiesInfo (host : Host) (process : Image) (clientDll screenWidth screenHeight : Nat)
    (offsets : Offset) : List Entity :=
  (getEntitiesRun host process clientDll screenWidth screenHeight offsets).1

/-- The addresses `getEntitiesInfo` hands to `readSafe`, in order. -/
def readsIssued (host : Host) (process : Image) (clientDll screenWidth screenHeight : Nat)
    (offsets : Offset) : List Nat :=
  (getEntitiesRun host process clientDll screenWidth screenHeight offsets).2.reads

/-- A piece of the loop body only appends to the log of reads. -/
def Scan.Extends {α : Type} (m : Scan α) : Prop :=
  ∀ s : Vars, ∃ l : List Nat, (m s).2.reads = s.reads ++ l

/-! ## What an accepted candidate has read -/

/-- The values the loop body reads for one candidate up to the point where it
appends a snapshot. -/
structure Probe where
  listEntry : Nat
  entityController : Nat
  entityControllerPawn : Nat
  pawnListEntry : Nat
  entityPawn : Nat
  entityTeam : Int
  entityHealth : Int
  entityNameAddress : Nat
  entityName : List Nat
  gameScene : Nat
  entityBoneArray : Nat
  entityOrigin : Vector3
  entityHead : Vector3
  entityBones : List (String × Vector2)

/-- The five reads before the loop succeeded and delivered `frame`. -/
structure FrameRead (process : Image) (clientDll : Nat) (offsets : Offset) (frame : Frame) :
    Prop where
  entityList :
    peek_uintptr process (uintptr (clientDll + offsets.DwEntityList)) = some frame.entityList
  localPlayerP :
    peek_uintptr process (uintptr (clientDll + offsets.DwLocalPlayerPawn))
      = some frame.localPlayerP
  localPlayerGameScene :
    peek_uintptr process (uintptr (frame.localPlayerP + offsets.M_pGameSceneNode))
      = some frame.localPlayerGameScene
  localPlayerSceneOrigin :
    peek_Vector3 process (uintptr (frame.localPlayerGameScene + offsets.M_nodeToWorld))
      = some frame.localPlayerSceneOrigin
  viewMatrix :
    peek_Matrix process (uintptr (clientDll + offsets.DwViewMatrix)) = some frame.viewMatrix

/-- The loop body for candidate `i` read the values `p`, passed every check
and appended the snapshot `e`. -/
structure Accepted (host : Host) (process : Image) (screenWidth screenHeight : Nat)
    (offsets : Offset) (frame : Frame) (i : Nat) (p : Probe) (e : Entity) : Prop where
  chunk :
    peek_uintptr process (uintptr (frame.entityList + controllerChunkOffset i))
      = some p.listEntry
  chunk_ne : p.listEntry ≠ 0
  controller :
    peek_uintptr process (uintptr (p.listEntry + controllerSlotOffset i))
      = some p.entityController
  controller_ne : p.entityController ≠ 0
  handle :
    peek_uintptr process (uintptr (p.entityController + offsets.M_hPlayerPawn))
      = some p.entityControllerPawn
  handle_ne : p.entityControllerPawn ≠ 0
  pawnChunk :
    peek_uintptr process (uintptr (frame.entityList + pawnChunkOffset p.entityControllerPawn))
      = some p.pawnListEntry
  pawnChunk_ne : p.pawnListEntry ≠ 0
  pawn :
    peek_uintptr process (uintptr (p.pawnListEntry + pawnSlotOffset p.entityControllerPawn))
      = some p.entityPawn
  pawn_ne : p.entityPawn ≠ 0
  pawn_not_local : p.entityPawn ≠ frame.localPlayerP
  lifeState : peek_int32 process (uintptr (p.entityPawn + offsets.M_lifeState)) = some 256
  team : peek_int32 process (uintptr (p.entityPawn + offsets.M_iTeamNum)) = some p.entityTeam
  team_ne : p.entityTeam ≠ 0
  teamCheckStep :
    ∃ s1 s2, teamCheckStep host process offsets frame.localPlayerP p.entityTeam s1
      = (Flow.next (), s2)
  health : peek_int32 process (uintptr (p.entityPawn + offsets.M_iHealth)) = some p.entityHealth
  health_lo : 1 ≤ p.entityHealth
  health_hi : p.entityHealth ≤ 100
  nameAddress :
    peek_uintptr process (uintptr (p.entityController + offsets.M_sSanitizedPlayerName))
      = some p.entityNameAddress
  name : peek_string process p.entityNameAddress = some p.entityName
  name_ne : p.entityName ≠ []
  scene :
    peek_uintptr process (uintptr (p.entityPawn + offsets.M_pGameSceneNode)) = some p.gameScene
  scene_ne : p.gameScene ≠ 0
  boneArray :
    peek_uintptr process (uintptr (uintptr (p.gameScene + offsets.M_modelState)
      + offsets.M_boneArray)) = some p.entityBoneArray
  boneArray_ne : p.entityBoneArray ≠ 0
  origin :
    peek_Vector3 process (uintptr (p.entityPawn + offsets.M_vOldOrigin)) = some p.entityOrigin
  bonesLoop :
    ∃ s1 s2, boneLoop host process frame.viewMatrix p.entityBoneArray
        (host.boneOrder i).entries [] s1 = (Flow.next p.entityBones, s2)
      ∧ s2.entityHead = p.entityHead
  head : peek_Vector3 process (uintptr (p.entityBoneArray + 6 * 32)) = some p.entityHead
  headX_lo :
    ¬ (worldToScreen host.width host.height frame.viewMatrix
      ⟨p.entityHead.X, p.entityHead.Y, p.entityHead.Z + 7⟩).1 ≤ -1
  feetY_lo : ¬ (worldToScreen host.width host.height frame.viewMatrix p.entityOrigin).2 ≤ -1
  headX_hi :
    ¬ (worldToScreen host.width host.height frame.viewMatrix
      ⟨p.entityHead.X, p.entityHead.Y, p.entityHead.Z + 7⟩).1 ≥ (screenWidth : float32)
  headTopY_hi :
    ¬ (worldToScreen host.width host.height frame.viewMatrix
      ⟨p.entityHead.X, p.entityHead.Y, p.entityHead.Z + 7⟩).2 ≥ (screenHeight : float32)
  snapshot :
    e =
      { Health := p.entityHealth
        Team := p.entityTeam
        Name := sanitize host.tables p.entityName
        Position :=
          ⟨(worldToScreen host.width host.height frame.viewMatrix p.entityOrigin).1,
            (worldToScreen host.width host.height frame.viewMatrix p.entityOrigin).2⟩
        Bones := p.entityBones
        HeadPos :=
          ⟨(worldToScreen host.width host.height frame.viewMatrix
              ⟨p.entityHead.X, p.entityHead.Y, p.entityHead.Z + 7⟩).1,
            (worldToScreen host.width host.height frame.viewMatrix
              ⟨p.entityHead.X, p.entityHead.Y, p.entityHead.Z + 7⟩).2,
            (worldToScreen host.width host.height frame.viewMatrix
              ⟨p.entityHead.X, p.entityHead.Y, p.entityHead.Z - 5⟩).2⟩
        Distance := p.entityOrigin.Dist frame.localPlayerSceneOrigin
        Rect :=
          ⟨(worldToScreen host.width host.height frame.viewMatrix
              ⟨p.entityOrigin.X, p.entityOrigin.Y, p.entityOrigin.Z + 70⟩).2,
            (worldToScreen host.width host.height frame.viewMatrix p.entityOrigin).1
              - ((worldToScreen host.width host.height frame.viewMatrix p.entityOrigin).2
                - (worldToScreen host.width host.height frame.viewMatrix
                    ⟨p.entityOrigin.X, p.entityOrigin.Y, p.entityOrigin.Z + 70⟩).2) / 4,
            (worldToScreen host.width host.height frame.viewMatrix p.entityOrigin).1
              + ((worldToScreen host.width host.height frame.viewMatrix p.entityOrigin).2
                - (worldToScreen host.width host.height frame.viewMatrix
                    ⟨p.entityOrigin.X, p.entityOrigin.Y, p.entityOrigin.Z + 70⟩).2) / 4,
            (worldToScreen host.width host.height frame.viewMatrix p.entityOrigin).2⟩ }

/-! ## Schema resolution (`src/main.go`, lines 44-128) -/

/-- A value of Go type `interface{}` as `json.Unmarshal` produces it: `nil`,
`bool`, `float64` (here a rational), `string`, `[]interface{}` or
`map[string]interface{}`. A map is a list of entries, looked up by key. -/
inductive JSONValue where
  | null
  | bool (b : Bool)
  | number (f : ℚ)
  | string (s : String)
  | array (items : List JSONValue)
  | object (entries : List (String × JSONValue))

/-- Go `value, exists := data[key]` on a `map[string]interface{}`: `none` when
the key does not exist. -/
def mapIndex : List (String × JSONValue) → String → Option JSONValue
  | [], _ => none
  | (k, v) :: rest, key => if k = key then some v else mapIndex rest key

/-- Go conversion `uintptr(floatValue)` of a `float64`: the fraction is
discarded. For a value that does not fit a `uintptr` Go leaves the result to
the implementation; it is `outOfRange floatValue` here. -/
def uintptrOfFloat64 (outOfRange : ℚ → Nat) (floatValue : ℚ) : Nat :=
  if -1 < floatValue ∧ floatValue < 2 ^ 64 then Int.toNat (Rat.floor floatValue)
  else outOfRange floatValue

/-- `getValue` (lines 44-55). The result `none` stands for `log.Fatalf`, which
ends the process: the function does not return. -/
def getValue (outOfRange : ℚ → Nat) (data : List (String × JSONValue)) (key : String) :
    Option Nat :=
  match mapIndex data key with
  | none => none
  | some JSONValue.null => none
  | some (JSONValue.number floatValue) => some (uintptrOfFloat64 outOfRange floatValue)
  | some _ => none

/-- `getNestedFieldValue` (lines 57-128). The result `none` stands for
`log.Fatalf`, which ends the process: the function does not return. -/
def getNestedFieldValue (outOfRange : ℚ → Nat) (data : List (String × JSONValue))
    (dllKey classKey fieldKey : String) : Option Nat :=
  match mapIndex data dllKey with
  | none => none
  | some dllData =>
    match dllData with
    | JSONValue.object dllMap =>
      match mapIndex dllMap "classes" with
      | none => none
      | some classesData =>
        match classesData with
        | JSONValue.object classesMap =>
          match mapIndex classesMap classKey with
          | none => none
          | some classData =>
            match classData with
            | JSONValue.object classMap =>
              match mapIndex classMap "fields" with
              | none => none
              | some fieldsData =>
                match fieldsData with
                | JSONValue.object fieldsMap =>
                  match mapIndex fieldsMap fieldKey with
                  | none => none
                  | some fieldValue =>
                    match fieldValue with
                    | JSONValue.number floatValue =>
                      some (uintptrOfFloat64 outOfRange floatValue)
                    | _ => none
                | _ => none
            | _ => none
        | _ => none
    | _ => none

/-! ## How the loop body ends, and what the loop returns -/

/-- The way a piece of the loop body ends does not depend on the variables
it starts from. -/
def Scan.Steady {α : Type} (m : Scan α) : Prop := ∀ s t : Vars, (m s).1 = (m t).1

/-- A piece of the loop body never executes `return entities`. -/
def Scan.NoFault {α : Type} (m : Scan α) : Prop := ∀ s : Vars, (m s).1 ≠ Flow.fault

/-- The way the loop body ends for candidate `i`, taken from the initial
variables; it is the same from any other variables (`candidate_steady`). -/
def verdict (body : Nat → Scan Entity) (i : Nat) : Flow Entity := (body i ⟨[], ⟨0, 0, 0⟩⟩).1

/-- The snapshot of an accepted candidate. -/
def Flow.toOption {α : Type} : Flow α → Option α
  | Flow.next a => some a
  | Flow.skip => none
  | Flow.fault => none

/-- What the loop returns when its passes end in the given ways: the
snapshots of the accepted candidates up to the first failed read. -/
def gather : List (Flow Entity) → List Entity
  | [] => []
  | Flow.next tempEntity :: rest => tempEntity :: gather rest
  | Flow.skip :: rest => gather rest
  | Flow.fault :: _ => []

/-- Every address of the remote image is readable. -/
def Image.Total (process : Image) : Prop := ∀ address : Nat, (process address).isSome = true

/-- A snapshot without its skeleton. -/
def Entity.withoutBones (e : Entity) : Entity := { e with Bones := [] }

/-- The loop body for candidate `i` read the values `p` and got as far as
the team value (line 503): both list walks found a pawn other than the
local one, and it is alive. -/
structure ReachedTeam (process : Image) (offsets : Offset) (frame : Frame) (i : Nat)
    (p : Probe) : Prop where
  chunk :
    peek_uintptr process (uintptr (frame.entityList + controllerChunkOffset i))
      = some p.listEntry
  chunk_ne : p.listEntry ≠ 0
  controller :
    peek_uintptr process (uintptr (p.listEntry + controllerSlotOffset i))
      = some p.entityController
  controller_ne : p.entityController ≠ 0
  handle :
    peek_uintptr process (uintptr (p.entityController + offsets.M_hPlayerPawn))
      = some p.entityControllerPawn
  handle_ne : p.entityControllerPawn ≠ 0
  pawnChunk :
    peek_uintptr process (uintptr (frame.entityList + pawnChunkOffset p.entityControllerPawn))
      = some p.pawnListEntry
  pawnChunk_ne : p.pawnListEntry ≠ 0
  pawn :
    peek_uintptr process (uintptr (p.pawnListEntry + pawnSlotOffset p.entityControllerPawn))
      = some p.entityPawn
  pawn_ne : p.entityPawn ≠ 0
  pawn_not_local : p.entityPawn ≠ frame.localPlayerP
  lifeState : peek_int32 process (uintptr (p.entityPawn + offsets.M_lifeState)) = some 256
  team : peek_int32 process (uintptr (p.entityPawn + offsets.M_iTeamNum)) = some p.entityTeam

/-- The addresses read up to and including the team value. -/
def readsToTeam (offsets : Offset) (frame : Frame) (i : Nat) (p : Probe) : List Nat :=
  [uintptr (frame.entityList + controllerChunkOffset i),
    uintptr (p.listEntry + controllerSlotOffset i),
    uintptr (p.entityController + offsets.M_hPlayerPawn),
    uintptr (frame.entityList + pawnChunkOffset p.entityControllerPawn),
    uintptr (p.pawnListEntry + pawnSlotOffset p.entityControllerPawn),
    uintptr (p.entityPawn + offsets.M_lifeState),
    uintptr (p.entityPawn + offsets.M_iTeamNum)]

/-- The loop body for candidate `i` read the values `p` and got as far as
the health value (line 521): it reached the team value, the team is not 0
and, when `teamCheck` is on, the local team was read and differs. -/
structure ReachedHealth (host : Host) (process : Image) (offsets : Offset) (frame : Frame)
    (i : Nat) (p : Probe) : Prop where
  reachedTeam : ReachedTeam process offsets frame i p
  team_ne : p.entityTeam ≠ 0
  team_differs :
    host.teamCheck = true →
      ∃ localTeam, peek_int32 process (uintptr (frame.localPlayerP + offsets.M_iTeamNum))
          = some localTeam ∧ localTeam ≠ p.entityTeam
  health : peek_int32 process (uintptr (p.entityPawn + offsets.M_iHealth)) = some p.entityHealth

/-- The addresses read up to and including the health value. -/
def readsToHealth (host : Host) (offsets : Offset) (frame : Frame) (i : Nat) (p : Probe) :
    List Nat :=
  readsToTeam offsets frame i p
    ++ (if host.teamCheck then [uintptr (frame.localPlayerP + offsets.M_iTeamNum)] else [])
    ++ [uintptr (p.entityPawn + offsets.M_iHealth)]

/-- Apply a function to the value a piece goes on with. -/
def Flow.map {α β : Type} (f : α → β) : Flow α → Flow β
  | Flow.next a => Flow.next (f a)
  | Flow.skip => Flow.skip
  | Flow.fault => Flow.fault

/-- The pass `bare` ends as the pass `full` does, up to the skeleton of the
snapshot, unless `full` ends in a failed read. -/
def SameButBones (full bare : Flow Entity) : Prop :=
  full ≠ Flow.fault → bare.map Entity.withoutBones = full.map Entity.withoutBones
/-! ## Concrete remote images -/

/-- Four little-endian bytes of a 32-bit pattern. -/
def le32 (n : Nat) : List Nat := [n % 256, n / 2 ^ 8 % 256, n / 2 ^ 16 % 256, n / 2 ^ 24 % 256]

/-- Eight little-endian bytes of a 64-bit pattern. -/
def le64 (n : Nat) : List Nat := le32 (n % 2 ^ 32) ++ le32 (n / 2 ^ 32)

/-- A memory image given by byte segments (base address, bytes) laid over
zero-filled regions (base address, length); every other address is
unreadable. -/
def imageOf (segments : List (Nat × List Nat)) (zeros : List (Nat × Nat)) : Image := fun a =>
  match segments.find? (fun seg => decide (seg.1 ≤ a) && decide (a < seg.1 + seg.2.length)) with
  | some seg => seg.2.get? (a - seg.1)
  | none =>
    if zeros.any (fun z => decide (z.1 ≤ a) && decide (a < z.1 + z.2)) then some 0 else none

/-- The offsets used by the concrete images. -/
def sceneOffsets : Offset :=
  { DwViewMatrix := 0x200
    DwLocalPlayerPawn := 0x108
    DwEntityList := 0x100
    M_hPlayerPawn := 0x10
    M_iHealth := 0x20
    M_lifeState := 0x24
    M_iTeamNum := 0x28
    M_vOldOrigin := 0x30
    M_pGameSceneNode := 0x40
    M_modelState := 0x50
    M_boneArray := 128
    M_nodeToWorld := 0x10
    M_sSanitizedPlayerName := 0x18 }

/-- The knobs of the concrete images: the sixteen floats of the view matrix
(as bit patterns), the player's name pointer and name bytes, the bit
patterns of the player's origin, and joint samples that differ from zero
(joint index, three bit patterns). -/
structure Scene where
  matrixBits : List Nat
  nameAddress : Nat
  nameBytes : List Nat
  originBits : List Nat
  joints : List (Nat × List Nat)

/-- A remote image with module base `0x10000` and one player: list head
`0x20000`, one chunk at `0x30000`, the controller `0x40000` in slot 3, its
pawn handle 70, the pawn `0x50000` in slot 70 (alive, team 3, health 80),
scene node `0x60000`, bone array `0x70000`; the local pawn `0x80000` (team 2)
with scene node `0x90000`. -/
def sceneImage (sc : Scene) : Image :=
  imageOf
    ([ (0x10100, le64 0x20000), (0x10108, le64 0x80000),
       (0x10200, sc.matrixBits.flatMap le32),
       (0x20010, le64 0x30000),
       (0x30000 + 120 * 3, le64 0x40000),
       (0x30000 + 120 * 70, le64 0x50000),
       (0x40010, le64 70), (0x40018, le64 sc.nameAddress),
       (0x48000, sc.nameBytes),
       (0x50020, le32 80), (0x50024, le32 256), (0x50028, le32 3),
       (0x50030, sc.originBits.flatMap le32),
       (0x50040, le64 0x60000),
       (0x600D0, le64 0x70000),
       (0x80028, le32 2), (0x80040, le64 0x90000) ]
      ++ sc.joints.map (fun j => (0x70000 + j.1 * 32, j.2.flatMap le32)))
    [(0x30000, 0x3000), (0x40000, 0x100), (0x50000, 0x100), (0x70000, 0x400),
      (0x80000, 0x100), (0x90000, 0x100)]

/-- Bit patterns of the identity matrix (`0x3F800000` is `1.0`). -/
def identityBits : List Nat :=
  [0x3F800000, 0, 0, 0, 0, 0x3F800000, 0, 0, 0, 0, 0x3F800000, 0, 0, 0, 0, 0x3F800000]

/-- The name `Alice`, padded with NUL bytes to the 16 bytes that are read. -/
def aliceBytes : List Nat := [0x41, 0x6C, 0x69, 0x63, 0x65, 0, 0, 0, 0, 0, 0, 0, 0, 0, 0, 0]

/-- Range tables with no entry above U+00FF. -/
def noTables : RangeTables :=
  ⟨fun _ => false, fun _ => false, fun _ => false, fun _ => false, rfl, rfl, rfl, rfl⟩

/-- A 1920x1080 host that visits the joint table in the order it is written. -/
def sceneHost (teamCheck skeletonRendering : Bool) : Host :=
  { width := 1920
    height := 1080
    teamCheck := teamCheck
    skeletonRendering := skeletonRendering
    tables := noTables
    boneOrder := fun _ => ⟨bones, List.Perm.refl _⟩ }

/-- The player stands at the world origin, all joints at the origin, under
the identity view matrix. -/
def plainScene : Scene := ⟨identityBits, 0x48000, aliceBytes, [0, 0, 0], []⟩

/-- The player's sixteen name bytes are all NUL. -/
def nulNameScene : Scene := ⟨identityBits, 0x48000, List.replicate 16 0x00, [0, 0, 0], []⟩

/-- The player's sixteen name bytes are all the bell character. -/
def bellNameScene : Scene := ⟨identityBits, 0x48000, List.replicate 16 0x07, [0, 0, 0], []⟩

/-- A view matrix whose second row is `(0, 0, 1/128, 0)`, so that height in
the world moves a point on the screen (`0x3C000000` is `1/128`). -/
def tiltedScene : Scene :=
  ⟨[0x3F800000, 0, 0, 0, 0, 0, 0x3C000000, 0, 0, 0, 0x3F800000, 0, 0, 0, 0, 0x3F800000],
    0x48000, aliceBytes, [0, 0, 0], []⟩

/-- The player's origin is `(0, -3, 0)` (`0xC0400000` is `-3.0`): the feet
project below the bottom of the screen, the head stays on it. -/
def lowFeetScene : Scene := ⟨identityBits, 0x48000, aliceBytes, [0, 0xC0400000, 0], []⟩

/-- The head joint (index 6) is at `(0, 3, 0)` (`0x40400000` is `3.0`): the
head projects above the top of the screen. -/
def highHeadScene : Scene :=
  ⟨identityBits, 0x48000, aliceBytes, [0, 0, 0], [(6, [0, 0x40400000, 0])]⟩

/-- The head joint (index 6) has the bit pattern `0x7FC00000` (NaN) in its
`X`. -/
def nanHeadScene : Scene :=
  ⟨identityBits, 0x48000, aliceBytes, [0, 0, 0], [(6, [0x7FC00000, 0, 0])]⟩

/-- The controller's name pointer is null. -/
def nullNameScene : Scene := ⟨identityBits, 0, aliceBytes, [0, 0, 0], []⟩

/-- The snapshot `getEntitiesInfo` returns for `plainScene`: every projected
point is the screen centre `(960.5, 539.5)`. -/
def plainSnapshot : Entity :=
  { Health := 80
    Team := 3
    Name := [0x41, 0x6C, 0x69, 0x63, 0x65]
    Position := ⟨1921 / 2, 1079 / 2⟩
    Bones := bones.map (fun b => (b.1, ⟨1921 / 2, 1079 / 2⟩))
    HeadPos := ⟨1921 / 2, 1079 / 2, 1079 / 2⟩
    Distance := 0
    Rect := ⟨1079 / 2, 1921 / 2, 1921 / 2, 1079 / 2⟩ }

/-- The snapshot `getEntitiesInfo` returns for `tiltedScene`. -/
def tiltedSnapshot : Entity :=
  { plainSnapshot with
    HeadPos := ⟨1921 / 2, 16319 / 32, 17939 / 32⟩
    Rect := ⟨3907 / 16, 56747 / 64, 66197 / 64, 1079 / 2⟩ }

/-- The frame read from the concrete images. -/
def sceneFrame : Frame := ⟨0x20000, 0x80000, 0x90000, ⟨0, 0, 0⟩, identityMatrix⟩

/-- The values the loop body reads for the player of the concrete images. -/
def sceneProbe : Probe :=
  { listEntry := 0x30000
    entityController := 0x40000
    entityControllerPawn := 70
    pawnListEntry := 0x30000
    entityPawn := 0x50000
    entityTeam := 3
    entityHealth := 80
    entityNameAddress := 0x48000
    entityName := aliceBytes
    gameScene := 0x60000
    entityBoneArray := 0x70000
    entityOrigin := ⟨0, 0, 0⟩
    entityHead := ⟨0, 0, 0⟩
    entityBones := plainSnapshot.Bones }

/-- The image of `plainScene` with a second controller pointer in slot 5 of
the chunk, to the address `0xA0000`, which is not readable. -/
def faultImage : Image := fun a =>
  if 0x30258 ≤ a ∧ a < 0x30260 then (le64 0xA0000).get? (a - 0x30258)
  else sceneImage plainScene a

/-- An image in which no address is readable. -/
def emptyImage : Image := fun _ => none

/-- The joint table visited from its last entry to its first. -/
def reversedOrder : Nat → BoneOrder := fun _ => ⟨bones.reverse, List.reverse_perm bones⟩

/-- The image `process` with `bytes` stored from `address` on. -/
def patchImage (process : Image) (address : Nat) (bytes : List Nat) : Image := fun a =>
  if address ≤ a ∧ a < address + bytes.length then bytes.get? (a - address) else process a

/-- The player's origin is `(3, -4, 5)`. -/
def farScene : Scene :=
  ⟨identityBits, 0x48000, aliceBytes, [0x40400000, 0xC0800000, 0x40A00000], []⟩

/-- The image of `farScene` with the scene origin of the local observer set
to `(1, 2, 3)`. -/
def farImage : Image :=
  patchImage (sceneImage farScene) 0x90010 ([0x3F800000, 0x40000000, 0x40400000].flatMap le32)

/-- Joint `n` of the skeleton is at `(2^-(n+1), -2^-(n+1), 0)`: the 17 joints
of the table are at 17 different places. -/
def posedScene : Scene :=
  ⟨identityBits, 0x48000, aliceBytes, [0, 0, 0],
    bones.map (fun b => (b.2, [(126 - b.2) * 2 ^ 23, 2 ^ 31 + (126 - b.2) * 2 ^ 23, 0]))⟩

/-- The image of `plainScene` with the player's health set to `h`. -/
def healthImage (h : Nat) : Image := patchImage (sceneImage plainScene) 0x50020 (le32 h)

/-- The image of `plainScene` with the player's team set to `t`. -/
def teamImage (t : Nat) : Image := patchImage (sceneImage plainScene) 0x50028 (le32 t)
/-! ## Lemmas: arithmetic and comparisons of `float32` -/

theorem float32.num_add_num (a b : ℚ) : float32.num a + float32.num b = float32.num (a + b) :=
  rfl

theorem float32.num_sub_num (a b : ℚ) : float32.num a - float32.num b = float32.num (a - b) := by
  show float32.add (float32.num a) (float32.neg (float32.num b)) = _
  simp only [float32.neg, float32.add, sub_eq_add_neg]

theorem float32.num_mul_num (a b : ℚ) : float32.num a * float32.num b = float32.num (a * b) :=
  rfl

theorem float32.num_div_num (a b : ℚ) (hb : b ≠ 0) :
    float32.num a / float32.num b = float32.num (a / b) := by
  show float32.div (float32.num a) (float32.num b) = _
  simp only [float32.div, hb, if_false]

theorem float32.neg_num (a : ℚ) : -float32.num a = float32.num (-a) := rfl

theorem float32.natCast_eq (n : Nat) : ((n : Nat) : float32) = float32.num (n : ℚ) := rfl

theorem float32.num_lt_num (a b : ℚ) : float32.num a < float32.num b ↔ a < b := by
  show float32.less (float32.num a) (float32.num b) = true ↔ _
  simp only [float32.less, decide_eq_true_eq]

theorem float32.num_le_num (a b : ℚ) : float32.num a ≤ float32.num b ↔ a ≤ b := by
  show float32.lessEq (float32.num a) (float32.num b) = true ↔ _
  simp only [float32.lessEq, decide_eq_true_eq]

theorem float32.not_nan_lt (b : float32) : ¬ float32.nan < b := by
  show ¬ float32.less float32.nan b = true
  cases b <;> simp [float32.less]

theorem float32.not_lt_nan (a : float32) : ¬ a < float32.nan := by
  show ¬ float32.less a float32.nan = true
  cases a <;> simp [float32.less]

theorem float32.not_nan_le (b : float32) : ¬ float32.nan ≤ b := by
  show ¬ float32.lessEq float32.nan b = true
  cases b <;> simp [float32.lessEq]

theorem float32.not_le_nan (a : float32) : ¬ a ≤ float32.nan := by
  show ¬ float32.lessEq a float32.nan = true
  cases a <;> simp [float32.lessEq]

/-- Multiplying by the reciprocal of `w` is dividing by `w`, for every `w`
that passes the test `w < 0.01` of `worldToScreen`. -/
theorem float32.mul_one_div (a w : float32) (hw : ¬ w < 0.01) : a * (1.0 / w) = a / w := by
  have h1 : (1.0 : float32) = float32.num 1 := by decide!
  have h001 : (0.01 : float32) = float32.num 0.01 := rfl
  rw [h1]
  rw [h001] at hw
  cases w with
  | num b =>
    rw [float32.num_lt_num] at hw
    have hb : 0 < b := by
      have : (0.01 : ℚ) ≤ b := not_lt.mp hw
      have h2 : (0 : ℚ) < 0.01 := by norm_num
      linarith
    have hb0 : b ≠ 0 := ne_of_gt hb
    rw [float32.num_div_num _ _ hb0]
    cases a with
    | num q =>
      rw [float32.num_mul_num, float32.num_div_num _ _ hb0]
      congr 1
      field_simp
    | inf s =>
      have hpos : (0 : ℚ) < 1 / b := by positivity
      have hne : (1 : ℚ) / b ≠ 0 := ne_of_gt hpos
      have hn1 : ¬ ((1 : ℚ) / b < 0) := not_lt.mpr (le_of_lt hpos)
      have hn2 : ¬ (b < 0) := not_lt.mpr (le_of_lt hb)
      show float32.mul (float32.inf s) (float32.num (1 / b))
        = float32.div (float32.inf s) (float32.num b)
      simp only [float32.mul, float32.div, hne, if_false, hn1, hn2, decide_False]
    | nan => rfl
  | inf t =>
    cases a with
    | num q =>
      show float32.mul (float32.num q) (float32.div (float32.num 1) (float32.inf t))
        = float32.div (float32.num q) (float32.inf t)
      simp only [float32.div, float32.mul, mul_zero]
    | inf s =>
      show float32.mul (float32.inf s) (float32.div (float32.num 1) (float32.inf t))
        = float32.div (float32.inf s) (float32.inf t)
      simp only [float32.div, float32.mul, if_true]
    | nan => rfl
  | nan =>
    cases a <;> rfl

theorem float32.num_add_assoc (a c : ℚ) (t : float32) :
    float32.num a + (t + float32.num c) = float32.num a + t + float32.num c := by
  cases t with
  | num b => simp only [float32.num_add_num, add_assoc]
  | inf s => rfl
  | nan => rfl

theorem float32.num_sub_add (a c : ℚ) (t : float32) :
    float32.num a - (t + float32.num c) = float32.num a - t - float32.num c := by
  cases t with
  | num b => simp only [float32.num_add_num, float32.num_sub_num, sub_sub]
  | inf s => rfl
  | nan => rfl

theorem float32.sub_def (a b : float32) : a - b = float32.add a (float32.neg b) := rfl
theorem and_0x7FFF (v : Nat) : v &&& 0x7FFF = v % 32768 :=
  Nat.and_pow_two_sub_one_eq_mod v 15

theorem and_0x1FF (v : Nat) : v &&& 0x1FF = v % 512 :=
  Nat.and_pow_two_sub_one_eq_mod v 9

theorem controllerChunkOffset_eq (v : Nat) : controllerChunkOffset v = 8 * (v % 32768) / 512 + 16 := by
  unfold controllerChunkOffset
  rw [and_0x7FFF, Nat.shiftRight_eq_div_pow]

theorem pawnChunkOffset_eq (v : Nat) : pawnChunkOffset v = 8 * (v % 32768 / 512) + 16 := by
  unfold pawnChunkOffset
  rw [and_0x7FFF, Nat.shiftRight_eq_div_pow]

/-! ## Lemmas: UTF-8 iteration and encoding -/

theorem decodeRune_valid (s : List Nat) : ValidRune (decodeRune s).1 := by
  unfold decodeRune ValidRune RuneError
  repeat' split
  all_goals simp only [acceptLo, acceptHi] at *
  all_goals first | omega | (split_ifs at * <;> omega)

theorem decodeRune_size (s0 : Nat) (rest : List Nat) :
    1 ≤ (decodeRune (s0 :: rest)).2 ∧ (decodeRune (s0 :: rest)).2 ≤ (s0 :: rest).length := by
  unfold decodeRune
  simp only []
  repeat' split
  all_goals simp

theorem decodeRune_appendRune (r : Nat) (hr : ValidRune r) (rest : List Nat) :
    decodeRune (appendRune [] r ++ rest) = (r, (appendRune [] r).length) := by
  unfold ValidRune at hr
  unfold appendRune
  split_ifs with h1 h2 h3 h4
  · simp [decodeRune]; omega
  · have e0 : ¬ (192 + r / 64 < 128) := by omega
    have e1 : ¬ (192 + r / 64 < 194) := by omega
    have e2 : 192 + r / 64 < 224 := by omega
    have e3 : ¬ (128 + r % 64 < acceptLo (192 + r / 64)
        ∨ acceptHi (192 + r / 64) < 128 + r % 64) := by
      simp only [acceptLo, acceptHi]; split_ifs <;> omega
    simp only [List.nil_append, List.cons_append, decodeRune, e0, e1, e2, e3, if_true, if_false,
      List.length_cons, List.length_nil, Prod.mk.injEq, and_true]
    omega
  · omega
  · have e0 : ¬ (224 + r / 4096 < 128) := by omega
    have e1 : ¬ (224 + r / 4096 < 194) := by omega
    have e2 : ¬ (224 + r / 4096 < 224) := by omega
    have e2b : (224 + r / 4096 < 240) := by omega
    have e3 : ¬ (128 + r / 64 % 64 < acceptLo (224 + r / 4096)
        ∨ acceptHi (224 + r / 4096) < 128 + r / 64 % 64) := by
      simp only [acceptLo, acceptHi]; split_ifs <;> omega
    have e4 : ¬ (128 + r % 64 < 128 ∨ 191 < 128 + r % 64) := by omega
    simp only [List.nil_append, List.cons_append, decodeRune, e0, e1, e2, e2b, e3, e4, if_true,
      if_false, List.length_cons, List.length_nil, Prod.mk.injEq, and_true]
    omega
  · have e0 : ¬ (240 + r / 262144 < 128) := by omega
    have e1 : ¬ (240 + r / 262144 < 194) := by omega
    have e2 : ¬ (240 + r / 262144 < 224) := by omega
    have e2b : ¬ (240 + r / 262144 < 240) := by omega
    have e2c : (240 + r / 262144 < 245) := by omega
    have e3 : ¬ (128 + r / 4096 % 64 < acceptLo (240 + r / 262144)
        ∨ acceptHi (240 + r / 262144) < 128 + r / 4096 % 64) := by
      simp only [acceptLo, acceptHi]; split_ifs <;> omega
    have e4 : ¬ (128 + r / 64 % 64 < 128 ∨ 191 < 128 + r / 64 % 64) := by omega
    have e5 : ¬ (128 + r % 64 < 128 ∨ 191 < 128 + r % 64) := by omega
    simp only [List.nil_append, List.cons_append, decodeRune, e0, e1, e2, e2b, e2c, e3, e4, e5,
      if_true, if_false, List.length_cons, List.length_nil, Prod.mk.injEq, and_true]
    omega

/-- Fuel beyond the length of the string changes nothing: the range loop
always runs to the end of the string. -/
theorem stringRunesAux_fuel (fuel : Nat) : ∀ s : List Nat, s.length ≤ fuel →
    stringRunesAux fuel s = stringRunesAux s.length s := by
  induction fuel using Nat.strong_induction_on with
  | _ fuel ih =>
    intro s hs
    cases s with
    | nil => cases fuel <;> rfl
    | cons s0 rest =>
      cases fuel with
      | zero => simp at hs
      | succ f =>
        have hsz := decodeRune_size s0 rest
        simp only [List.length_cons, stringRunesAux]
        have hlen : ((s0 :: rest).drop (decodeRune (s0 :: rest)).2).length ≤ rest.length := by
          simp only [List.length_drop, List.length_cons]; omega
        rw [ih f (by omega) _ (by simp only [List.length_cons] at hs; omega),
          ih rest.length (by simp only [List.length_cons] at hs; omega) _ hlen]

theorem stringRunes_nil : stringRunes [] = [] := rfl

theorem stringRunes_cons (s0 : Nat) (rest : List Nat) :
    stringRunes (s0 :: rest) = (decodeRune (s0 :: rest)).1
      :: stringRunes ((s0 :: rest).drop (decodeRune (s0 :: rest)).2) := by
  have hsz := decodeRune_size s0 rest
  unfold stringRunes
  simp only [List.length_cons, stringRunesAux]
  rw [stringRunesAux_fuel rest.length _
    (by simp only [List.length_drop, List.length_cons]; omega)]

theorem stringRunes_valid_aux (n : Nat) : ∀ s : List Nat, s.length ≤ n →
    ∀ r ∈ stringRunes s, ValidRune r := by
  induction n with
  | zero =>
    intro s hs r hr
    have : s = [] := List.length_eq_zero.mp (Nat.le_zero.mp hs)
    subst this
    simp [stringRunes, stringRunesAux] at hr
  | succ n ih =>
    intro s hs r hr
    cases s with
    | nil => simp [stringRunes, stringRunesAux] at hr
    | cons s0 rest =>
      rw [stringRunes_cons] at hr
      have hsz := decodeRune_size s0 rest
      rcases List.mem_cons.mp hr with h1 | h1
      · rw [h1]; exact decodeRune_valid _
      · refine ih _ ?_ r h1
        simp only [List.length_drop, List.length_cons] at hs ⊢; omega

theorem stringRunes_valid (s : List Nat) : ∀ r ∈ stringRunes s, ValidRune r :=
  stringRunes_valid_aux s.length s (Nat.le_refl _)

theorem stringRunes_appendRune (r : Nat) (hr : ValidRune r) (rest : List Nat) :
    stringRunes (appendRune [] r ++ rest) = r :: stringRunes rest := by
  have hd := decodeRune_appendRune r hr rest
  have hne : ∃ b bs, appendRune [] r = b :: bs := by
    unfold appendRune
    split_ifs <;> simp
  obtain ⟨b, bs, hb⟩ := hne
  have hcons : appendRune [] r ++ rest = b :: (bs ++ rest) := by rw [hb]; rfl
  rw [hcons, stringRunes_cons, ← hcons, hd]
  simp

theorem stringRunes_encodeRunes (rs : List Nat) (h : ∀ r ∈ rs, ValidRune r) :
    stringRunes (encodeRunes rs) = rs := by
  induction rs with
  | nil => rfl
  | cons r rs ih =>
    simp only [encodeRunes]
    rw [stringRunes_appendRune r (h r (List.mem_cons_self _ _)),
      ih (fun x hx => h x (List.mem_cons_of_mem _ hx))]

theorem appendRune_eq_append (p : List Nat) (r : Nat) : appendRune p r = p ++ appendRune [] r := by
  unfold appendRune
  split_ifs <;> simp

theorem sanitize_fold (t : RangeTables) (rs : List Nat) : ∀ acc : List Nat,
    rs.foldl (fun sanitizedName c =>
        if keepRune t c then appendRune sanitizedName c else sanitizedName) acc
      = acc ++ encodeRunes (rs.filter (keepRune t)) := by
  induction rs with
  | nil => intro acc; simp [encodeRunes]
  | cons r rs ih =>
    intro acc
    simp only [List.foldl_cons, List.filter_cons]
    by_cases hk : keepRune t r = true
    · simp only [hk, if_true, encodeRunes]
      rw [ih, appendRune_eq_append, List.append_assoc]
    · simp only [hk, if_false]
      rw [ih]
      simp

theorem sanitize_eq_encode (t : RangeTables) (raw : List Nat) :
    sanitize t raw = encodeRunes ((stringRunes raw).filter (keepRune t)) := by
  unfold sanitize
  rw [sanitize_fold]
  rfl

theorem stringRunes_sanitize (t : RangeTables) (raw : List Nat) :
    stringRunes (sanitize t raw) = (stringRunes raw).filter (keepRune t) := by
  rw [sanitize_eq_encode]
  apply stringRunes_encodeRunes
  intro r hr
  exact stringRunes_valid raw r (List.mem_of_mem_filter hr)

theorem keepRune_bell (t : RangeTables) : keepRune t 0x07 = false := rfl

/-! ## Lemmas: control flow -/

theorem bind_next_iff {α β : Type} (m : Scan α) (k : α → Scan β) (s s2 : Vars) (b : β) :
    (m >>= k) s = (Flow.next b, s2)
      ↔ ∃ a s1, m s = (Flow.next a, s1) ∧ k a s1 = (Flow.next b, s2) := by
  show Scan.bind m k s = (Flow.next b, s2) ↔ _
  unfold Scan.bind
  rcases hm : m s with ⟨f, s1⟩
  cases f with
  | next a =>
    constructor
    · intro h
      exact ⟨a, s1, rfl, h⟩
    · rintro ⟨a1, s3, h1, h2⟩
      cases h1
      exact h2
  | skip => simp
  | fault => simp

theorem pure_next_iff {α : Type} (a b : α) (s s2 : Vars) :
    (pure a : Scan α) s = (Flow.next b, s2) ↔ a = b ∧ s = s2 := by
  show Scan.pure a s = (Flow.next b, s2) ↔ _
  simp [Scan.pure]

theorem continueIf_next_iff (c : Prop) [Decidable c] (s s2 : Vars) (u : Unit) :
    continueIf c s = (Flow.next u, s2) ↔ ¬ c ∧ s = s2 := by
  unfold continueIf
  by_cases hc : c <;> simp [hc]

theorem getEntityHead_next_iff (s s2 : Vars) (v : Vector3) :
    getEntityHead s = (Flow.next v, s2) ↔ s.entityHead = v ∧ s = s2 := by
  simp [getEntityHead]

theorem setEntityHead_next_iff (c : Vector3) (s s2 : Vars) (u : Unit) :
    setEntityHead c s = (Flow.next u, s2) ↔ { s with entityHead := c } = s2 := by
  simp [setEntityHead]

theorem readSafe_next_iff {α : Type} (process : Image) (address size : Nat)
    (decode : List Nat → α) (s s2 : Vars) (x : α) :
    readSafe process address size decode s = (Flow.next x, s2)
      ↔ (readMemoryNt process address size).map decode = some x
        ∧ s.log address = s2 := by
  unfold readSafe
  cases readMemoryNt process address size with
  | none => simp
  | some buffer => simp

theorem readSafe_uintptr_next_iff (process : Image) (address : Nat) (s s2 : Vars) (x : Nat) :
    readSafe_uintptr process address s = (Flow.next x, s2)
      ↔ peek_uintptr process address = some x
        ∧ s.log address = s2 :=
  readSafe_next_iff process address 8 Uint64 s s2 x

theorem readSafe_int32_next_iff (process : Image) (address : Nat) (s s2 : Vars) (x : Int) :
    readSafe_int32 process address s = (Flow.next x, s2)
      ↔ peek_int32 process address = some x
        ∧ s.log address = s2 :=
  readSafe_next_iff process address 4 decodeInt32 s s2 x

theorem readSafe_string_next_iff (process : Image) (address : Nat) (s s2 : Vars)
    (x : List Nat) :
    readSafe_string process address s = (Flow.next x, s2)
      ↔ peek_string process address = some x
        ∧ s.log address = s2 :=
  readSafe_next_iff process address 16 id s s2 x

theorem readSafe_Vector3_next_iff (process : Image) (address : Nat) (s s2 : Vars)
    (x : Vector3) :
    readSafe_Vector3 process address s = (Flow.next x, s2)
      ↔ peek_Vector3 process address = some x
        ∧ s.log address = s2 :=
  readSafe_next_iff process address 12 decodeVector3 s s2 x

theorem readSafe_Matrix_next_iff (process : Image) (address : Nat) (s s2 : Vars)
    (x : Matrix) :
    readSafe_Matrix process address s = (Flow.next x, s2)
      ↔ peek_Matrix process address = some x
        ∧ s.log address = s2 :=
  readSafe_next_iff process address 64 decodeMatrix s s2 x

theorem bind_readSafe_next_iff {α β : Type} (process : Image) (address size : Nat)
    (decode : List Nat → α) (k : α → Scan β) (s s2 : Vars) (b : β) :
    (readSafe process address size decode >>= k) s = (Flow.next b, s2)
      ↔ ∃ x, (readMemoryNt process address size).map decode = some x
          ∧ k x (s.log address) = (Flow.next b, s2) := by
  rw [bind_next_iff]
  constructor
  · rintro ⟨a, s1, h1, h2⟩
    rw [readSafe_next_iff] at h1
    obtain ⟨h3, h4⟩ := h1
    subst h4
    exact ⟨a, h3, h2⟩
  · rintro ⟨x, h1, h2⟩
    exact ⟨x, s.log address, (readSafe_next_iff _ _ _ _ _ _ _).mpr ⟨h1, rfl⟩, h2⟩

theorem bind_uintptr_next_iff {β : Type} (process : Image) (address : Nat)
    (k : Nat → Scan β) (s s2 : Vars) (b : β) :
    (readSafe_uintptr process address >>= k) s = (Flow.next b, s2)
      ↔ ∃ x, peek_uintptr process address = some x
          ∧ k x (s.log address) = (Flow.next b, s2) :=
  bind_readSafe_next_iff process address 8 Uint64 k s s2 b

theorem bind_int32_next_iff {β : Type} (process : Image) (address : Nat)
    (k : Int → Scan β) (s s2 : Vars) (b : β) :
    (readSafe_int32 process address >>= k) s = (Flow.next b, s2)
      ↔ ∃ x, peek_int32 process address = some x
          ∧ k x (s.log address) = (Flow.next b, s2) :=
  bind_readSafe_next_iff process address 4 decodeInt32 k s s2 b

theorem bind_string_next_iff {β : Type} (process : Image) (address : Nat)
    (k : List Nat → Scan β) (s s2 : Vars) (b : β) :
    (readSafe_string process address >>= k) s = (Flow.next b, s2)
      ↔ ∃ x, peek_string process address = some x
          ∧ k x (s.log address) = (Flow.next b, s2) :=
  bind_readSafe_next_iff process address 16 id k s s2 b

theorem bind_Vector3_next_iff {β : Type} (process : Image) (address : Nat)
    (k : Vector3 → Scan β) (s s2 : Vars) (b : β) :
    (readSafe_Vector3 process address >>= k) s = (Flow.next b, s2)
      ↔ ∃ x, peek_Vector3 process address = some x
          ∧ k x (s.log address) = (Flow.next b, s2) :=
  bind_readSafe_next_iff process address 12 decodeVector3 k s s2 b

theorem bind_Matrix_next_iff {β : Type} (process : Image) (address : Nat)
    (k : Matrix → Scan β) (s s2 : Vars) (b : β) :
    (readSafe_Matrix process address >>= k) s = (Flow.next b, s2)
      ↔ ∃ x, peek_Matrix process address = some x
          ∧ k x (s.log address) = (Flow.next b, s2) :=
  bind_readSafe_next_iff process address 64 decodeMatrix k s s2 b

theorem bind_continueIf_next_iff {β : Type} (c : Prop) [Decidable c] (k : Unit → Scan β)
    (s s2 : Vars) (b : β) :
    (continueIf c >>= k) s = (Flow.next b, s2) ↔ ¬ c ∧ k () s = (Flow.next b, s2) := by
  rw [bind_next_iff]
  constructor
  · rintro ⟨a, s1, h1, h2⟩
    rw [continueIf_next_iff] at h1
    obtain ⟨h3, h4⟩ := h1
    subst h4
    exact ⟨h3, h2⟩
  · rintro ⟨h1, h2⟩
    exact ⟨(), s, (continueIf_next_iff _ _ _ _).mpr ⟨h1, rfl⟩, h2⟩

theorem bind_getEntityHead_next_iff {β : Type} (k : Vector3 → Scan β) (s s2 : Vars) (b : β) :
    (getEntityHead >>= k) s = (Flow.next b, s2) ↔ k s.entityHead s = (Flow.next b, s2) := by
  rw [bind_next_iff]
  constructor
  · rintro ⟨a, s1, h1, h2⟩
    rw [getEntityHead_next_iff] at h1
    obtain ⟨h3, h4⟩ := h1
    subst h3 h4
    exact h2
  · intro h
    exact ⟨s.entityHead, s, (getEntityHead_next_iff _ _ _).mpr ⟨rfl, rfl⟩, h⟩

theorem bind_setEntityHead_next_iff {β : Type} (c : Vector3) (k : Unit → Scan β)
    (s s2 : Vars) (b : β) :
    (setEntityHead c >>= k) s = (Flow.next b, s2)
      ↔ k () { s with entityHead := c } = (Flow.next b, s2) := by
  rw [bind_next_iff]
  constructor
  · rintro ⟨a, s1, h1, h2⟩
    rw [setEntityHead_next_iff] at h1
    subst h1
    exact h2
  · intro h
    exact ⟨(), _, (setEntityHead_next_iff _ _ _ _).mpr rfl, h⟩

/-! ## Lemmas: the bone loop and the head joint -/

theorem log_entityHead (s : Vars) (address : Nat) : (s.log address).entityHead = s.entityHead :=
  rfl

theorem log_reads (s : Vars) (address : Nat) : (s.log address).reads = s.reads ++ [address] :=
  rfl

/-- Once `entityHead` holds the sample of joint 6, the bone loop keeps it so. -/
theorem boneLoop_head_kept (host : Host) (process : Image) (viewMatrix : Matrix)
    (entityBoneArray : Nat) (l : List (String × Nat))
    (hl : ∀ q ∈ l, q.1 = "head" → q.2 = 6) :
    ∀ (m m2 : List (String × Vector2)) (s s2 : Vars),
      peek_Vector3 process (uintptr (entityBoneArray + 6 * 32)) = some s.entityHead →
      boneLoop host process viewMatrix entityBoneArray l m s = (Flow.next m2, s2) →
      peek_Vector3 process (uintptr (entityBoneArray + 6 * 32)) = some s2.entityHead := by
  induction l with
  | nil =>
    intro m m2 s s2 hs h
    simp only [boneLoop, pure_next_iff] at h
    rw [← h.2]
    exact hs
  | cons q rest ih =>
    obtain ⟨boneName, boneIndex⟩ := q
    intro m m2 s s2 hs h
    have hrest : ∀ q ∈ rest, q.1 = "head" → q.2 = 6 :=
      fun q hq => hl q (List.mem_cons_of_mem _ hq)
    simp only [boneLoop, bind_Vector3_next_iff] at h
    obtain ⟨currentBone, hread, h⟩ := h
    by_cases hname : boneName = "head"
    · have hidx : boneIndex = 6 := hl (boneName, boneIndex) (List.mem_cons_self _ _) hname
      subst hidx
      simp only [hname, if_true, bind_setEntityHead_next_iff] at h
      by_cases hsk : host.skeletonRendering = true
      · simp only [hsk, if_true] at h
        exact ih hrest _ _ _ s2 hread h
      · rw [Bool.not_eq_true] at hsk
        simp only [hsk, Bool.false_eq_true, if_false, pure_next_iff] at h
        rw [← h.2]
        exact hread
    · simp only [hname, if_false] at h
      exact ih hrest _ _ (s.log _) s2 hs h

/-- When the joint table holds the head joint, with index 6, a bone loop that
runs to its end leaves the sample of joint 6 in `entityHead`. -/
theorem boneLoop_head_found (host : Host) (process : Image) (viewMatrix : Matrix)
    (entityBoneArray : Nat) (l : List (String × Nat))
    (hl : ∀ q ∈ l, q.1 = "head" → q.2 = 6) (hmem : ∃ q ∈ l, q.1 = "head") :
    ∀ (m m2 : List (String × Vector2)) (s s2 : Vars),
      boneLoop host process viewMatrix entityBoneArray l m s = (Flow.next m2, s2) →
      peek_Vector3 process (uintptr (entityBoneArray + 6 * 32)) = some s2.entityHead := by
  induction l with
  | nil =>
    obtain ⟨q, hq, _⟩ := hmem
    simp at hq
  | cons q rest ih =>
    obtain ⟨boneName, boneIndex⟩ := q
    intro m m2 s s2 h
    have hrest : ∀ q ∈ rest, q.1 = "head" → q.2 = 6 :=
      fun q hq => hl q (List.mem_cons_of_mem _ hq)
    simp only [boneLoop, bind_Vector3_next_iff] at h
    obtain ⟨currentBone, hread, h⟩ := h
    by_cases hname : boneName = "head"
    · have hidx : boneIndex = 6 := hl (boneName, boneIndex) (List.mem_cons_self _ _) hname
      subst hidx
      simp only [hname, if_true, bind_setEntityHead_next_iff] at h
      by_cases hsk : host.skeletonRendering = true
      · simp only [hsk, if_true] at h
        exact boneLoop_head_kept host process viewMatrix entityBoneArray rest hrest _ _ _ _
          hread h
      · rw [Bool.not_eq_true] at hsk
        simp only [hsk, Bool.false_eq_true, if_false, pure_next_iff] at h
        rw [← h.2]
        exact hread
    · simp only [hname, if_false] at h
      obtain ⟨q, hq, hq1⟩ := hmem
      rcases List.mem_cons.mp hq with hq2 | hq2
      · subst hq2
        exact absurd hq1 hname
      · exact ih hrest ⟨q, hq2, hq1⟩ _ _ _ _ h

theorem bones_head_index : ∀ q ∈ bones, q.1 = "head" → q.2 = 6 := by
  decide

theorem boneOrder_head_index (o : BoneOrder) : ∀ q ∈ o.entries, q.1 = "head" → q.2 = 6 :=
  fun q hq => bones_head_index q (o.perm.mem_iff.mp hq)

theorem boneOrder_has_head (o : BoneOrder) : ∃ q ∈ o.entries, q.1 = "head" :=
  ⟨("head", 6), o.perm.mem_iff.mpr (by decide), rfl⟩

/-! ## Lemmas: what an emitted snapshot went through -/

theorem candidate_accepted (host : Host) (process : Image) (screenWidth screenHeight : Nat)
    (offsets : Offset) (frame : Frame) (i : Nat) (s s2 : Vars) (e : Entity)
    (h : candidate host process screenWidth screenHeight offsets frame i s = (Flow.next e, s2)) :
    ∃ p : Probe, Accepted host process screenWidth screenHeight offsets frame i p e := by
  simp only [candidate, bind_uintptr_next_iff, bind_int32_next_iff, bind_string_next_iff,
    bind_Vector3_next_iff, bind_continueIf_next_iff, bind_getEntityHead_next_iff] at h
  obtain ⟨listEntry, h1, h2, entityController, h3, h4, entityControllerPawn, h5, h6,
    listEntry2, h7, h8, entityPawn, h9, h10, h11, entityLifeState, h12, h13,
    entityTeam, h14, h15, h⟩ := h
  rw [bind_next_iff] at h
  obtain ⟨u, sg, h16, h⟩ := h
  simp only [bind_uintptr_next_iff, bind_int32_next_iff, bind_string_next_iff,
    bind_Vector3_next_iff, bind_continueIf_next_iff, bind_getEntityHead_next_iff] at h
  obtain ⟨entityHealth, h17, h18, entityNameAddress, h19,
    entityName, h20, h21, gameScene, h22, h23, entityBoneArray, h24, h25,
    entityOrigin, h26, h⟩ := h
  rw [bind_next_iff] at h
  obtain ⟨entityBones, sb, h27, h⟩ := h
  simp only [bind_getEntityHead_next_iff, bind_continueIf_next_iff, pure_next_iff] at h
  obtain ⟨h28, h29, _⟩ := h
  have hhead := boneLoop_head_found host process frame.viewMatrix entityBoneArray
    (host.boneOrder i).entries (boneOrder_head_index _) (boneOrder_has_head _) _ _ _ _ h27
  have hlife : entityLifeState = 256 := not_not.mp h13
  subst hlife
  simp only [not_or, not_le, ge_iff_le, gt_iff_lt, not_lt] at h28 h18
  refine ⟨⟨listEntry, entityController, entityControllerPawn, listEntry2, entityPawn,
    entityTeam, entityHealth, entityNameAddress, entityName, gameScene, entityBoneArray,
    entityOrigin, sb.entityHead, entityBones⟩, ?_⟩
  exact
    { chunk := h1, chunk_ne := h2, controller := h3, controller_ne := h4, handle := h5,
      handle_ne := h6, pawnChunk := h7, pawnChunk_ne := h8, pawn := h9, pawn_ne := h10,
      pawn_not_local := h11, lifeState := h12, team := h14, team_ne := h15,
      teamCheckStep := ⟨_, _, h16⟩, health := h17, health_lo := h18.1, health_hi := h18.2,
      nameAddress := h19, name := h20, name_ne := h21, scene := h22, scene_ne := h23,
      boneArray := h24, boneArray_ne := h25, origin := h26,
      bonesLoop := ⟨_, _, h27, rfl⟩, head := hhead,
      headX_lo := h28.1, feetY_lo := h28.2.1, headX_hi := h28.2.2.1,
      headTopY_hi := h28.2.2.2, snapshot := h29.symm }

theorem mem_scanLoop (body : Nat → Scan Entity) :
    ∀ (indices : List Nat) (entities : List Entity) (s : Vars) (e : Entity),
      e ∈ (scanLoop body indices entities s).1 →
      e ∈ entities ∨ ∃ i ∈ indices, ∃ s1 s2, body i s1 = (Flow.next e, s2) := by
  intro indices
  induction indices with
  | nil =>
    intro entities s e h
    exact Or.inl h
  | cons i rest ih =>
    intro entities s e h
    simp only [scanLoop] at h
    rcases hb : body i s with ⟨f, s1⟩
    rw [hb] at h
    cases f with
    | next t =>
      simp only at h
      rcases ih _ _ _ h with h1 | ⟨j, hj, s3, s4, h2⟩
      · rcases List.mem_append.mp h1 with h3 | h3
        · exact Or.inl h3
        · have : e = t := by simpa using h3
          subst this
          exact Or.inr ⟨i, List.mem_cons_self _ _, s, s1, hb⟩
      · exact Or.inr ⟨j, List.mem_cons_of_mem _ hj, s3, s4, h2⟩
    | skip =>
      simp only at h
      rcases ih _ _ _ h with h1 | ⟨j, hj, s3, s4, h2⟩
      · exact Or.inl h1
      · exact Or.inr ⟨j, List.mem_cons_of_mem _ hj, s3, s4, h2⟩
    | fault =>
      simp only at h
      exact Or.inl h

theorem bootstrap_frameRead (process : Image) (clientDll : Nat) (offsets : Offset)
    (s s2 : Vars) (frame : Frame)
    (h : bootstrap process clientDll offsets s = (Flow.next frame, s2)) :
    FrameRead process clientDll offsets frame := by
  simp only [bootstrap, bind_uintptr_next_iff, bind_Vector3_next_iff, bind_Matrix_next_iff,
    pure_next_iff] at h
  obtain ⟨a, h1, b, h2, c, h3, d, h4, m, h5, h6, _⟩ := h
  subst h6
  exact ⟨h1, h2, h3, h4, h5⟩

/-- Every snapshot `getEntitiesInfo` returns was appended by the loop body of
some candidate index below 64, after the five reads before the loop
succeeded. -/
theorem mem_getEntitiesInfo (host : Host) (process : Image)
    (clientDll screenWidth screenHeight : Nat) (offsets : Offset) (e : Entity)
    (h : e ∈ getEntitiesInfo host process clientDll screenWidth screenHeight offsets) :
    ∃ (frame : Frame) (i : Nat) (p : Probe),
      FrameRead process clientDll offsets frame ∧ i < 64
        ∧ Accepted host process screenWidth screenHeight offsets frame i p e := by
  unfold getEntitiesInfo getEntitiesRun at h
  rcases hb : bootstrap process clientDll offsets ⟨[], ⟨0, 0, 0⟩⟩ with ⟨f, s1⟩
  rw [hb] at h
  cases f with
  | next frame =>
    simp only at h
    rcases mem_scanLoop _ _ _ _ _ h with h1 | ⟨i, hi, s3, s4, h2⟩
    · simp at h1
    · obtain ⟨p, hp⟩ := candidate_accepted _ _ _ _ _ _ _ _ _ _ h2
      exact ⟨frame, i, p, bootstrap_frameRead _ _ _ _ _ _ hb, List.mem_range.mp hi, hp⟩
  | skip => simp at h
  | fault => simp at h

/-! ## Lemmas: the log of reads -/

theorem extends_pure {α : Type} (a : α) : Scan.Extends (pure a : Scan α) :=
  fun _ => ⟨[], by show _ = _; simp [pure, Scan.pure]⟩

theorem extends_bind {α β : Type} (m : Scan α) (k : α → Scan β) (hm : Scan.Extends m)
    (hk : ∀ a, Scan.Extends (k a)) : Scan.Extends (m >>= k) := by
  intro s
  show ∃ l, (Scan.bind m k s).2.reads = s.reads ++ l
  obtain ⟨l1, h1⟩ := hm s
  unfold Scan.bind
  rcases hms : m s with ⟨f, s1⟩
  rw [hms] at h1
  cases f with
  | next a =>
    obtain ⟨l2, h2⟩ := hk a s1
    refine ⟨l1 ++ l2, ?_⟩
    simp only at h1 ⊢
    rw [h2, h1, List.append_assoc]
  | skip => exact ⟨l1, h1⟩
  | fault => exact ⟨l1, h1⟩

theorem extends_readSafe {α : Type} (process : Image) (address size : Nat)
    (decode : List Nat → α) : Scan.Extends (readSafe process address size decode) := by
  intro s
  unfold readSafe
  cases readMemoryNt process address size with
  | none => exact ⟨[address], rfl⟩
  | some buffer => exact ⟨[address], rfl⟩

theorem extends_uintptr (process : Image) (address : Nat) :
    Scan.Extends (readSafe_uintptr process address) :=
  extends_readSafe process address 8 Uint64

theorem extends_int32 (process : Image) (address : Nat) :
    Scan.Extends (readSafe_int32 process address) :=
  extends_readSafe process address 4 decodeInt32

theorem extends_string (process : Image) (address : Nat) :
    Scan.Extends (readSafe_string process address) :=
  extends_readSafe process address 16 id

theorem extends_Vector3 (process : Image) (address : Nat) :
    Scan.Extends (readSafe_Vector3 process address) :=
  extends_readSafe process address 12 decodeVector3

theorem extends_continueIf (c : Prop) [Decidable c] : Scan.Extends (continueIf c) := by
  intro s
  unfold continueIf
  by_cases hc : c
  · exact ⟨[], by simp [hc]⟩
  · exact ⟨[], by simp [hc]⟩

theorem extends_setEntityHead (v : Vector3) : Scan.Extends (setEntityHead v) :=
  fun _ => ⟨[], by simp [setEntityHead]⟩

theorem extends_getEntityHead : Scan.Extends getEntityHead :=
  fun _ => ⟨[], by simp [getEntityHead]⟩

theorem extends_ite {α : Type} (c : Prop) [Decidable c] (a b : Scan α) (ha : Scan.Extends a)
    (hb : Scan.Extends b) : Scan.Extends (if c then a else b) := by
  by_cases hc : c
  · simp only [hc, if_true]; exact ha
  · simp only [hc, if_false]; exact hb

theorem extends_boneLoop (host : Host) (process : Image) (viewMatrix : Matrix)
    (entityBoneArray : Nat) (l : List (String × Nat)) :
    ∀ m, Scan.Extends (boneLoop host process viewMatrix entityBoneArray l m) := by
  induction l with
  | nil =>
    intro m
    simp only [boneLoop]
    exact extends_pure _
  | cons q rest ih =>
    obtain ⟨boneName, boneIndex⟩ := q
    intro m
    simp only [boneLoop]
    refine extends_bind _ _ (extends_Vector3 _ _) (fun currentBone => ?_)
    refine extends_ite _ _ _ ?_ (ih _)
    refine extends_bind _ _ (extends_setEntityHead _) (fun _ => ?_)
    exact extends_ite _ _ _ (ih _) (extends_pure _)

theorem extends_teamCheckStep (host : Host) (process : Image) (offsets : Offset) (localPlayerP : Nat)
    (entityTeam : Int) : Scan.Extends (teamCheckStep host process offsets localPlayerP entityTeam) := by
  unfold teamCheckStep
  refine extends_ite _ _ _ ?_ (extends_pure _)
  exact extends_bind _ _ (extends_int32 _ _) (fun _ => extends_continueIf _)

/-- The first read of a piece that starts with a pointer read. -/
theorem first_read {β : Type} (process : Image) (address : Nat) (k : Nat → Scan β)
    (hk : ∀ x, Scan.Extends (k x)) (s : Vars) :
    ∃ rest, ((readSafe_uintptr process address >>= k) s).2.reads
      = s.reads ++ address :: rest := by
  show ∃ rest, (Scan.bind (readSafe process address 8 Uint64) k s).2.reads = _
  unfold Scan.bind readSafe
  cases readMemoryNt process address 8 with
  | none => exact ⟨[], rfl⟩
  | some buffer =>
    obtain ⟨l, hl⟩ := hk (Uint64 buffer) (s.log address)
    refine ⟨l, ?_⟩
    simp only
    rw [hl, log_reads, List.append_assoc]
    rfl

theorem bind_uintptr_some {β : Type} (process : Image) (address : Nat) (k : Nat → Scan β)
    (s : Vars) (x : Nat) (h : peek_uintptr process address = some x) :
    (readSafe_uintptr process address >>= k) s = k x (s.log address) := by
  show Scan.bind (readSafe process address 8 Uint64) k s = _
  unfold peek_uintptr at h
  unfold Scan.bind readSafe
  cases hr : readMemoryNt process address 8 with
  | none => rw [hr] at h; simp at h
  | some buffer =>
    rw [hr] at h
    simp only [Option.map_some', Option.some.injEq] at h
    simp only [h]

theorem bind_continueIf_neg {β : Type} (c : Prop) [Decidable c] (k : Unit → Scan β) (s : Vars)
    (h : ¬ c) : (continueIf c >>= k) s = k () s := by
  show Scan.bind (continueIf c) k s = _
  unfold Scan.bind continueIf
  simp [h]

/-- What follows the first chunk-pointer read of the loop body only appends
to the log of reads. -/
theorem extends_candidate_tail (host : Host) (process : Image)
    (screenWidth screenHeight : Nat) (offsets : Offset) (frame : Frame) (i : Nat) :
    ∃ k : Nat → Scan Entity,
      candidate host process screenWidth screenHeight offsets frame i
          = (readSafe_uintptr process (uintptr (frame.entityList + controllerChunkOffset i))
              >>= fun listEntry => continueIf (listEntry = 0) >>= fun _ =>
                readSafe_uintptr process (uintptr (listEntry + controllerSlotOffset i)) >>= k)
        ∧ ∀ x, Scan.Extends (k x) := by
  refine ⟨_, rfl, ?_⟩
  intro entityController
  refine extends_bind _ _ (extends_continueIf _) (fun _ => ?_)
  refine extends_bind _ _ (extends_uintptr _ _) (fun entityControllerPawn => ?_)
  refine extends_bind _ _ (extends_continueIf _) (fun _ => ?_)
  refine extends_bind _ _ (extends_uintptr _ _) (fun listEntry => ?_)
  refine extends_bind _ _ (extends_continueIf _) (fun _ => ?_)
  refine extends_bind _ _ (extends_uintptr _ _) (fun entityPawn => ?_)
  refine extends_bind _ _ (extends_continueIf _) (fun _ => ?_)
  refine extends_bind _ _ (extends_continueIf _) (fun _ => ?_)
  refine extends_bind _ _ (extends_int32 _ _) (fun entityLifeState => ?_)
  refine extends_bind _ _ (extends_continueIf _) (fun _ => ?_)
  refine extends_bind _ _ (extends_int32 _ _) (fun entityTeam => ?_)
  refine extends_bind _ _ (extends_continueIf _) (fun _ => ?_)
  refine extends_bind _ _ (extends_teamCheckStep _ _ _ _ _) (fun _ => ?_)
  refine extends_bind _ _ (extends_int32 _ _) (fun entityHealth => ?_)
  refine extends_bind _ _ (extends_continueIf _) (fun _ => ?_)
  refine extends_bind _ _ (extends_uintptr _ _) (fun entityNameAddress => ?_)
  refine extends_bind _ _ (extends_string _ _) (fun entityName => ?_)
  refine extends_bind _ _ (extends_continueIf _) (fun _ => ?_)
  refine extends_bind _ _ (extends_uintptr _ _) (fun gameScene => ?_)
  refine extends_bind _ _ (extends_continueIf _) (fun _ => ?_)
  refine extends_bind _ _ (extends_uintptr _ _) (fun entityBoneArray => ?_)
  refine extends_bind _ _ (extends_continueIf _) (fun _ => ?_)
  refine extends_bind _ _ (extends_Vector3 _ _) (fun entityOrigin => ?_)
  refine extends_bind _ _ (extends_boneLoop _ _ _ _ _ _) (fun entityBones => ?_)
  refine extends_bind _ _ extends_getEntityHead (fun entityHead => ?_)
  refine extends_bind _ _ (extends_continueIf _) (fun _ => ?_)
  exact extends_pure _

/-! ## Lemmas: the scan on the concrete images, and the sentinel -/

set_option maxRecDepth 100000 in
theorem plain_result :
    getEntitiesInfo (sceneHost true true) (sceneImage plainScene) 0x10000 1920 1080 sceneOffsets
      = [plainSnapshot] := by
  decide!

set_option maxRecDepth 100000 in
theorem tilted_result :
    getEntitiesInfo (sceneHost true true) (sceneImage tiltedScene) 0x10000 1920 1080 sceneOffsets
      = [tiltedSnapshot] := by
  decide!

set_option maxRecDepth 100000 in
theorem scene_reachedTeam :
    ReachedTeam (sceneImage plainScene) sceneOffsets sceneFrame 3 sceneProbe :=
  ⟨by decide!, by decide!, by decide!, by decide!, by decide!, by decide!, by decide!,
    by decide!, by decide!, by decide!, by decide!, by decide!, by decide!⟩

set_option maxRecDepth 100000 in
theorem fault_frameRead : FrameRead faultImage 0x10000 sceneOffsets sceneFrame := by
  refine ⟨by decide!, by decide!, by decide!, by decide!, ?_⟩
  have hread : readMemoryNt faultImage (uintptr (0x10000 + sceneOffsets.DwViewMatrix)) 64
      = some (identityBits.flatMap le32) := by
    decide!
  unfold peek_Matrix
  rw [hread]
  refine congrArg some ?_
  funext i j
  fin_cases i <;> fin_cases j <;> decide!

set_option maxRecDepth 100000 in
theorem plain_frameRead : FrameRead (sceneImage plainScene) 0x10000 sceneOffsets sceneFrame := by
  refine ⟨by decide!, by decide!, by decide!, by decide!, ?_⟩
  have hread : readMemoryNt (sceneImage plainScene)
      (uintptr (0x10000 + sceneOffsets.DwViewMatrix)) 64
      = some (identityBits.flatMap le32) := by
    decide!
  unfold peek_Matrix
  rw [hread]
  refine congrArg some ?_
  funext i j
  fin_cases i <;> fin_cases j <;> decide!

set_option maxRecDepth 100000 in
theorem plain_no_fault :
    ∀ i, i < 64 →
      verdict (candidate (sceneHost true true) (sceneImage plainScene) 1920 1080 sceneOffsets
        sceneFrame) i ≠ Flow.fault := by
  decide!

set_option maxRecDepth 100000 in
theorem healthImage_reached :
    ∀ h ∈ [0, 1, 100, 101],
      ReachedHealth (sceneHost true true) (healthImage h) sceneOffsets sceneFrame 3
        { sceneProbe with entityHealth := (h : Int) } := by
  intro h hh
  simp only [List.mem_cons, List.mem_singleton, List.not_mem_nil, or_false] at hh
  rcases hh with rfl | rfl | rfl | rfl <;>
    exact ⟨⟨by decide!, by decide!, by decide!, by decide!, by decide!, by decide!, by decide!,
        by decide!, by decide!, by decide!, by decide!, by decide!, by decide!⟩,
      by decide!, fun _ => ⟨2, by decide!, by decide!⟩, by decide!⟩

set_option maxRecDepth 100000 in
theorem teamImage_reached :
    ∀ t ∈ [0, 2],
      ReachedTeam (teamImage t) sceneOffsets sceneFrame 3
        { sceneProbe with entityTeam := (t : Int) } := by
  intro t ht
  simp only [List.mem_cons, List.mem_singleton, List.not_mem_nil, or_false] at ht
  rcases ht with rfl | rfl <;>
    exact ⟨by decide!, by decide!, by decide!, by decide!, by decide!, by decide!, by decide!,
        by decide!, by decide!, by decide!, by decide!, by decide!, by decide!⟩
/-! ## Lemmas: the length of a name -/

theorem readMemoryNt_length (process : Image) : ∀ (size address : Nat) (buffer : List Nat),
    readMemoryNt process address size = some buffer → buffer.length = size := by
  intro size
  induction size with
  | zero =>
    intro address buffer h
    simp only [readMemoryNt, Option.some.injEq] at h
    rw [← h]
    rfl
  | succ n ih =>
    intro address buffer h
    simp only [readMemoryNt] at h
    cases hb : process address with
    | none => rw [hb] at h; simp at h
    | some b =>
      cases hr : readMemoryNt process (address + 1) n with
      | none => rw [hb, hr] at h; simp at h
      | some rest =>
        rw [hb, hr] at h
        simp only [Option.some.injEq] at h
        rw [← h, List.length_cons, ih _ _ hr]

theorem peek_string_length (process : Image) (address : Nat) (name : List Nat)
    (h : peek_string process address = some name) : name.length = 16 := by
  unfold peek_string at h
  cases hr : readMemoryNt process address 16 with
  | none => rw [hr] at h; simp at h
  | some buffer =>
    rw [hr] at h
    simp only [Option.map_some', id_eq, Option.some.injEq] at h
    rw [← h]
    exact readMemoryNt_length process 16 address buffer hr

/-- A decoded code point other than the replacement character is written
back in as many bytes as it was read from. -/
theorem appendRune_decodeRune_length (s0 : Nat) (rest : List Nat)
    (h : (decodeRune (s0 :: rest)).1 ≠ RuneError) :
    (appendRune [] (decodeRune (s0 :: rest)).1).length = (decodeRune (s0 :: rest)).2 := by
  revert h
  unfold decodeRune RuneError
  simp only []
  repeat' split
  all_goals simp only [acceptLo, acceptHi, ne_eq, not_true_eq_false, false_implies] at *
  all_goals intro _
  all_goals unfold appendRune
  all_goals (split_ifs at * <;> first | rfl | omega)

theorem keepRune_replacement (t : RangeTables) : keepRune t RuneError = false := by
  have h1 : IsLetter t RuneError = false := by
    unfold IsLetter RuneError
    simp only [show ¬ (0xFFFD ≤ 0xFF) by decide, if_false]
    exact t.replacement_not_letter
  have h2 : IsDigit t RuneError = false := by
    unfold IsDigit RuneError
    simp only [show ¬ (0xFFFD ≤ 0xFF) by decide, if_false]
    exact t.replacement_not_digit
  have h3 : IsPunct t RuneError = false := by
    unfold IsPunct RuneError
    simp only [show ¬ (0xFFFD ≤ 0xFF) by decide, if_false]
    exact t.replacement_not_punct
  have h4 : IsSpace t RuneError = false := by
    unfold IsSpace RuneError
    simp only [show ¬ (0xFFFD ≤ 0xFF) by decide, if_false]
    exact t.replacement_not_space
  unfold keepRune
  rw [h1, h2, h3, h4]
  rfl

theorem encodeRunes_filter_length_aux (t : RangeTables) (n : Nat) : ∀ s : List Nat,
    s.length ≤ n → (encodeRunes ((stringRunes s).filter (keepRune t))).length ≤ s.length := by
  induction n with
  | zero =>
    intro s hs
    have : s = [] := List.length_eq_zero.mp (Nat.le_zero.mp hs)
    subst this
    simp [stringRunes, stringRunesAux, encodeRunes]
  | succ n ih =>
    intro s hs
    cases s with
    | nil => simp [stringRunes, stringRunesAux, encodeRunes]
    | cons s0 rest =>
      have hsz := decodeRune_size s0 rest
      have hdrop : ((s0 :: rest).drop (decodeRune (s0 :: rest)).2).length
          = (s0 :: rest).length - (decodeRune (s0 :: rest)).2 := List.length_drop _ _
      have hrec := ih ((s0 :: rest).drop (decodeRune (s0 :: rest)).2)
        (by rw [hdrop]; simp only [List.length_cons] at hs hsz ⊢; omega)
      rw [stringRunes_cons, List.filter_cons]
      by_cases hk : keepRune t (decodeRune (s0 :: rest)).1 = true
      · have hne : (decodeRune (s0 :: rest)).1 ≠ RuneError := by
          intro heq
          rw [heq, keepRune_replacement] at hk
          exact Bool.false_ne_true hk
        have hlen := appendRune_decodeRune_length s0 rest hne
        simp only [hk, if_true, encodeRunes, List.length_append]
        rw [hlen]
        rw [hdrop] at hrec
        omega
      · rw [Bool.not_eq_true] at hk
        simp only [hk, Bool.false_eq_true, if_false]
        rw [hdrop] at hrec
        simp only [List.length_cons] at hrec hsz ⊢
        omega

/-- Sanitizing never makes a name longer. -/
theorem sanitize_length_le (t : RangeTables) (raw : List Nat) :
    (sanitize t raw).length ≤ raw.length := by
  rw [sanitize_eq_encode]
  exact encodeRunes_filter_length_aux t raw.length raw (Nat.le_refl _)

/-! ## Lemmas: the skeleton map -/

theorem mapGet_mapSet (m : List (String × Vector2)) (k k2 : String) (v : Vector2) :
    mapGet (mapSet m k v) k2 = if k = k2 then some v else mapGet m k2 := by
  induction m with
  | nil => simp [mapSet, mapGet]
  | cons a rest ih =>
    obtain ⟨k1, v1⟩ := a
    simp only [mapSet]
    by_cases h1 : k1 = k
    · subst h1
      simp only [if_true, mapGet]
      split_ifs <;> rfl
    · simp only [h1, if_false, mapGet, ih]
      by_cases h2 : k1 = k2
      · subst h2
        have : ¬ k = k1 := fun h => h1 h.symm
        simp only [if_true, this, if_false]
      · simp only [h2, if_false]

theorem mapSet_keys (m : List (String × Vector2)) (k : String) (v : Vector2)
    (h : k ∉ m.map Prod.fst) : (mapSet m k v).map Prod.fst = m.map Prod.fst ++ [k] := by
  induction m with
  | nil => rfl
  | cons a rest ih =>
    obtain ⟨k1, v1⟩ := a
    simp only [List.map_cons, List.mem_cons, not_or] at h
    have h1 : ¬ k1 = k := fun hh => h.1 hh.symm
    simp only [mapSet, h1, if_false, List.map_cons, ih h.2, List.cons_append]

/-- The bone loop does not touch the entries of joints it does not visit. -/
theorem boneLoop_untouched (host : Host) (process : Image) (viewMatrix : Matrix)
    (entityBoneArray : Nat) (name : String) (l : List (String × Nat))
    (hn : name ∉ l.map Prod.fst) :
    ∀ (m m2 : List (String × Vector2)) (s s2 : Vars),
      boneLoop host process viewMatrix entityBoneArray l m s = (Flow.next m2, s2) →
      mapGet m2 name = mapGet m name := by
  induction l with
  | nil =>
    intro m m2 s s2 h
    simp only [boneLoop, pure_next_iff] at h
    rw [h.1]
  | cons q rest ih =>
    obtain ⟨boneName, boneIndex⟩ := q
    intro m m2 s s2 h
    simp only [List.map_cons, List.mem_cons, not_or] at hn
    have hne : ¬ boneName = name := fun hh => hn.1 hh.symm
    simp only [boneLoop, bind_Vector3_next_iff] at h
    obtain ⟨currentBone, hread, h⟩ := h
    by_cases hname : boneName = "head"
    · simp only [hname, if_true, bind_setEntityHead_next_iff] at h
      by_cases hsk : host.skeletonRendering = true
      · simp only [hsk, if_true] at h
        rw [ih hn.2 _ _ _ _ h, mapGet_mapSet]
        rw [hname] at hne
        simp only [hne, if_false]
      · rw [Bool.not_eq_true] at hsk
        simp only [hsk, Bool.false_eq_true, if_false, pure_next_iff] at h
        rw [h.1]
    · simp only [hname, if_false] at h
      rw [ih hn.2 _ _ _ _ h, mapGet_mapSet]
      simp only [hne, if_false]

/-- With skeleton rendering on, every joint the bone loop visits ends up in
the map with the projection of its sample. -/
theorem boneLoop_entries (host : Host) (process : Image) (viewMatrix : Matrix)
    (entityBoneArray : Nat) (hsk : host.skeletonRendering = true) (l : List (String × Nat))
    (hnd : (l.map Prod.fst).Nodup) :
    ∀ (m m2 : List (String × Vector2)) (s s2 : Vars),
      boneLoop host process viewMatrix entityBoneArray l m s = (Flow.next m2, s2) →
      ∀ b ∈ l, ∃ q, peek_Vector3 process (uintptr (entityBoneArray + b.2 * 32)) = some q
        ∧ mapGet m2 b.1 = some ⟨(worldToScreen host.width host.height viewMatrix q).1,
            (worldToScreen host.width host.height viewMatrix q).2⟩ := by
  induction l with
  | nil =>
    intro m m2 s s2 _ b hb
    simp at hb
  | cons q rest ih =>
    obtain ⟨boneName, boneIndex⟩ := q
    intro m m2 s s2 h b hb
    simp only [List.map_cons, List.nodup_cons] at hnd
    simp only [boneLoop, bind_Vector3_next_iff] at h
    obtain ⟨currentBone, hread, h⟩ := h
    have hrest : boneLoop host process viewMatrix entityBoneArray rest
        (mapSet m boneName ⟨(worldToScreen host.width host.height viewMatrix currentBone).1,
          (worldToScreen host.width host.height viewMatrix currentBone).2⟩)
        (if boneName = "head" then { s.log (uintptr (entityBoneArray + boneIndex * 32)) with
            entityHead := currentBone }
          else s.log (uintptr (entityBoneArray + boneIndex * 32))) = (Flow.next m2, s2) := by
      by_cases hname : boneName = "head"
      · simp only [hname, if_true, bind_setEntityHead_next_iff, hsk] at h
        simp only [hname, if_true]
        exact h
      · simp only [hname, if_false] at h
        simp only [hname, if_false]
        exact h
    rcases List.mem_cons.mp hb with hb1 | hb1
    · subst hb1
      refine ⟨currentBone, hread, ?_⟩
      rw [boneLoop_untouched host process viewMatrix entityBoneArray boneName rest hnd.1 _ _ _ _
        hrest, mapGet_mapSet]
      simp only [if_true]
    · exact ih hnd.2 _ _ _ _ hrest b hb1

/-- With skeleton rendering on, the keys of the map after the bone loop are
the keys before it followed by the joints visited. -/
theorem boneLoop_keys (host : Host) (process : Image) (viewMatrix : Matrix)
    (entityBoneArray : Nat) (hsk : host.skeletonRendering = true) (l : List (String × Nat))
    (hnd : (l.map Prod.fst).Nodup) :
    ∀ (m m2 : List (String × Vector2)) (s s2 : Vars),
      (∀ name ∈ l.map Prod.fst, name ∉ m.map Prod.fst) →
      boneLoop host process viewMatrix entityBoneArray l m s = (Flow.next m2, s2) →
      m2.map Prod.fst = m.map Prod.fst ++ l.map Prod.fst := by
  induction l with
  | nil =>
    intro m m2 s s2 _ h
    simp only [boneLoop, pure_next_iff] at h
    rw [← h.1]
    simp
  | cons q rest ih =>
    obtain ⟨boneName, boneIndex⟩ := q
    intro m m2 s s2 hdis h
    simp only [List.map_cons, List.nodup_cons] at hnd
    simp only [boneLoop, bind_Vector3_next_iff] at h
    obtain ⟨currentBone, hread, h⟩ := h
    have hrest : boneLoop host process viewMatrix entityBoneArray rest
        (mapSet m boneName ⟨(worldToScreen host.width host.height viewMatrix currentBone).1,
          (worldToScreen host.width host.height viewMatrix currentBone).2⟩)
        (if boneName = "head" then { s.log (uintptr (entityBoneArray + boneIndex * 32)) with
            entityHead := currentBone }
          else s.log (uintptr (entityBoneArray + boneIndex * 32))) = (Flow.next m2, s2) := by
      by_cases hname : boneName = "head"
      · simp only [hname, if_true, bind_setEntityHead_next_iff, hsk] at h
        simp only [hname, if_true]
        exact h
      · simp only [hname, if_false] at h
        simp only [hname, if_false]
        exact h
    have hfresh : boneName ∉ m.map Prod.fst := hdis boneName (by simp)
    have hkeys := mapSet_keys m boneName
      ⟨(worldToScreen host.width host.height viewMatrix currentBone).1,
        (worldToScreen host.width host.height viewMatrix currentBone).2⟩ hfresh
    have hdis2 : ∀ name ∈ rest.map Prod.fst, name ∉ (mapSet m boneName
        ⟨(worldToScreen host.width host.height viewMatrix currentBone).1,
          (worldToScreen host.width host.height viewMatrix currentBone).2⟩).map Prod.fst := by
      intro name hname
      rw [hkeys]
      intro hmem
      rcases List.mem_append.mp hmem with h1 | h1
      · exact hdis name (List.mem_cons_of_mem _ hname) h1
      · have : name = boneName := by simpa using h1
        subst this
        exact hnd.1 hname
    rw [ih hnd.2 _ _ _ _ hdis2 hrest, hkeys]
    simp

theorem bones_keys_nodup : (bones.map Prod.fst).Nodup := by
  decide

theorem boneOrder_keys_nodup (o : BoneOrder) : (o.entries.map Prod.fst).Nodup :=
  ((o.perm.map Prod.fst).nodup_iff).mpr bones_keys_nodup

/-! ## Lemmas: schema resolution -/

theorem uintptrOfFloat64_nat (outOfRange : ℚ → Nat) (n : Nat) (hn : n < 2 ^ 64) :
    uintptrOfFloat64 outOfRange (n : ℚ) = n := by
  unfold uintptrOfFloat64
  have h1 : (-1 : ℚ) < (n : ℚ) := by
    have : (0 : ℚ) ≤ (n : ℚ) := Nat.cast_nonneg n
    linarith
  have h2 : (n : ℚ) < 2 ^ 64 := by exact_mod_cast hn
  rw [if_pos ⟨h1, h2⟩]
  have : Rat.floor (n : ℚ) = (n : Int) := by
    show ⌊(n : ℚ)⌋ = (n : Int)
    exact Int.floor_natCast n
  rw [this]
  rfl


/-! ## Lemmas: running the loop body forward -/

/-! ## Lemmas: running the loop body forward -/

theorem bind_of_eq {α β : Type} (m : Scan α) (k : α → Scan β) (s s1 : Vars) (a : α)
    (h : m s = (Flow.next a, s1)) : (m >>= k) s = k a s1 := by
  show Scan.bind m k s = _
  unfold Scan.bind
  rw [h]

theorem bind_of_skip {α β : Type} (m : Scan α) (k : α → Scan β) (s s1 : Vars)
    (h : m s = (Flow.skip, s1)) : (m >>= k) s = (Flow.skip, s1) := by
  show Scan.bind m k s = _
  unfold Scan.bind
  rw [h]

theorem bind_of_fault {α β : Type} (m : Scan α) (k : α → Scan β) (s s1 : Vars)
    (h : m s = (Flow.fault, s1)) : (m >>= k) s = (Flow.fault, s1) := by
  show Scan.bind m k s = _
  unfold Scan.bind
  rw [h]

theorem readSafe_some {α : Type} (process : Image) (address size : Nat)
    (decode : List Nat → α) (s : Vars) (x : α)
    (h : (readMemoryNt process address size).map decode = some x) :
    readSafe process address size decode s = (Flow.next x, s.log address) := by
  unfold readSafe
  cases hr : readMemoryNt process address size with
  | none => rw [hr] at h; simp at h
  | some buffer =>
    rw [hr] at h
    simp only [Option.map_some', Option.some.injEq] at h
    simp only [h]

theorem readSafe_none {α : Type} (process : Image) (address size : Nat)
    (decode : List Nat → α) (s : Vars)
    (h : (readMemoryNt process address size).map decode = none) :
    readSafe process address size decode s = (Flow.fault, s.log address) := by
  unfold readSafe
  cases hr : readMemoryNt process address size with
  | none => rfl
  | some buffer => rw [hr] at h; simp at h

theorem bind_int32_some {β : Type} (process : Image) (address : Nat) (k : Int → Scan β)
    (s : Vars) (x : Int) (h : peek_int32 process address = some x) :
    (readSafe_int32 process address >>= k) s = k x (s.log address) :=
  bind_of_eq _ _ _ _ _ (readSafe_some process address 4 decodeInt32 s x h)

theorem bind_string_some {β : Type} (process : Image) (address : Nat)
    (k : List Nat → Scan β) (s : Vars) (x : List Nat) (h : peek_string process address = some x) :
    (readSafe_string process address >>= k) s = k x (s.log address) :=
  bind_of_eq _ _ _ _ _ (readSafe_some process address 16 id s x h)

theorem bind_Vector3_some {β : Type} (process : Image) (address : Nat)
    (k : Vector3 → Scan β) (s : Vars) (x : Vector3)
    (h : peek_Vector3 process address = some x) :
    (readSafe_Vector3 process address >>= k) s = k x (s.log address) :=
  bind_of_eq _ _ _ _ _ (readSafe_some process address 12 decodeVector3 s x h)

theorem bind_Matrix_some {β : Type} (process : Image) (address : Nat)
    (k : Matrix → Scan β) (s : Vars) (x : Matrix)
    (h : peek_Matrix process address = some x) :
    (readSafe_Matrix process address >>= k) s = k x (s.log address) :=
  bind_of_eq _ _ _ _ _ (readSafe_some process address 64 decodeMatrix s x h)

theorem bind_continueIf_pos {β : Type} (c : Prop) [Decidable c] (k : Unit → Scan β) (s : Vars)
    (h : c) : (continueIf c >>= k) s = (Flow.skip, s) := by
  show Scan.bind (continueIf c) k s = _
  unfold Scan.bind continueIf
  simp [h]

theorem bind_getEntityHead {β : Type} (k : Vector3 → Scan β) (s : Vars) :
    (getEntityHead >>= k) s = k s.entityHead s := rfl

theorem pure_apply {α : Type} (a : α) (s : Vars) : (pure a : Scan α) s = (Flow.next a, s) := rfl

/-! ## Lemmas: the way the loop body ends does not depend on the variables -/

theorem steady_pure {α : Type} (a : α) : Scan.Steady (pure a : Scan α) := fun _ _ => rfl

theorem steady_bind {α β : Type} (m : Scan α) (k : α → Scan β) (hm : Scan.Steady m)
    (hk : ∀ a, Scan.Steady (k a)) : Scan.Steady (m >>= k) := by
  intro s t
  have h := hm s t
  rcases hs : m s with ⟨f1, s1⟩
  rcases ht : m t with ⟨f2, t1⟩
  rw [hs, ht] at h
  simp only at h
  subst h
  cases f1 with
  | next a => rw [bind_of_eq m k s s1 a hs, bind_of_eq m k t t1 a ht]; exact hk a s1 t1
  | skip => rw [bind_of_skip m k s s1 hs, bind_of_skip m k t t1 ht]
  | fault => rw [bind_of_fault m k s s1 hs, bind_of_fault m k t t1 ht]

theorem steady_readSafe {α : Type} (process : Image) (address size : Nat)
    (decode : List Nat → α) : Scan.Steady (readSafe process address size decode) := by
  intro s t
  unfold readSafe
  cases readMemoryNt process address size <;> rfl

theorem steady_uintptr (process : Image) (address : Nat) :
    Scan.Steady (readSafe_uintptr process address) := steady_readSafe process address 8 Uint64

theorem steady_int32 (process : Image) (address : Nat) :
    Scan.Steady (readSafe_int32 process address) := steady_readSafe process address 4 decodeInt32

theorem steady_string (process : Image) (address : Nat) :
    Scan.Steady (readSafe_string process address) := steady_readSafe process address 16 id

theorem steady_Vector3 (process : Image) (address : Nat) :
    Scan.Steady (readSafe_Vector3 process address) :=
  steady_readSafe process address 12 decodeVector3

theorem steady_continueIf (c : Prop) [Decidable c] : Scan.Steady (continueIf c) := by
  intro s t
  unfold continueIf
  by_cases hc : c <;> simp [hc]

theorem steady_setEntityHead (v : Vector3) : Scan.Steady (setEntityHead v) := fun _ _ => rfl

theorem steady_ite {α : Type} (c : Prop) [Decidable c] (a b : Scan α) (ha : Scan.Steady a)
    (hb : Scan.Steady b) : Scan.Steady (if c then a else b) := by
  by_cases hc : c
  · simp only [hc, if_true]; exact ha
  · simp only [hc, if_false]; exact hb

theorem steady_boneLoop (host : Host) (process : Image) (viewMatrix : Matrix)
    (entityBoneArray : Nat) (l : List (String × Nat)) :
    ∀ m, Scan.Steady (boneLoop host process viewMatrix entityBoneArray l m) := by
  induction l with
  | nil =>
    intro m
    simp only [boneLoop]
    exact steady_pure _
  | cons q rest ih =>
    obtain ⟨boneName, boneIndex⟩ := q
    intro m
    simp only [boneLoop]
    refine steady_bind _ _ (steady_Vector3 _ _) (fun currentBone => ?_)
    refine steady_ite _ _ _ ?_ (ih _)
    refine steady_bind _ _ (steady_setEntityHead _) (fun _ => ?_)
    exact steady_ite _ _ _ (ih _) (steady_pure _)

theorem steady_teamCheckStep (host : Host) (process : Image) (offsets : Offset)
    (localPlayerP : Nat) (entityTeam : Int) :
    Scan.Steady (teamCheckStep host process offsets localPlayerP entityTeam) := by
  unfold teamCheckStep
  refine steady_ite _ _ _ ?_ (steady_pure _)
  exact steady_bind _ _ (steady_int32 _ _) (fun _ => steady_continueIf _)

/-- The bone loop followed by a use of `entityHead`: the loop has stored the
sample of joint 6 there, whatever the variables held before. -/
theorem steady_boneLoop_head {β : Type} (host : Host) (process : Image) (viewMatrix : Matrix)
    (entityBoneArray : Nat) (o : BoneOrder) (m : List (String × Vector2))
    (k : List (String × Vector2) → Vector3 → Scan β) (hk : ∀ b v, Scan.Steady (k b v)) :
    Scan.Steady (boneLoop host process viewMatrix entityBoneArray o.entries m
      >>= fun entityBones => getEntityHead >>= fun entityHead => k entityBones entityHead) := by
  intro s t
  have h := steady_boneLoop host process viewMatrix entityBoneArray o.entries m s t
  rcases hs : boneLoop host process viewMatrix entityBoneArray o.entries m s with ⟨f1, s1⟩
  rcases ht : boneLoop host process viewMatrix entityBoneArray o.entries m t with ⟨f2, t1⟩
  rw [hs, ht] at h
  simp only at h
  subst h
  cases f1 with
  | next b =>
    rw [bind_of_eq _ _ s s1 b hs, bind_of_eq _ _ t t1 b ht, bind_getEntityHead,
      bind_getEntityHead]
    have h1 := boneLoop_head_found host process viewMatrix entityBoneArray o.entries
      (boneOrder_head_index o) (boneOrder_has_head o) _ _ _ _ hs
    have h2 := boneLoop_head_found host process viewMatrix entityBoneArray o.entries
      (boneOrder_head_index o) (boneOrder_has_head o) _ _ _ _ ht
    rw [h1] at h2
    simp only [Option.some.injEq] at h2
    rw [h2]
    exact hk b t1.entityHead s1 t1
  | skip => rw [bind_of_skip _ _ s s1 hs, bind_of_skip _ _ t t1 ht]
  | fault => rw [bind_of_fault _ _ s s1 hs, bind_of_fault _ _ t t1 ht]

theorem candidate_steady (host : Host) (process : Image) (screenWidth screenHeight : Nat)
    (offsets : Offset) (frame : Frame) (i : Nat) :
    Scan.Steady (candidate host process screenWidth screenHeight offsets frame i) := by
  unfold candidate
  refine steady_bind _ _ (steady_uintptr _ _) (fun listEntry => ?_)
  refine steady_bind _ _ (steady_continueIf _) (fun _ => ?_)
  refine steady_bind _ _ (steady_uintptr _ _) (fun entityController => ?_)
  refine steady_bind _ _ (steady_continueIf _) (fun _ => ?_)
  refine steady_bind _ _ (steady_uintptr _ _) (fun entityControllerPawn => ?_)
  refine steady_bind _ _ (steady_continueIf _) (fun _ => ?_)
  refine steady_bind _ _ (steady_uintptr _ _) (fun listEntry => ?_)
  refine steady_bind _ _ (steady_continueIf _) (fun _ => ?_)
  refine steady_bind _ _ (steady_uintptr _ _) (fun entityPawn => ?_)
  refine steady_bind _ _ (steady_continueIf _) (fun _ => ?_)
  refine steady_bind _ _ (steady_continueIf _) (fun _ => ?_)
  refine steady_bind _ _ (steady_int32 _ _) (fun entityLifeState => ?_)
  refine steady_bind _ _ (steady_continueIf _) (fun _ => ?_)
  refine steady_bind _ _ (steady_int32 _ _) (fun entityTeam => ?_)
  refine steady_bind _ _ (steady_continueIf _) (fun _ => ?_)
  refine steady_bind _ _ (steady_teamCheckStep _ _ _ _ _) (fun _ => ?_)
  refine steady_bind _ _ (steady_int32 _ _) (fun entityHealth => ?_)
  refine steady_bind _ _ (steady_continueIf _) (fun _ => ?_)
  refine steady_bind _ _ (steady_uintptr _ _) (fun entityNameAddress => ?_)
  refine steady_bind _ _ (steady_string _ _) (fun entityName => ?_)
  refine steady_bind _ _ (steady_continueIf _) (fun _ => ?_)
  refine steady_bind _ _ (steady_uintptr _ _) (fun gameScene => ?_)
  refine steady_bind _ _ (steady_continueIf _) (fun _ => ?_)
  refine steady_bind _ _ (steady_uintptr _ _) (fun entityBoneArray => ?_)
  refine steady_bind _ _ (steady_continueIf _) (fun _ => ?_)
  refine steady_bind _ _ (steady_Vector3 _ _) (fun entityOrigin => ?_)
  refine steady_boneLoop_head host process frame.viewMatrix entityBoneArray (host.boneOrder i) []
    _ (fun entityBones entityHead => ?_)
  refine steady_bind _ _ (steady_continueIf _) (fun _ => ?_)
  exact steady_pure _

theorem candidate_verdict (host : Host) (process : Image) (screenWidth screenHeight : Nat)
    (offsets : Offset) (frame : Frame) (i : Nat) (s : Vars) :
    (candidate host process screenWidth screenHeight offsets frame i s).1
      = verdict (candidate host process screenWidth screenHeight offsets frame) i :=
  candidate_steady host process screenWidth screenHeight offsets frame i s _

theorem eq_of_flow {α : Type} (m : Scan α) (s : Vars) (f : Flow α) (h : (m s).1 = f) :
    m s = (f, (m s).2) := by
  rw [← h]

/-- The bone loop followed by a use of `entityHead`, run forward: the loop
yields the same map from any variables and leaves the sample of joint 6 in
`entityHead`. -/
theorem emits_boneLoop_head {β : Type} (host : Host) (process : Image) (viewMatrix : Matrix)
    (entityBoneArray : Nat) (o : BoneOrder)
    (k : List (String × Vector2) → Vector3 → Scan β) (entityBones : List (String × Vector2))
    (entityHead : Vector3) (t0 : Vars) (r : Flow β) (s : Vars)
    (h0 : (boneLoop host process viewMatrix entityBoneArray o.entries [] t0).1
      = Flow.next entityBones)
    (hpeek : peek_Vector3 process (uintptr (entityBoneArray + 6 * 32)) = some entityHead)
    (hk : ∀ sb, ∃ s2, k entityBones entityHead sb = (r, s2)) :
    ∃ s2, (boneLoop host process viewMatrix entityBoneArray o.entries []
      >>= fun b => getEntityHead >>= fun v => k b v) s = (r, s2) := by
  have hs : boneLoop host process viewMatrix entityBoneArray o.entries [] s
      = (Flow.next entityBones,
          (boneLoop host process viewMatrix entityBoneArray o.entries [] s).2) := by
    apply eq_of_flow
    rw [steady_boneLoop host process viewMatrix entityBoneArray o.entries [] s t0, h0]
  have hh := boneLoop_head_found host process viewMatrix entityBoneArray o.entries
    (boneOrder_head_index o) (boneOrder_has_head o) _ _ _ _ hs
  rw [hpeek] at hh
  simp only [Option.some.injEq] at hh
  rw [bind_of_eq _ _ _ _ _ hs, bind_getEntityHead, ← hh]
  exact hk _

/-- An accepted candidate is appended from whatever variables the loop body
starts with. -/
theorem accepted_candidate (host : Host) (process : Image) (screenWidth screenHeight : Nat)
    (offsets : Offset) (frame : Frame) (i : Nat) (p : Probe) (e : Entity)
    (ha : Accepted host process screenWidth screenHeight offsets frame i p e) (s : Vars) :
    ∃ s2, candidate host process screenWidth screenHeight offsets frame i s
      = (Flow.next e, s2) := by
  obtain ⟨g1, g2, hg⟩ := ha.teamCheckStep
  obtain ⟨b1, b2, hb, _⟩ := ha.bonesLoop
  have hlife : ¬ ((256 : Int) ≠ 256) := by decide
  have hhealth : ¬ (p.entityHealth < 1 ∨ p.entityHealth > 100) := by
    have h1 := ha.health_lo
    have h2 := ha.health_hi
    omega
  have hstep : ∀ t : Vars,
      teamCheckStep host process offsets frame.localPlayerP p.entityTeam t
        = (Flow.next (),
            (teamCheckStep host process offsets frame.localPlayerP p.entityTeam t).2) := by
    intro t
    apply eq_of_flow
    rw [steady_teamCheckStep host process offsets frame.localPlayerP p.entityTeam t g1, hg]
  have hscreen : ¬ ((worldToScreen host.width host.height frame.viewMatrix
        ⟨p.entityHead.X, p.entityHead.Y, p.entityHead.Z + 7⟩).1 ≤ -1
      ∨ (worldToScreen host.width host.height frame.viewMatrix p.entityOrigin).2 ≤ -1
      ∨ (worldToScreen host.width host.height frame.viewMatrix
        ⟨p.entityHead.X, p.entityHead.Y, p.entityHead.Z + 7⟩).1 ≥ (screenWidth : float32)
      ∨ (worldToScreen host.width host.height frame.viewMatrix
        ⟨p.entityHead.X, p.entityHead.Y, p.entityHead.Z + 7⟩).2 ≥ (screenHeight : float32)) := by
    have h1 := ha.headX_lo
    have h2 := ha.feetY_lo
    have h3 := ha.headX_hi
    have h4 := ha.headTopY_hi
    simp only [not_or]
    exact ⟨h1, h2, h3, h4⟩
  simp only [candidate, bind_uintptr_some _ _ _ _ _ ha.chunk, bind_continueIf_neg _ _ _ ha.chunk_ne,
    bind_uintptr_some _ _ _ _ _ ha.controller, bind_continueIf_neg _ _ _ ha.controller_ne,
    bind_uintptr_some _ _ _ _ _ ha.handle, bind_continueIf_neg _ _ _ ha.handle_ne,
    bind_uintptr_some _ _ _ _ _ ha.pawnChunk, bind_continueIf_neg _ _ _ ha.pawnChunk_ne,
    bind_uintptr_some _ _ _ _ _ ha.pawn, bind_continueIf_neg _ _ _ ha.pawn_ne,
    bind_continueIf_neg _ _ _ ha.pawn_not_local,
    bind_int32_some _ _ _ _ _ ha.lifeState, bind_continueIf_neg _ _ _ hlife,
    bind_int32_some _ _ _ _ _ ha.team, bind_continueIf_neg _ _ _ ha.team_ne]
  rw [bind_of_eq _ _ _ _ _ (hstep _)]
  simp only [bind_int32_some _ _ _ _ _ ha.health, bind_continueIf_neg _ _ _ hhealth,
    bind_uintptr_some _ _ _ _ _ ha.nameAddress, bind_string_some _ _ _ _ _ ha.name,
    bind_continueIf_neg _ _ _ ha.name_ne,
    bind_uintptr_some _ _ _ _ _ ha.scene, bind_continueIf_neg _ _ _ ha.scene_ne,
    bind_uintptr_some _ _ _ _ _ ha.boneArray, bind_continueIf_neg _ _ _ ha.boneArray_ne,
    bind_Vector3_some _ _ _ _ _ ha.origin]
  refine emits_boneLoop_head host process frame.viewMatrix p.entityBoneArray (host.boneOrder i) _
    p.entityBones p.entityHead b1 (Flow.next e) _ (by rw [hb]) ha.head (fun sb => ?_)
  rw [bind_continueIf_neg _ _ _ hscreen, ha.snapshot]
  exact ⟨_, rfl⟩

theorem accepted_verdict (host : Host) (process : Image) (screenWidth screenHeight : Nat)
    (offsets : Offset) (frame : Frame) (i : Nat) (p : Probe) (e : Entity)
    (ha : Accepted host process screenWidth screenHeight offsets frame i p e) :
    verdict (candidate host process screenWidth screenHeight offsets frame) i = Flow.next e := by
  obtain ⟨s2, h⟩ := accepted_candidate host process screenWidth screenHeight offsets frame i p e
    ha ⟨[], ⟨0, 0, 0⟩⟩
  unfold verdict
  rw [h]

theorem verdict_accepted (host : Host) (process : Image) (screenWidth screenHeight : Nat)
    (offsets : Offset) (frame : Frame) (i : Nat) (e : Entity)
    (h : verdict (candidate host process screenWidth screenHeight offsets frame) i
      = Flow.next e) :
    ∃ p, Accepted host process screenWidth screenHeight offsets frame i p e := by
  unfold verdict at h
  exact candidate_accepted _ _ _ _ _ _ _ _ _ _ (by rw [← h])

/-! ## Lemmas: what the loop returns -/

theorem scanLoop_gather (body : Nat → Scan Entity) (hbody : ∀ i, Scan.Steady (body i)) :
    ∀ (indices : List Nat) (entities : List Entity) (s : Vars),
      (scanLoop body indices entities s).1 = entities ++ gather (indices.map (verdict body)) := by
  intro indices
  induction indices with
  | nil =>
    intro entities s
    simp [scanLoop, gather]
  | cons i rest ih =>
    intro entities s
    have hv : (body i s).1 = verdict body i := hbody i s _
    simp only [scanLoop, List.map_cons]
    rcases hb : body i s with ⟨f, s1⟩
    rw [hb] at hv
    simp only at hv
    rw [← hv]
    cases f with
    | next t =>
      simp only [gather]
      rw [ih, List.append_assoc]
      rfl
    | skip =>
      simp only [gather]
      rw [ih]
    | fault => simp [gather]

theorem bootstrap_of_frameRead (process : Image) (clientDll : Nat) (offsets : Offset)
    (frame : Frame) (hf : FrameRead process clientDll offsets frame) (s : Vars) :
    ∃ s1, bootstrap process clientDll offsets s = (Flow.next frame, s1) := by
  simp only [bootstrap, bind_uintptr_some _ _ _ _ _ hf.entityList,
    bind_uintptr_some _ _ _ _ _ hf.localPlayerP,
    bind_uintptr_some _ _ _ _ _ hf.localPlayerGameScene,
    bind_Vector3_some _ _ _ _ _ hf.localPlayerSceneOrigin,
    bind_Matrix_some _ _ _ _ _ hf.viewMatrix, pure_apply]
  exact ⟨_, rfl⟩

/-- After the five reads before the loop, `getEntitiesInfo` returns the
snapshots of the accepted candidates up to the first failed read. -/
theorem getEntitiesInfo_gather (host : Host) (process : Image)
    (clientDll screenWidth screenHeight : Nat) (offsets : Offset) (frame : Frame)
    (hf : FrameRead process clientDll offsets frame) :
    getEntitiesInfo host process clientDll screenWidth screenHeight offsets
      = gather ((List.range 64).map
          (verdict (candidate host process screenWidth screenHeight offsets frame))) := by
  obtain ⟨s1, hb⟩ := bootstrap_of_frameRead process clientDll offsets frame hf ⟨[], ⟨0, 0, 0⟩⟩
  unfold getEntitiesInfo getEntitiesRun
  rw [hb]
  simp only
  rw [scanLoop_gather _ (candidate_steady host process screenWidth screenHeight offsets frame)]
  rfl

/-! ## Lemmas: the team check and the first read of what follows -/

theorem teamCheckStep_off (host : Host) (process : Image) (offsets : Offset)
    (localPlayerP : Nat) (entityTeam : Int) (s : Vars) (hoff : host.teamCheck = false) :
    teamCheckStep host process offsets localPlayerP entityTeam s = (Flow.next (), s) := by
  unfold teamCheckStep
  simp only [hoff, Bool.false_eq_true, if_false]
  rfl

theorem teamCheckStep_differs (host : Host) (process : Image) (offsets : Offset)
    (localPlayerP : Nat) (entityTeam localTeam : Int) (s : Vars) (hon : host.teamCheck = true)
    (hread : peek_int32 process (uintptr (localPlayerP + offsets.M_iTeamNum)) = some localTeam)
    (hne : localTeam ≠ entityTeam) :
    teamCheckStep host process offsets localPlayerP entityTeam s
      = (Flow.next (), s.log (uintptr (localPlayerP + offsets.M_iTeamNum))) := by
  unfold teamCheckStep
  simp only [hon, if_true]
  rw [bind_int32_some _ _ _ _ _ hread]
  unfold continueIf
  simp only [hne, if_false]

theorem teamCheckStep_same (host : Host) (process : Image) (offsets : Offset)
    (localPlayerP : Nat) (entityTeam localTeam : Int) (s : Vars) (hon : host.teamCheck = true)
    (hread : peek_int32 process (uintptr (localPlayerP + offsets.M_iTeamNum)) = some localTeam)
    (heq : localTeam = entityTeam) :
    teamCheckStep host process offsets localPlayerP entityTeam s
      = (Flow.skip, s.log (uintptr (localPlayerP + offsets.M_iTeamNum))) := by
  unfold teamCheckStep
  simp only [hon, if_true]
  rw [bind_int32_some _ _ _ _ _ hread]
  unfold continueIf
  simp only [heq, if_true]

theorem teamCheckStep_next (host : Host) (process : Image) (offsets : Offset)
    (localPlayerP : Nat) (entityTeam : Int) (s s2 : Vars) (u : Unit)
    (h : teamCheckStep host process offsets localPlayerP entityTeam s = (Flow.next u, s2))
    (hon : host.teamCheck = true) :
    ∃ localTeam, peek_int32 process (uintptr (localPlayerP + offsets.M_iTeamNum)) = some localTeam
      ∧ localTeam ≠ entityTeam := by
  unfold teamCheckStep at h
  simp only [hon, if_true, bind_int32_next_iff, continueIf_next_iff] at h
  obtain ⟨localTeam, h1, h2, _⟩ := h
  exact ⟨localTeam, h1, h2⟩

/-- The first read of a piece that starts with a read. -/
theorem first_read_any {α β : Type} (process : Image) (address size : Nat)
    (decode : List Nat → α) (k : α → Scan β) (hk : ∀ x, Scan.Extends (k x)) (s : Vars) :
    ∃ rest, ((readSafe process address size decode >>= k) s).2.reads
      = s.reads ++ address :: rest := by
  show ∃ rest, (Scan.bind (readSafe process address size decode) k s).2.reads = _
  unfold Scan.bind readSafe
  cases readMemoryNt process address size with
  | none => exact ⟨[], rfl⟩
  | some buffer =>
    obtain ⟨l, hl⟩ := hk (decode buffer) (s.log address)
    refine ⟨l, ?_⟩
    simp only
    rw [hl, log_reads, List.append_assoc]
    rfl

theorem foldl_log_reads (l : List Nat) : ∀ s : Vars,
    (l.foldl Vars.log s).reads = s.reads ++ l := by
  induction l with
  | nil => intro s; simp
  | cons a l ih =>
    intro s
    rw [List.foldl_cons, ih, log_reads, List.append_assoc]
    rfl

theorem foldl_log_head (l : List Nat) : ∀ s : Vars,
    (l.foldl Vars.log s).entityHead = s.entityHead := by
  induction l with
  | nil => intro s; rfl
  | cons a l ih =>
    intro s
    rw [List.foldl_cons, ih]
    rfl

/-- The loop body reaches the team value. -/
theorem run_to_team (host : Host) (process : Image) (screenWidth screenHeight : Nat)
    (offsets : Offset) (frame : Frame) (i : Nat) (p : Probe)
    (hp : ReachedTeam process offsets frame i p) (s : Vars) :
    ∃ k : Int → Scan Entity,
      (∀ x, Scan.Extends (k x))
        ∧ candidate host process screenWidth screenHeight offsets frame i s
          = (continueIf (p.entityTeam = 0) >>= fun _ =>
              teamCheckStep host process offsets frame.localPlayerP p.entityTeam >>= fun _ =>
                readSafe_int32 process (uintptr (p.entityPawn + offsets.M_iHealth)) >>= k)
            ((readsToTeam offsets frame i p).foldl Vars.log s) := by
  have hlife : ¬ ((256 : Int) ≠ 256) := by decide
  apply Exists.intro
  apply And.intro
  case right =>
    simp only [candidate, bind_uintptr_some _ _ _ _ _ hp.chunk,
      bind_continueIf_neg _ _ _ hp.chunk_ne,
      bind_uintptr_some _ _ _ _ _ hp.controller, bind_continueIf_neg _ _ _ hp.controller_ne,
      bind_uintptr_some _ _ _ _ _ hp.handle, bind_continueIf_neg _ _ _ hp.handle_ne,
      bind_uintptr_some _ _ _ _ _ hp.pawnChunk, bind_continueIf_neg _ _ _ hp.pawnChunk_ne,
      bind_uintptr_some _ _ _ _ _ hp.pawn, bind_continueIf_neg _ _ _ hp.pawn_ne,
      bind_continueIf_neg _ _ _ hp.pawn_not_local,
      bind_int32_some _ _ _ _ _ hp.lifeState, bind_continueIf_neg _ _ _ hlife,
      bind_int32_some _ _ _ _ _ hp.team]
    exact rfl
  case left =>
    intro entityHealth
    refine extends_bind _ _ (extends_continueIf _) (fun _ => ?_)
    refine extends_bind _ _ (extends_uintptr _ _) (fun entityNameAddress => ?_)
    refine extends_bind _ _ (extends_string _ _) (fun entityName => ?_)
    refine extends_bind _ _ (extends_continueIf _) (fun _ => ?_)
    refine extends_bind _ _ (extends_uintptr _ _) (fun gameScene => ?_)
    refine extends_bind _ _ (extends_continueIf _) (fun _ => ?_)
    refine extends_bind _ _ (extends_uintptr _ _) (fun entityBoneArray => ?_)
    refine extends_bind _ _ (extends_continueIf _) (fun _ => ?_)
    refine extends_bind _ _ (extends_Vector3 _ _) (fun entityOrigin => ?_)
    refine extends_bind _ _ (extends_boneLoop _ _ _ _ _ _) (fun entityBones => ?_)
    refine extends_bind _ _ extends_getEntityHead (fun entityHead => ?_)
    refine extends_bind _ _ (extends_continueIf _) (fun _ => ?_)
    exact extends_pure _


theorem bind_teamCheckStep_off {β : Type} (host : Host) (process : Image) (offsets : Offset)
    (localPlayerP : Nat) (entityTeam : Int) (k : Unit → Scan β) (s : Vars)
    (hoff : host.teamCheck = false) :
    (teamCheckStep host process offsets localPlayerP entityTeam >>= k) s = k () s :=
  bind_of_eq _ _ _ _ _ (teamCheckStep_off host process offsets localPlayerP entityTeam s hoff)

theorem bind_teamCheckStep_differs {β : Type} (host : Host) (process : Image) (offsets : Offset)
    (localPlayerP : Nat) (entityTeam localTeam : Int) (k : Unit → Scan β) (s : Vars)
    (hon : host.teamCheck = true)
    (hread : peek_int32 process (uintptr (localPlayerP + offsets.M_iTeamNum)) = some localTeam)
    (hne : localTeam ≠ entityTeam) :
    (teamCheckStep host process offsets localPlayerP entityTeam >>= k) s
      = k () (s.log (uintptr (localPlayerP + offsets.M_iTeamNum))) :=
  bind_of_eq _ _ _ _ _
    (teamCheckStep_differs host process offsets localPlayerP entityTeam localTeam s hon hread hne)

/-- The loop body reaches the health value. -/
theorem run_to_health (host : Host) (process : Image) (screenWidth screenHeight : Nat)
    (offsets : Offset) (frame : Frame) (i : Nat) (p : Probe)
    (hp : ReachedHealth host process offsets frame i p) (s : Vars) :
    ∃ k : Nat → Scan Entity,
      (∀ x, Scan.Extends (k x))
        ∧ candidate host process screenWidth screenHeight offsets frame i s
          = (continueIf (p.entityHealth < 1 ∨ p.entityHealth > 100) >>= fun _ =>
              readSafe_uintptr process
                (uintptr (p.entityController + offsets.M_sSanitizedPlayerName)) >>= k)
            ((readsToHealth host offsets frame i p).foldl Vars.log s) := by
  have hlife : ¬ ((256 : Int) ≠ 256) := by decide
  have ht := hp.reachedTeam
  apply Exists.intro
  apply And.intro
  case right =>
    cases hc : host.teamCheck with
    | false =>
      simp only [candidate, bind_uintptr_some _ _ _ _ _ ht.chunk,
        bind_continueIf_neg _ _ _ ht.chunk_ne,
        bind_uintptr_some _ _ _ _ _ ht.controller, bind_continueIf_neg _ _ _ ht.controller_ne,
        bind_uintptr_some _ _ _ _ _ ht.handle, bind_continueIf_neg _ _ _ ht.handle_ne,
        bind_uintptr_some _ _ _ _ _ ht.pawnChunk, bind_continueIf_neg _ _ _ ht.pawnChunk_ne,
        bind_uintptr_some _ _ _ _ _ ht.pawn, bind_continueIf_neg _ _ _ ht.pawn_ne,
        bind_continueIf_neg _ _ _ ht.pawn_not_local,
        bind_int32_some _ _ _ _ _ ht.lifeState, bind_continueIf_neg _ _ _ hlife,
        bind_int32_some _ _ _ _ _ ht.team, bind_continueIf_neg _ _ _ hp.team_ne,
        bind_teamCheckStep_off _ _ _ _ _ _ _ hc,
        bind_int32_some _ _ _ _ _ hp.health, readsToHealth, hc]
      exact rfl
    | true =>
      obtain ⟨localTeam, hread, hne⟩ := hp.team_differs hc
      simp only [candidate, bind_uintptr_some _ _ _ _ _ ht.chunk,
        bind_continueIf_neg _ _ _ ht.chunk_ne,
        bind_uintptr_some _ _ _ _ _ ht.controller, bind_continueIf_neg _ _ _ ht.controller_ne,
        bind_uintptr_some _ _ _ _ _ ht.handle, bind_continueIf_neg _ _ _ ht.handle_ne,
        bind_uintptr_some _ _ _ _ _ ht.pawnChunk, bind_continueIf_neg _ _ _ ht.pawnChunk_ne,
        bind_uintptr_some _ _ _ _ _ ht.pawn, bind_continueIf_neg _ _ _ ht.pawn_ne,
        bind_continueIf_neg _ _ _ ht.pawn_not_local,
        bind_int32_some _ _ _ _ _ ht.lifeState, bind_continueIf_neg _ _ _ hlife,
        bind_int32_some _ _ _ _ _ ht.team, bind_continueIf_neg _ _ _ hp.team_ne,
        bind_teamCheckStep_differs _ _ _ _ _ _ _ _ hc hread hne,
        bind_int32_some _ _ _ _ _ hp.health, readsToHealth, hc]
      exact rfl
  case left =>
    intro entityNameAddress
    refine extends_bind _ _ (extends_string _ _) (fun entityName => ?_)
    refine extends_bind _ _ (extends_continueIf _) (fun _ => ?_)
    refine extends_bind _ _ (extends_uintptr _ _) (fun gameScene => ?_)
    refine extends_bind _ _ (extends_continueIf _) (fun _ => ?_)
    refine extends_bind _ _ (extends_uintptr _ _) (fun entityBoneArray => ?_)
    refine extends_bind _ _ (extends_continueIf _) (fun _ => ?_)
    refine extends_bind _ _ (extends_Vector3 _ _) (fun entityOrigin => ?_)
    refine extends_bind _ _ (extends_boneLoop _ _ _ _ _ _) (fun entityBones => ?_)
    refine extends_bind _ _ extends_getEntityHead (fun entityHead => ?_)
    refine extends_bind _ _ (extends_continueIf _) (fun _ => ?_)
    exact extends_pure _

/-! ## Lemmas: the loop up to the first failed read -/

theorem gather_no_fault (fs : List (Flow Entity)) (h : ∀ f ∈ fs, f ≠ Flow.fault)
    (rest : List (Flow Entity)) :
    gather (fs ++ Flow.fault :: rest) = fs.filterMap Flow.toOption := by
  induction fs with
  | nil => rfl
  | cons f fs ih =>
    have hrec := ih (fun g hg => h g (List.mem_cons_of_mem _ hg))
    cases f with
    | next t =>
      show List.cons t (gather (fs ++ Flow.fault :: rest)) = _
      rw [hrec]
      rfl
    | skip =>
      show gather (fs ++ Flow.fault :: rest) = _
      rw [hrec]
      rfl
    | fault => exact absurd rfl (h _ (List.mem_cons_self _ _))

theorem scanLoop_stops (body : Nat → Scan Entity) (hbody : ∀ i, Scan.Steady (body i))
    (i : Nat) (hfault : verdict body i = Flow.fault) (after : List Nat) :
    ∀ (before : List Nat) (entities : List Entity) (s : Vars),
      scanLoop body (before ++ i :: after) entities s
        = scanLoop body (before ++ [i]) entities s := by
  intro before
  induction before with
  | nil =>
    intro entities s
    have hv : (body i s).1 = verdict body i := hbody i s _
    rw [hfault] at hv
    simp only [List.nil_append, scanLoop]
    rcases hb : body i s with ⟨f, s1⟩
    rw [hb] at hv
    simp only at hv
    subst hv
    rfl
  | cons j before ih =>
    intro entities s
    simp only [List.cons_append, scanLoop]
    rcases hb : body j s with ⟨f, s1⟩
    cases f with
    | next t => exact ih _ _
    | skip => exact ih _ _
    | fault => rfl

theorem range_split (n i : Nat) (hi : i < n) :
    ∃ after, List.range n = List.range i ++ i :: after := by
  refine ⟨(List.range (n - i - 1)).map (fun k => i + 1 + k), ?_⟩
  have h1 : n = i + (n - i - 1 + 1) := by omega
  conv_lhs => rw [h1, List.range_add, List.range_succ_eq_map]
  simp only [List.map_cons, List.map_map, Nat.add_zero, List.cons.injEq, true_and,
    List.append_cancel_left_eq]
  refine List.map_congr_left (fun k _ => ?_)
  simp only [Function.comp]
  omega

/-! ## Lemmas: the loop body with and without skeleton rendering -/

theorem sameButBones_bind {α : Type} (m : Scan α) (k1 k2 : α → Scan Entity)
    (hm : Scan.Steady m) (hk : ∀ a s t, SameButBones (k1 a s).1 (k2 a t).1) (s t : Vars) :
    SameButBones ((m >>= k1) s).1 ((m >>= k2) t).1 := by
  have h := hm s t
  rcases hs : m s with ⟨f1, s1⟩
  rcases ht : m t with ⟨f2, t1⟩
  rw [hs, ht] at h
  simp only at h
  subst h
  cases f1 with
  | next a => rw [bind_of_eq m k1 s s1 a hs, bind_of_eq m k2 t t1 a ht]; exact hk a s1 t1
  | skip => rw [bind_of_skip m k1 s s1 hs, bind_of_skip m k2 t t1 ht]; exact fun _ => rfl
  | fault => rw [bind_of_fault m k1 s s1 hs]; exact fun hne => absurd rfl hne

theorem boneLoop_no_skip (host : Host) (process : Image) (viewMatrix : Matrix)
    (entityBoneArray : Nat) (l : List (String × Nat)) :
    ∀ (m : List (String × Vector2)) (s : Vars),
      (boneLoop host process viewMatrix entityBoneArray l m s).1 ≠ Flow.skip := by
  induction l with
  | nil => intro m s h; cases h
  | cons q rest ih =>
    obtain ⟨boneName, boneIndex⟩ := q
    intro m s
    simp only [boneLoop]
    cases hq : peek_Vector3 process (uintptr (entityBoneArray + boneIndex * 32)) with
    | none =>
      have hr : readSafe_Vector3 process (uintptr (entityBoneArray + boneIndex * 32)) s
          = (Flow.fault, s.log (uintptr (entityBoneArray + boneIndex * 32))) :=
        readSafe_none process (uintptr (entityBoneArray + boneIndex * 32)) 12 decodeVector3 s hq
      rw [bind_of_fault _ _ _ _ hr]
      intro h
      cases h
    | some currentBone =>
      rw [bind_Vector3_some _ _ _ _ _ hq]
      by_cases hn : boneName = "head"
      · simp only [hn, if_true]
        rw [bind_of_eq _ _ _ _ () (rfl : setEntityHead currentBone _ = (Flow.next (), _))]
        cases hsk : host.skeletonRendering with
        | true => simp only [if_true]; exact ih _ _
        | false => simp only [Bool.false_eq_true, if_false]; intro h; cases h
      · simp only [hn, if_false]
        exact ih _ _

theorem boneLoop_succeeds (host : Host) (process : Image) (viewMatrix : Matrix)
    (entityBoneArray : Nat) (l : List (String × Nat))
    (hl : ∀ b ∈ l, ∃ q, peek_Vector3 process (uintptr (entityBoneArray + b.2 * 32)) = some q) :
    ∀ (m : List (String × Vector2)) (s : Vars),
      ∃ m2 s2, boneLoop host process viewMatrix entityBoneArray l m s = (Flow.next m2, s2) := by
  induction l with
  | nil => intro m s; exact ⟨m, s, rfl⟩
  | cons q rest ih =>
    obtain ⟨boneName, boneIndex⟩ := q
    have hrest := ih (fun b hb => hl b (List.mem_cons_of_mem _ hb))
    obtain ⟨currentBone, hq⟩ := hl (boneName, boneIndex) (List.mem_cons_self _ _)
    intro m s
    simp only [boneLoop]
    rw [bind_Vector3_some _ _ _ _ _ hq]
    by_cases hn : boneName = "head"
    · simp only [hn, if_true]
      rw [bind_of_eq _ _ _ _ () (rfl : setEntityHead currentBone _ = (Flow.next (), _))]
      cases hsk : host.skeletonRendering with
      | true => simp only [if_true]; exact hrest _ _
      | false => simp only [Bool.false_eq_true, if_false]; exact ⟨_, _, rfl⟩
    · simp only [hn, if_false]
      exact hrest _ _

/-- The bone loop followed by a use of `entityHead`, with skeleton rendering
on and off and in two visiting orders. -/
theorem sameButBones_boneLoop (host host2 : Host) (hsk : host.skeletonRendering = true)
    (process : Image) (viewMatrix : Matrix) (entityBoneArray : Nat) (o o2 : BoneOrder)
    (k1 k2 : List (String × Vector2) → Vector3 → Scan Entity)
    (hk : ∀ b1 b2 v s t, SameButBones (k1 b1 v s).1 (k2 b2 v t).1) (s t : Vars) :
    SameButBones
      ((boneLoop host process viewMatrix entityBoneArray o.entries []
        >>= fun b => getEntityHead >>= fun v => k1 b v) s).1
      ((boneLoop host2 process viewMatrix entityBoneArray o2.entries []
        >>= fun b => getEntityHead >>= fun v => k2 b v) t).1 := by
  rcases hs : boneLoop host process viewMatrix entityBoneArray o.entries [] s with ⟨f1, s1⟩
  cases f1 with
  | next b1 =>
    have hall := boneLoop_entries host process viewMatrix entityBoneArray hsk o.entries
      (boneOrder_keys_nodup o) _ _ _ _ hs
    have hall2 : ∀ b ∈ o2.entries,
        ∃ q, peek_Vector3 process (uintptr (entityBoneArray + b.2 * 32)) = some q := by
      intro b hb
      obtain ⟨q, hq, _⟩ := hall b (o.perm.symm.subset (o2.perm.subset hb))
      exact ⟨q, hq⟩
    obtain ⟨b2, t1, ht⟩ :=
      boneLoop_succeeds host2 process viewMatrix entityBoneArray o2.entries hall2 [] t
    have h1 := boneLoop_head_found host process viewMatrix entityBoneArray o.entries
      (boneOrder_head_index o) (boneOrder_has_head o) _ _ _ _ hs
    have h2 := boneLoop_head_found host2 process viewMatrix entityBoneArray o2.entries
      (boneOrder_head_index o2) (boneOrder_has_head o2) _ _ _ _ ht
    rw [h1] at h2
    simp only [Option.some.injEq] at h2
    rw [bind_of_eq _ _ s s1 b1 hs, bind_of_eq _ _ t t1 b2 ht, bind_getEntityHead,
      bind_getEntityHead, h2]
    exact hk b1 b2 t1.entityHead s1 t1
  | skip =>
    exact absurd (congrArg Prod.fst hs)
      (boneLoop_no_skip host process viewMatrix entityBoneArray o.entries [] s)
  | fault => rw [bind_of_fault _ _ s s1 hs]; exact fun hne => absurd rfl hne

/-- The loop body with skeleton rendering off, in any visiting order, ends as
the loop body with skeleton rendering on does, up to the skeleton. -/
theorem candidate_sameButBones (host : Host) (hsk : host.skeletonRendering = true)
    (order : Nat → BoneOrder) (process : Image) (screenWidth screenHeight : Nat)
    (offsets : Offset) (frame : Frame) (i : Nat) (s t : Vars) :
    SameButBones (candidate host process screenWidth screenHeight offsets frame i s).1
      (candidate { host with skeletonRendering := false, boneOrder := order } process
        screenWidth screenHeight offsets frame i t).1 := by
  unfold candidate
  refine sameButBones_bind _ _ _ (steady_uintptr _ _) (fun listEntry s t => ?_) s t
  refine sameButBones_bind _ _ _ (steady_continueIf _) (fun _ s t => ?_) s t
  refine sameButBones_bind _ _ _ (steady_uintptr _ _) (fun entityController s t => ?_) s t
  refine sameButBones_bind _ _ _ (steady_continueIf _) (fun _ s t => ?_) s t
  refine sameButBones_bind _ _ _ (steady_uintptr _ _) (fun entityControllerPawn s t => ?_) s t
  refine sameButBones_bind _ _ _ (steady_continueIf _) (fun _ s t => ?_) s t
  refine sameButBones_bind _ _ _ (steady_uintptr _ _) (fun listEntry s t => ?_) s t
  refine sameButBones_bind _ _ _ (steady_continueIf _) (fun _ s t => ?_) s t
  refine sameButBones_bind _ _ _ (steady_uintptr _ _) (fun entityPawn s t => ?_) s t
  refine sameButBones_bind _ _ _ (steady_continueIf _) (fun _ s t => ?_) s t
  refine sameButBones_bind _ _ _ (steady_continueIf _) (fun _ s t => ?_) s t
  refine sameButBones_bind _ _ _ (steady_int32 _ _) (fun entityLifeState s t => ?_) s t
  refine sameButBones_bind _ _ _ (steady_continueIf _) (fun _ s t => ?_) s t
  refine sameButBones_bind _ _ _ (steady_int32 _ _) (fun entityTeam s t => ?_) s t
  refine sameButBones_bind _ _ _ (steady_continueIf _) (fun _ s t => ?_) s t
  refine sameButBones_bind _ _ _ (steady_teamCheckStep _ _ _ _ _) (fun _ s t => ?_) s t
  refine sameButBones_bind _ _ _ (steady_int32 _ _) (fun entityHealth s t => ?_) s t
  refine sameButBones_bind _ _ _ (steady_continueIf _) (fun _ s t => ?_) s t
  refine sameButBones_bind _ _ _ (steady_uintptr _ _) (fun entityNameAddress s t => ?_) s t
  refine sameButBones_bind _ _ _ (steady_string _ _) (fun entityName s t => ?_) s t
  refine sameButBones_bind _ _ _ (steady_continueIf _) (fun _ s t => ?_) s t
  refine sameButBones_bind _ _ _ (steady_uintptr _ _) (fun gameScene s t => ?_) s t
  refine sameButBones_bind _ _ _ (steady_continueIf _) (fun _ s t => ?_) s t
  refine sameButBones_bind _ _ _ (steady_uintptr _ _) (fun entityBoneArray s t => ?_) s t
  refine sameButBones_bind _ _ _ (steady_continueIf _) (fun _ s t => ?_) s t
  refine sameButBones_bind _ _ _ (steady_Vector3 _ _) (fun entityOrigin s t => ?_) s t
  refine sameButBones_boneLoop host _ hsk process frame.viewMatrix entityBoneArray
    (host.boneOrder i) (order i) _ _ (fun b1 b2 entityHead s t => ?_) s t
  refine sameButBones_bind _ _ _ (steady_continueIf _) (fun _ s t => ?_) s t
  exact fun _ => rfl


theorem gather_sameButBones (v1 v2 : Nat → Flow Entity) (l : List Nat)
    (h1 : ∀ i ∈ l, v1 i ≠ Flow.fault) (h2 : ∀ i ∈ l, SameButBones (v1 i) (v2 i)) :
    (gather (l.map v2)).map Entity.withoutBones = (gather (l.map v1)).map Entity.withoutBones := by
  induction l with
  | nil => rfl
  | cons i rest ih =>
    have hrec := ih (fun j hj => h1 j (List.mem_cons_of_mem _ hj))
      (fun j hj => h2 j (List.mem_cons_of_mem _ hj))
    have hne := h1 i (List.mem_cons_self _ _)
    have hsame := h2 i (List.mem_cons_self _ _) hne
    simp only [List.map_cons]
    cases hv1 : v1 i with
    | next e1 =>
      rw [hv1] at hsame
      cases hv2 : v2 i with
      | next e2 =>
        rw [hv2] at hsame
        simp only [Flow.map, Flow.next.injEq] at hsame
        simp only [gather, List.map_cons, hsame, hrec]
      | skip => rw [hv2] at hsame; cases hsame
      | fault => rw [hv2] at hsame; cases hsame
    | skip =>
      rw [hv1] at hsame
      cases hv2 : v2 i with
      | next e2 => rw [hv2] at hsame; cases hsame
      | skip => simp only [gather, hrec]
      | fault => rw [hv2] at hsame; cases hsame
    | fault => exact absurd hv1 hne

/-! ## Lemmas: a scan with one populated slot -/

theorem mem_getEntitiesInfo_verdict (host : Host) (process : Image)
    (clientDll screenWidth screenHeight : Nat) (offsets : Offset) (e : Entity)
    (h : e ∈ getEntitiesInfo host process clientDll screenWidth screenHeight offsets) :
    ∃ (frame : Frame) (i : Nat) (p : Probe),
      FrameRead process clientDll offsets frame ∧ i < 64
        ∧ verdict (candidate host process screenWidth screenHeight offsets frame) i = Flow.next e
        ∧ Accepted host process screenWidth screenHeight offsets frame i p e := by
  obtain ⟨frame, i, p, hf, hi, ha⟩ := mem_getEntitiesInfo _ _ _ _ _ _ _ h
  exact ⟨frame, i, p, hf, hi, accepted_verdict _ _ _ _ _ _ _ _ _ ha, ha⟩

theorem accepted_reachedTeam (host : Host) (process : Image) (screenWidth screenHeight : Nat)
    (offsets : Offset) (frame : Frame) (i : Nat) (p : Probe) (e : Entity)
    (ha : Accepted host process screenWidth screenHeight offsets frame i p e) :
    ReachedTeam process offsets frame i p :=
  ⟨ha.chunk, ha.chunk_ne, ha.controller, ha.controller_ne, ha.handle, ha.handle_ne,
    ha.pawnChunk, ha.pawnChunk_ne, ha.pawn, ha.pawn_ne, ha.pawn_not_local, ha.lifeState, ha.team⟩
/-! ## The claims -/

/-- C1: in exact arithmetic `worldToScreen` is the documented projection: the
sentinel `(-1, -1)` when `w < 0.01`, and otherwise
`(W/2 + 0.5 (x'/w) W + 0.5, H/2 - 0.5 (y'/w) H - 0.5)`. -/
theorem worldToScreen_eq_projection (W H : Nat) (M : Matrix) (p : Vector3) :
    worldToScreen W H M p =
      if M 3 0 * p.X + M 3 1 * p.Y + M 3 2 * p.Z + M 3 3 < 0.01 then (-1, -1)
      else
        ((W : float32) / 2
            + 0.5 * ((M 0 0 * p.X + M 0 1 * p.Y + M 0 2 * p.Z + M 0 3)
                / (M 3 0 * p.X + M 3 1 * p.Y + M 3 2 * p.Z + M 3 3)) * (W : float32) + 0.5,
         (H : float32) / 2
            - 0.5 * ((M 1 0 * p.X + M 1 1 * p.Y + M 1 2 * p.Z + M 1 3)
                / (M 3 0 * p.X + M 3 1 * p.Y + M 3 2 * p.Z + M 3 3)) * (H : float32) - 0.5) := by
  unfold worldToScreen
  dsimp only
  split_ifs with hw
  · rfl
  · have h2 : (2 : float32) = float32.num 2 := by decide!
    have hW : (W : float32) / 2 = float32.num ((W : ℚ) / 2) := by
      rw [h2, float32.natCast_eq, float32.num_div_num _ _ (by norm_num)]
    have hH : (H : float32) / 2 = float32.num ((H : ℚ) / 2) := by
      rw [h2, float32.natCast_eq, float32.num_div_num _ _ (by norm_num)]
    have h05 : (0.5 : float32) = float32.num 0.5 := rfl
    rw [float32.mul_one_div _ _ hw, float32.mul_one_div _ _ hw, hW, hH]
    refine Prod.ext ?_ ?_
    · show float32.num _ + (_ + (0.5 : float32)) = _
      rw [h05, float32.num_add_assoc]
    · show float32.num _ - (_ + (0.5 : float32)) = _
      rw [h05, float32.num_sub_add]

/-- C2 (as stated, refuted): for the identity matrix, the point `(0,0,0)` and
a 1920x1080 display, `worldToScreen` does not return `(961, 539)`. -/
theorem worldToScreen_identity_ne_961_539 :
    worldToScreen 1920 1080 identityMatrix ⟨0, 0, 0⟩ ≠ (961, 539) := by
  decide!

/-- C2 (amended): for the identity matrix, the point `(0,0,0)` and a
1920x1080 display, `worldToScreen` returns `(960.5, 539.5)`. -/
theorem worldToScreen_identity_origin :
    worldToScreen 1920 1080 identityMatrix ⟨0, 0, 0⟩ = (960.5, 539.5) := by
  decide!


/-- C4 (as stated, refuted): at `v = 64` the controller walk computes the
chunk-pointer offset 17 and the pawn walk the offset 16. -/
theorem chunkOffsets_differ_at_64 :
    controllerChunkOffset 64 = 17 ∧ pawnChunkOffset 64 = 16
      ∧ controllerChunkOffset 64 ≠ pawnChunkOffset 64 := by
  decide

/-- C4 (amended): for every candidate index `v < 64`, the range on which the
controller walk runs, the controller walk and the pawn walk compute the same
chunk-pointer offset (16), and for every `v` both use the in-chunk offset
`120 * (v & 0x1FF)`. -/
theorem chunkOffsets_agree_below_64 (v : Nat) (hv : v < 64) :
    controllerChunkOffset v = pawnChunkOffset v
      ∧ pawnChunkOffset v = 16
      ∧ (∀ u : Nat, controllerSlotOffset u = 120 * (u &&& 0x1FF)
          ∧ pawnSlotOffset u = 120 * (u &&& 0x1FF)) := by
  rw [controllerChunkOffset_eq, pawnChunkOffset_eq]
  refine ⟨by omega, by omega, fun u => ⟨rfl, rfl⟩⟩

/-- Witness of `chunkOffsets_agree_below_64` at `v = 63`. -/
theorem chunkOffsets_agree_below_64_witness :
    63 < 64 ∧ (controllerChunkOffset 63 = pawnChunkOffset 63
      ∧ pawnChunkOffset 63 = 16
      ∧ (∀ u : Nat, controllerSlotOffset u = 120 * (u &&& 0x1FF)
          ∧ pawnSlotOffset u = 120 * (u &&& 0x1FF))) :=
  ⟨by decide, chunkOffsets_agree_below_64 63 (by decide)⟩

/-- C6: name sanitization is exactly a filter. The code points of the
sanitized name are the code points of the raw name that are a letter, a
digit, punctuation or white space, in their order; the sanitized name is
their UTF-8 encoding; the bell character U+0007 is not among them; the
letters, digits and spaces of the raw name are all kept, in order; and
sanitizing a sanitized name changes nothing. -/
theorem sanitize_is_filter (t : RangeTables) (raw : List Nat) :
    stringRunes (sanitize t raw)
        = (stringRunes raw).filter
            (fun c => IsLetter t c || IsDigit t c || IsPunct t c || IsSpace t c)
      ∧ sanitize t raw
        = encodeRunes ((stringRunes raw).filter
            (fun c => IsLetter t c || IsDigit t c || IsPunct t c || IsSpace t c))
      ∧ 0x07 ∉ stringRunes (sanitize t raw)
      ∧ List.Sublist
          ((stringRunes raw).filter (fun c => IsLetter t c || IsDigit t c || IsSpace t c))
          (stringRunes (sanitize t raw))
      ∧ sanitize t (sanitize t raw) = sanitize t raw := by
  have hrunes := stringRunes_sanitize t raw
  have henc := sanitize_eq_encode t raw
  refine ⟨hrunes, henc, ?_, ?_, ?_⟩
  · rw [hrunes]
    intro hmem
    have hk : keepRune t 0x07 = true := (List.mem_filter.mp hmem).2
    rw [keepRune_bell] at hk
    exact Bool.false_ne_true hk
  · rw [hrunes]
    have hsub : ∀ l : List Nat, List.Sublist
        (l.filter (fun c => IsLetter t c || IsDigit t c || IsSpace t c))
        (l.filter (keepRune t)) := by
      intro l
      induction l with
      | nil => exact List.Sublist.slnil
      | cons c l ih =>
        simp only [List.filter_cons]
        by_cases h1 : (IsLetter t c || IsDigit t c || IsSpace t c) = true
        · have h2 : keepRune t c = true := by
            unfold keepRune
            simp only [Bool.or_eq_true] at h1 ⊢
            tauto
          simp only [h1, h2, if_true]
          exact List.Sublist.cons₂ _ ih
        · simp only [h1, if_false]
          by_cases h2 : keepRune t c = true
          · simp only [h2, if_true]
            exact List.Sublist.cons _ ih
          · simp only [h2, if_false]
            exact ih
    exact hsub _
  · rw [sanitize_eq_encode t (sanitize t raw), hrunes, List.filter_filter]
    rw [henc]
    congr 1
    apply List.filter_congr
    intro c _
    simp [keepRune]


/-- C3: for every candidate index `i < 64` the loop body first reads the
chunk pointer at `listHead + 8*((i & 0x7FFF) >> 9) + 16`, which is
`listHead + 16`, and, when that pointer is read and is not null, next reads
the object handle at `chunkPointer + 120*(i & 0x1FF)`, which is
`chunkPointer + 120*i`. -/
theorem controller_walk_reads (host : Host) (process : Image) (screenWidth screenHeight : Nat)
    (offsets : Offset) (frame : Frame) (i : Nat) (hi : i < 64) (s : Vars) :
    uintptr (frame.entityList + (8 * ((i &&& 0x7FFF) >>> 9) + 16))
        = uintptr (frame.entityList + 16)
      ∧ (∃ rest, (candidate host process screenWidth screenHeight offsets frame i s).2.reads
          = s.reads ++ uintptr (frame.entityList + (8 * ((i &&& 0x7FFF) >>> 9) + 16)) :: rest)
      ∧ (∀ chunkPointer : Nat,
          peek_uintptr process (uintptr (frame.entityList + (8 * ((i &&& 0x7FFF) >>> 9) + 16)))
            = some chunkPointer →
          chunkPointer ≠ 0 →
          uintptr (chunkPointer + 120 * (i &&& 0x1FF)) = uintptr (chunkPointer + 120 * i)
            ∧ ∃ rest, (candidate host process screenWidth screenHeight offsets frame i s).2.reads
              = s.reads ++ uintptr (frame.entityList + (8 * ((i &&& 0x7FFF) >>> 9) + 16))
                :: uintptr (chunkPointer + 120 * (i &&& 0x1FF)) :: rest) := by
  have hchunk : controllerChunkOffset i = 8 * ((i &&& 0x7FFF) >>> 9) + 16 := by
    rw [controllerChunkOffset_eq, and_0x7FFF, Nat.shiftRight_eq_div_pow]
    omega
  have hsixteen : 8 * ((i &&& 0x7FFF) >>> 9) + 16 = 16 := by
    rw [and_0x7FFF, Nat.shiftRight_eq_div_pow]
    omega
  have hslot : controllerSlotOffset i = 120 * (i &&& 0x1FF) := rfl
  have hlow : i &&& 0x1FF = i := by
    rw [and_0x1FF]
    omega
  obtain ⟨k, hk, hext⟩ :=
    extends_candidate_tail host process screenWidth screenHeight offsets frame i
  rw [hchunk, hslot] at hk
  refine ⟨by rw [hsixteen], ?_, ?_⟩
  · rw [hk]
    refine first_read process _ _ (fun x => ?_) s
    refine extends_bind _ _ (extends_continueIf _) (fun _ => ?_)
    exact extends_bind _ _ (extends_uintptr _ _) hext
  · intro chunkPointer hread hne
    refine ⟨by rw [hlow], ?_⟩
    rw [hk, bind_uintptr_some process _ _ s chunkPointer hread,
      bind_continueIf_neg _ _ _ hne]
    obtain ⟨rest, hrest⟩ := first_read process
      (uintptr (chunkPointer + 120 * (i &&& 0x1FF))) k hext
      (s.log (uintptr (frame.entityList + (8 * ((i &&& 0x7FFF) >>> 9) + 16))))
    refine ⟨rest, ?_⟩
    rw [hrest, log_reads, List.append_assoc]
    rfl

/-- Witness of `controller_walk_reads`: candidate 3 of `plainScene`, whose
chunk pointer is `0x30000`. -/
theorem controller_walk_reads_witness :
    3 < 64
      ∧ (uintptr (sceneFrame.entityList + (8 * ((3 &&& 0x7FFF) >>> 9) + 16))
          = uintptr (sceneFrame.entityList + 16)
        ∧ (∃ rest, (candidate (sceneHost true true) (sceneImage plainScene) 1920 1080
              sceneOffsets sceneFrame 3 ⟨[], ⟨0, 0, 0⟩⟩).2.reads
            = [] ++ uintptr (sceneFrame.entityList + (8 * ((3 &&& 0x7FFF) >>> 9) + 16)) :: rest)
        ∧ (∀ chunkPointer : Nat,
            peek_uintptr (sceneImage plainScene)
                (uintptr (sceneFrame.entityList + (8 * ((3 &&& 0x7FFF) >>> 9) + 16)))
              = some chunkPointer →
            chunkPointer ≠ 0 →
            uintptr (chunkPointer + 120 * (3 &&& 0x1FF)) = uintptr (chunkPointer + 120 * 3)
              ∧ ∃ rest, (candidate (sceneHost true true) (sceneImage plainScene) 1920 1080
                  sceneOffsets sceneFrame 3 ⟨[], ⟨0, 0, 0⟩⟩).2.reads
                = [] ++ uintptr (sceneFrame.entityList + (8 * ((3 &&& 0x7FFF) >>> 9) + 16))
                  :: uintptr (chunkPointer + 120 * (3 &&& 0x1FF)) :: rest)) :=
  ⟨by decide,
    controller_walk_reads (sceneHost true true) (sceneImage plainScene) 1920 1080 sceneOffsets
      sceneFrame 3 (by decide) ⟨[], ⟨0, 0, 0⟩⟩⟩

set_option maxRecDepth 100000 in
/-- C5 (the code at the failing input): a player whose sixteen name bytes are
all NUL, or all the bell character, is not rejected: `getEntitiesInfo`
returns one snapshot, whose `Name` is the empty string. -/
theorem empty_sanitized_name_is_emitted :
    sanitize noTables (List.replicate 16 0x00) = []
      ∧ (getEntitiesInfo (sceneHost true true) (sceneImage nulNameScene) 0x10000 1920 1080
          sceneOffsets).map (fun e => e.Name) = [[]]
      ∧ sanitize noTables (List.replicate 16 0x07) = []
      ∧ (getEntitiesInfo (sceneHost true true) (sceneImage bellNameScene) 0x10000 1920 1080
          sceneOffsets).map (fun e => e.Name) = [[]] := by
  refine ⟨by decide, by decide!, by decide, by decide!⟩

/-- C7 (as stated, refuted): in `tiltedScene` the snapshot has feet at
`(960.5, 539.5)` and `Rect` top `244.1875`, bottom `539.5`; its left and
right edges are not at `(Bottom - Top) / 8` from the feet. -/
theorem rect_half_width_not_eighth :
    ¬ (∀ e ∈ getEntitiesInfo (sceneHost true true) (sceneImage tiltedScene) 0x10000 1920 1080
          sceneOffsets,
        e.Rect.Left = e.Position.X - (e.Rect.Bottom - e.Rect.Top) / 8
          ∧ e.Rect.Right = e.Position.X + (e.Rect.Bottom - e.Rect.Top) / 8) := by
  rw [tilted_result]
  decide!

/-- C7 (amended): the bounding rectangle of every emitted snapshot has
`Top` = projected Y of the box-top point (origin with Z + 70), `Bottom` =
projected Y of the world origin (feet), `Left = feetX - (Bottom - Top) / 4`
and `Right = feetX + (Bottom - Top) / 4`. -/
theorem rect_from_projection (host : Host) (process : Image)
    (clientDll screenWidth screenHeight : Nat) (offsets : Offset) (e : Entity)
    (h : e ∈ getEntitiesInfo host process clientDll screenWidth screenHeight offsets) :
    ∃ (viewMatrix : Matrix) (entityPawn : Nat) (entityOrigin : Vector3),
      peek_Matrix process (uintptr (clientDll + offsets.DwViewMatrix)) = some viewMatrix
        ∧ peek_Vector3 process (uintptr (entityPawn + offsets.M_vOldOrigin)) = some entityOrigin
        ∧ e.Position.X = (worldToScreen host.width host.height viewMatrix entityOrigin).1
        ∧ e.Position.Y = (worldToScreen host.width host.height viewMatrix entityOrigin).2
        ∧ e.Rect.Top = (worldToScreen host.width host.height viewMatrix
            ⟨entityOrigin.X, entityOrigin.Y, entityOrigin.Z + 70⟩).2
        ∧ e.Rect.Bottom = e.Position.Y
        ∧ e.Rect.Left = e.Position.X - (e.Rect.Bottom - e.Rect.Top) / 4
        ∧ e.Rect.Right = e.Position.X + (e.Rect.Bottom - e.Rect.Top) / 4 := by
  obtain ⟨frame, i, p, hf, _, ha⟩ := mem_getEntitiesInfo _ _ _ _ _ _ _ h
  refine ⟨frame.viewMatrix, p.entityPawn, p.entityOrigin, hf.viewMatrix, ha.origin, ?_⟩
  rw [ha.snapshot]
  exact ⟨rfl, rfl, rfl, rfl, rfl, rfl⟩

/-- Witness of `rect_from_projection`: the snapshot of `tiltedScene`. -/
theorem rect_from_projection_witness :
    tiltedSnapshot ∈ getEntitiesInfo (sceneHost true true) (sceneImage tiltedScene) 0x10000
        1920 1080 sceneOffsets
      ∧ ∃ (viewMatrix : Matrix) (entityPawn : Nat) (entityOrigin : Vector3),
        peek_Matrix (sceneImage tiltedScene) (uintptr (0x10000 + sceneOffsets.DwViewMatrix))
            = some viewMatrix
          ∧ peek_Vector3 (sceneImage tiltedScene) (uintptr (entityPawn + sceneOffsets.M_vOldOrigin))
            = some entityOrigin
          ∧ tiltedSnapshot.Position.X
            = (worldToScreen (sceneHost true true).width (sceneHost true true).height viewMatrix
                entityOrigin).1
          ∧ tiltedSnapshot.Position.Y
            = (worldToScreen (sceneHost true true).width (sceneHost true true).height viewMatrix
                entityOrigin).2
          ∧ tiltedSnapshot.Rect.Top
            = (worldToScreen (sceneHost true true).width (sceneHost true true).height viewMatrix
                ⟨entityOrigin.X, entityOrigin.Y, entityOrigin.Z + 70⟩).2
          ∧ tiltedSnapshot.Rect.Bottom = tiltedSnapshot.Position.Y
          ∧ tiltedSnapshot.Rect.Left
            = tiltedSnapshot.Position.X - (tiltedSnapshot.Rect.Bottom - tiltedSnapshot.Rect.Top) / 4
          ∧ tiltedSnapshot.Rect.Right
            = tiltedSnapshot.Position.X
              + (tiltedSnapshot.Rect.Bottom - tiltedSnapshot.Rect.Top) / 4 :=
  ⟨by rw [tilted_result]; exact List.mem_singleton_self _,
    rect_from_projection (sceneHost true true) (sceneImage tiltedScene) 0x10000 1920 1080
      sceneOffsets tiltedSnapshot (by rw [tilted_result]; exact List.mem_singleton_self _)⟩


set_option maxRecDepth 100000 in
/-- C8 (as stated, refuted): in `lowFeetScene` a snapshot is emitted whose
projected feet Y is `2159.5`, not below the screen height 1080; in
`highHeadScene` a snapshot is emitted whose projected head Y is `-1080.5`,
below `-1`; in `nanHeadScene` a snapshot is emitted whose projected head X
is NaN, which is within no bounds. -/
theorem off_screen_feet_or_head_is_emitted :
    ¬ (∀ e ∈ getEntitiesInfo (sceneHost true true) (sceneImage lowFeetScene) 0x10000 1920 1080
          sceneOffsets,
        (-1 ≤ e.HeadPos.X ∧ e.HeadPos.X < 1920) ∧ (-1 ≤ e.Position.Y ∧ e.Position.Y < 1080)
          ∧ (-1 ≤ e.HeadPos.Y ∧ e.HeadPos.Y < 1080))
      ∧ ¬ (∀ e ∈ getEntitiesInfo (sceneHost true true) (sceneImage highHeadScene) 0x10000 1920
            1080 sceneOffsets,
          (-1 ≤ e.HeadPos.X ∧ e.HeadPos.X < 1920) ∧ (-1 ≤ e.Position.Y ∧ e.Position.Y < 1080)
            ∧ (-1 ≤ e.HeadPos.Y ∧ e.HeadPos.Y < 1080))
      ∧ (getEntitiesInfo (sceneHost true true) (sceneImage nanHeadScene) 0x10000 1920 1080
          sceneOffsets).map (fun e => e.HeadPos.X) = [float32.nan]
      ∧ ¬ (∀ e ∈ getEntitiesInfo (sceneHost true true) (sceneImage nanHeadScene) 0x10000 1920
            1080 sceneOffsets,
          (-1 ≤ e.HeadPos.X ∧ e.HeadPos.X < 1920) ∧ (-1 ≤ e.Position.Y ∧ e.Position.Y < 1080)
            ∧ (-1 ≤ e.HeadPos.Y ∧ e.HeadPos.Y < 1080)) := by
  refine ⟨by decide!, by decide!, by decide!, by decide!⟩

/-- C8 (amended): for every emitted snapshot none of the four comparisons of
line 590 holds: the projected head X (the X of the projected head-top point,
stored in `HeadPos.X`) is neither `≤ -1` nor `≥ screenWidth`, the projected
feet Y (`Position.Y`) is not `≤ -1`, and the projected head Y (the Y of the
projected head-top point, stored in `HeadPos.Y`) is not `≥ screenHeight`; a
candidate for which one of the four comparisons holds yields no snapshot.
For coordinates that are numbers this says `-1 < HeadPos.X < screenWidth`,
`-1 < Position.Y` and `HeadPos.Y < screenHeight`; a NaN coordinate passes
all four comparisons. -/
theorem emitted_passes_screen_test (host : Host) (process : Image)
    (clientDll screenWidth screenHeight : Nat) (offsets : Offset) (e : Entity)
    (h : e ∈ getEntitiesInfo host process clientDll screenWidth screenHeight offsets) :
    ∃ (viewMatrix : Matrix) (entityBoneArray entityPawn : Nat)
        (entityHead entityOrigin : Vector3),
      peek_Matrix process (uintptr (clientDll + offsets.DwViewMatrix)) = some viewMatrix
        ∧ peek_Vector3 process (uintptr (entityBoneArray + 6 * 32)) = some entityHead
        ∧ peek_Vector3 process (uintptr (entityPawn + offsets.M_vOldOrigin)) = some entityOrigin
        ∧ e.HeadPos.X = (worldToScreen host.width host.height viewMatrix
            ⟨entityHead.X, entityHead.Y, entityHead.Z + 7⟩).1
        ∧ e.HeadPos.Y = (worldToScreen host.width host.height viewMatrix
            ⟨entityHead.X, entityHead.Y, entityHead.Z + 7⟩).2
        ∧ e.Position.Y = (worldToScreen host.width host.height viewMatrix entityOrigin).2
        ∧ ¬ e.HeadPos.X ≤ -1 ∧ ¬ e.HeadPos.X ≥ (screenWidth : float32)
        ∧ ¬ e.Position.Y ≤ -1 ∧ ¬ e.HeadPos.Y ≥ (screenHeight : float32)
        ∧ (∀ x : ℚ, e.HeadPos.X = float32.num x → -1 < x ∧ x < (screenWidth : ℚ))
        ∧ (∀ y : ℚ, e.Position.Y = float32.num y → -1 < y)
        ∧ (∀ y : ℚ, e.HeadPos.Y = float32.num y → y < (screenHeight : ℚ)) := by
  obtain ⟨frame, i, p, hf, _, ha⟩ := mem_getEntitiesInfo _ _ _ _ _ _ _ h
  refine ⟨frame.viewMatrix, p.entityBoneArray, p.entityPawn, p.entityHead, p.entityOrigin,
    hf.viewMatrix, ha.head, ha.origin, ?_⟩
  rw [ha.snapshot]
  have hneg : (-1 : float32) = float32.num (-1) := rfl
  refine ⟨rfl, rfl, rfl, ha.headX_lo, ha.headX_hi, ha.feetY_lo, ha.headTopY_hi, ?_, ?_, ?_⟩
  · intro x hx
    have h1 := ha.headX_lo
    have h2 := ha.headX_hi
    simp only at hx
    rw [hx, hneg, float32.num_le_num] at h1
    rw [hx, ge_iff_le, float32.natCast_eq, float32.num_le_num] at h2
    exact ⟨not_le.mp h1, not_le.mp h2⟩
  · intro y hy
    have h1 := ha.feetY_lo
    simp only at hy
    rw [hy, hneg, float32.num_le_num] at h1
    exact not_le.mp h1
  · intro y hy
    have h2 := ha.headTopY_hi
    simp only at hy
    rw [hy, ge_iff_le, float32.natCast_eq, float32.num_le_num] at h2
    exact not_le.mp h2

set_option maxRecDepth 100000 in
/-- Witness of `emitted_passes_screen_test`: the snapshot of `plainScene`. -/
theorem emitted_passes_screen_test_witness :
    plainSnapshot ∈ getEntitiesInfo (sceneHost true true) (sceneImage plainScene) 0x10000
        1920 1080 sceneOffsets
      ∧ plainSnapshot.HeadPos.X = float32.num (1921 / 2)
      ∧ ∃ (viewMatrix : Matrix) (entityBoneArray entityPawn : Nat)
          (entityHead entityOrigin : Vector3),
        peek_Matrix (sceneImage plainScene) (uintptr (0x10000 + sceneOffsets.DwViewMatrix))
            = some viewMatrix
          ∧ peek_Vector3 (sceneImage plainScene) (uintptr (entityBoneArray + 6 * 32))
            = some entityHead
          ∧ peek_Vector3 (sceneImage plainScene) (uintptr (entityPawn + sceneOffsets.M_vOldOrigin))
            = some entityOrigin
          ∧ plainSnapshot.HeadPos.X
            = (worldToScreen (sceneHost true true).width (sceneHost true true).height viewMatrix
                ⟨entityHead.X, entityHead.Y, entityHead.Z + 7⟩).1
          ∧ plainSnapshot.HeadPos.Y
            = (worldToScreen (sceneHost true true).width (sceneHost true true).height viewMatrix
                ⟨entityHead.X, entityHead.Y, entityHead.Z + 7⟩).2
          ∧ plainSnapshot.Position.Y
            = (worldToScreen (sceneHost true true).width (sceneHost true true).height viewMatrix
                entityOrigin).2
          ∧ ¬ plainSnapshot.HeadPos.X ≤ -1
          ∧ ¬ plainSnapshot.HeadPos.X ≥ ((1920 : Nat) : float32)
          ∧ ¬ plainSnapshot.Position.Y ≤ -1
          ∧ ¬ plainSnapshot.HeadPos.Y ≥ ((1080 : Nat) : float32)
          ∧ (∀ x : ℚ, plainSnapshot.HeadPos.X = float32.num x
              → -1 < x ∧ x < ((1920 : Nat) : ℚ))
          ∧ (∀ y : ℚ, plainSnapshot.Position.Y = float32.num y → -1 < y)
          ∧ (∀ y : ℚ, plainSnapshot.HeadPos.Y = float32.num y → y < ((1080 : Nat) : ℚ)) :=
  ⟨by rw [plain_result]; exact List.mem_singleton_self _, by decide!,
    emitted_passes_screen_test (sceneHost true true) (sceneImage plainScene) 0x10000 1920 1080
      sceneOffsets plainSnapshot (by rw [plain_result]; exact List.mem_singleton_self _)⟩

set_option maxRecDepth 100000 in
/-- C10 (the code at the failing input): in `nullNameScene` the controller's
name pointer is read as 0 and the next call of `readSafe` is at address 0;
that read fails and the scan ends with no snapshot. -/
theorem null_name_pointer_is_read :
    peek_uintptr (sceneImage nullNameScene) (0x40000 + sceneOffsets.M_sSanitizedPlayerName)
        = some 0
      ∧ readsIssued (sceneHost true true) (sceneImage nullNameScene) 0x10000 1920 1080
          sceneOffsets
        = [0x10100, 0x10108, 0x80040, 0x90010, 0x10200,
            0x20010, 0x30000, 0x20010, 0x30078, 0x20010, 0x300F0,
            0x20010, 0x30168, 0x40010, 0x20010, 0x320D0, 0x50024, 0x50028, 0x80028, 0x50020,
            0x40018, 0]
      ∧ getEntitiesInfo (sceneHost true true) (sceneImage nullNameScene) 0x10000 1920 1080
          sceneOffsets = [] := by
  refine ⟨by decide!, by decide!, by decide!⟩


/-- C13: `Vector3.Dist` is the L1 norm (the sum of the absolute values of the
three coordinate differences), `Dist((0,0,0),(3,-4,5)) = 12`, and the
`Distance` of every emitted snapshot is the L1 norm between the entity's
world origin and the scene origin of the local observer: the snapshot is the
one appended for some candidate `i`, whose two list walks lead to the pawn
`p.entityPawn`; the entity origin is the vector read at that pawn plus
`m_vOldOrigin`, and the local origin is the one read before the loop. -/
theorem distance_is_manhattan (host : Host) (process : Image)
    (clientDll screenWidth screenHeight : Nat) (offsets : Offset) :
    (∀ v o : Vector3, v.Dist o = Abs (v.X - o.X) + Abs (v.Y - o.Y) + Abs (v.Z - o.Z))
      ∧ (∀ a : ℚ, Abs (float32.num a) = float32.num |a|)
      ∧ Vector3.Dist ⟨0, 0, 0⟩ ⟨3, -4, 5⟩ = 12
      ∧ ∀ e ∈ getEntitiesInfo host process clientDll screenWidth screenHeight offsets,
        ∃ (frame : Frame) (i : Nat) (p : Probe),
          FrameRead process clientDll offsets frame ∧ i < 64
            ∧ verdict (candidate host process screenWidth screenHeight offsets frame) i
              = Flow.next e
            ∧ ReachedTeam process offsets frame i p
            ∧ peek_Vector3 process (uintptr (p.entityPawn + offsets.M_vOldOrigin))
              = some p.entityOrigin
            ∧ e.Distance = Abs (p.entityOrigin.X - frame.localPlayerSceneOrigin.X)
                + Abs (p.entityOrigin.Y - frame.localPlayerSceneOrigin.Y)
                + Abs (p.entityOrigin.Z - frame.localPlayerSceneOrigin.Z) := by
  refine ⟨fun v o => rfl, fun a => rfl, by decide!, fun e h => ?_⟩
  obtain ⟨frame, i, p, hf, hi, hv, ha⟩ := mem_getEntitiesInfo_verdict _ _ _ _ _ _ _ h
  refine ⟨frame, i, p, hf, hi, hv, accepted_reachedTeam _ _ _ _ _ _ _ _ _ ha, ha.origin, ?_⟩
  rw [ha.snapshot]
  rfl

set_option maxRecDepth 100000 in
/-- Witness of `distance_is_manhattan`: in `farImage` the entity origin is
`(3, -4, 5)` and the local origin `(1, 2, 3)`; the one snapshot has
`Distance = 2 + 6 + 2 = 10`. -/
theorem distance_is_manhattan_witness :
    (getEntitiesInfo (sceneHost true true) farImage 0x10000 1920 1080 sceneOffsets).map
        (fun e => e.Distance) = [10]
      ∧ ∀ e ∈ getEntitiesInfo (sceneHost true true) farImage 0x10000 1920 1080 sceneOffsets,
        ∃ (frame : Frame) (i : Nat) (p : Probe),
          FrameRead farImage 0x10000 sceneOffsets frame ∧ i < 64
            ∧ verdict (candidate (sceneHost true true) farImage 1920 1080 sceneOffsets frame) i
              = Flow.next e
            ∧ ReachedTeam farImage sceneOffsets frame i p
            ∧ peek_Vector3 farImage (uintptr (p.entityPawn + sceneOffsets.M_vOldOrigin))
              = some p.entityOrigin
            ∧ e.Distance = Abs (p.entityOrigin.X - frame.localPlayerSceneOrigin.X)
                + Abs (p.entityOrigin.Y - frame.localPlayerSceneOrigin.Y)
                + Abs (p.entityOrigin.Z - frame.localPlayerSceneOrigin.Z) :=
  ⟨by decide!,
    (distance_is_manhattan (sceneHost true true) farImage 0x10000 1920 1080
      sceneOffsets).2.2.2⟩

/-- C14: with skeleton rendering enabled, the `Bones` of every emitted
snapshot has exactly 17 entries, keyed by the 17 joint names of the table
`bones`, and the entry of the joint with index `k` is `worldToScreen` of the
sample read at `boneArray + 32*k`, whatever the order in which the joint
table is visited. Here the snapshot is the one appended for some candidate
`i`, whose two list walks lead to the pawn `p.entityPawn`; `boneArray` is the
pointer read at `node + m_modelState + m_boneArray`, `node` being the scene
node read at that pawn, and the view matrix is the one read before the
loop. -/
theorem skeleton_has_all_joints (host : Host) (process : Image)
    (clientDll screenWidth screenHeight : Nat) (offsets : Offset)
    (hsk : host.skeletonRendering = true) :
    ∀ e ∈ getEntitiesInfo host process clientDll screenWidth screenHeight offsets,
      e.Bones.length = 17
        ∧ (e.Bones.map Prod.fst).Perm (bones.map Prod.fst)
        ∧ ∃ (frame : Frame) (i : Nat) (p : Probe),
          FrameRead process clientDll offsets frame ∧ i < 64
            ∧ verdict (candidate host process screenWidth screenHeight offsets frame) i
              = Flow.next e
            ∧ ReachedTeam process offsets frame i p
            ∧ peek_uintptr process (uintptr (p.entityPawn + offsets.M_pGameSceneNode))
              = some p.gameScene
            ∧ peek_uintptr process
                (uintptr (uintptr (p.gameScene + offsets.M_modelState) + offsets.M_boneArray))
              = some p.entityBoneArray
            ∧ ∀ b ∈ bones, ∃ q,
              peek_Vector3 process (uintptr (p.entityBoneArray + 32 * b.2)) = some q
                ∧ mapGet e.Bones b.1
                  = some ⟨(worldToScreen host.width host.height frame.viewMatrix q).1,
                      (worldToScreen host.width host.height frame.viewMatrix q).2⟩ := by
  intro e h
  obtain ⟨frame, i, p, hf, hi, hv, ha⟩ := mem_getEntitiesInfo_verdict _ _ _ _ _ _ _ h
  obtain ⟨s1, s2, hloop, _⟩ := ha.bonesLoop
  have hbones : e.Bones = p.entityBones := by rw [ha.snapshot]
  have hkeys := boneLoop_keys host process frame.viewMatrix p.entityBoneArray hsk
    (host.boneOrder i).entries (boneOrder_keys_nodup _) [] _ _ _ (by simp) hloop
  simp only [List.map_nil, List.nil_append] at hkeys
  have hperm : (e.Bones.map Prod.fst).Perm (bones.map Prod.fst) := by
    rw [hbones, hkeys]
    exact (host.boneOrder i).perm.map Prod.fst
  refine ⟨?_, hperm, frame, i, p, hf, hi, hv, accepted_reachedTeam _ _ _ _ _ _ _ _ _ ha,
    ha.scene, ha.boneArray, ?_⟩
  · have := hperm.length_eq
    simpa using this
  · intro b hb
    have hb2 : b ∈ (host.boneOrder i).entries := (host.boneOrder i).perm.mem_iff.mpr hb
    obtain ⟨q, hq1, hq2⟩ := boneLoop_entries host process frame.viewMatrix p.entityBoneArray hsk
      (host.boneOrder i).entries (boneOrder_keys_nodup _) [] _ _ _ hloop b hb2
    refine ⟨q, ?_, ?_⟩
    · rw [Nat.mul_comm]; exact hq1
    · rw [hbones]; exact hq2

set_option maxRecDepth 100000 in
/-- Witness of `skeleton_has_all_joints`: in `posedScene` the 17 joints are
at 17 different places; the one snapshot has 17 entries, the head (joint 6,
at `(1/128, -1/128, 0)`) at `(968, 543.71875)` and the pelvis (joint 0, at
`(1/2, -1/2, 0)`) at `(1440.5, 809.5)`. -/
theorem skeleton_has_all_joints_witness :
    (sceneHost true true).skeletonRendering = true
      ∧ (getEntitiesInfo (sceneHost true true) (sceneImage posedScene) 0x10000 1920 1080
          sceneOffsets).map
            (fun e => (e.Bones.length, mapGet e.Bones "head", mapGet e.Bones "pelvis"))
        = [(17, some ⟨968, 543.71875⟩, some ⟨1440.5, 809.5⟩)]
      ∧ ∀ e ∈ getEntitiesInfo (sceneHost true true) (sceneImage posedScene) 0x10000 1920 1080
          sceneOffsets,
        e.Bones.length = 17
          ∧ (e.Bones.map Prod.fst).Perm (bones.map Prod.fst)
          ∧ ∃ (frame : Frame) (i : Nat) (p : Probe),
            FrameRead (sceneImage posedScene) 0x10000 sceneOffsets frame ∧ i < 64
              ∧ verdict (candidate (sceneHost true true) (sceneImage posedScene) 1920 1080
                  sceneOffsets frame) i = Flow.next e
              ∧ ReachedTeam (sceneImage posedScene) sceneOffsets frame i p
              ∧ peek_uintptr (sceneImage posedScene)
                  (uintptr (p.entityPawn + sceneOffsets.M_pGameSceneNode)) = some p.gameScene
              ∧ peek_uintptr (sceneImage posedScene)
                  (uintptr (uintptr (p.gameScene + sceneOffsets.M_modelState)
                    + sceneOffsets.M_boneArray)) = some p.entityBoneArray
              ∧ ∀ b ∈ bones, ∃ q,
                peek_Vector3 (sceneImage posedScene) (uintptr (p.entityBoneArray + 32 * b.2))
                    = some q
                  ∧ mapGet e.Bones b.1
                    = some ⟨(worldToScreen (sceneHost true true).width
                          (sceneHost true true).height frame.viewMatrix q).1,
                        (worldToScreen (sceneHost true true).width
                          (sceneHost true true).height frame.viewMatrix q).2⟩ :=
  ⟨rfl, by decide!,
    skeleton_has_all_joints (sceneHost true true) (sceneImage posedScene) 0x10000 1920 1080
      sceneOffsets rfl⟩

/-- C17: schema resolution is fail-fast. `getValue` returns `n` exactly when
`data` holds `key` with a number, `n` being that number converted to
`uintptr`, and ends in the fatal error in every other case;
`getNestedFieldValue` returns `n` exactly when `data[dll]`, its `classes`
entry, that entry's class and the class's `fields` entry exist and are maps
and the field holds a number, `n` being that number converted to `uintptr`,
and ends in the fatal error in every other case; a number that is an offset
`m < 2^64` is converted to `m`. -/
theorem schema_resolution_fail_fast (outOfRange : ℚ → Nat) (data : List (String × JSONValue))
    (key dllKey classKey fieldKey : String) (n : Nat) :
    (getValue outOfRange data key = some n
        ↔ ∃ floatValue, mapIndex data key = some (JSONValue.number floatValue)
            ∧ uintptrOfFloat64 outOfRange floatValue = n)
      ∧ ((¬ ∃ floatValue, mapIndex data key = some (JSONValue.number floatValue))
          ↔ getValue outOfRange data key = none)
      ∧ (getNestedFieldValue outOfRange data dllKey classKey fieldKey = some n
        ↔ ∃ dllMap classesMap classMap fieldsMap floatValue,
            mapIndex data dllKey = some (JSONValue.object dllMap)
              ∧ mapIndex dllMap "classes" = some (JSONValue.object classesMap)
              ∧ mapIndex classesMap classKey = some (JSONValue.object classMap)
              ∧ mapIndex classMap "fields" = some (JSONValue.object fieldsMap)
              ∧ mapIndex fieldsMap fieldKey = some (JSONValue.number floatValue)
              ∧ uintptrOfFloat64 outOfRange floatValue = n)
      ∧ ((¬ ∃ dllMap classesMap classMap fieldsMap floatValue,
            mapIndex data dllKey = some (JSONValue.object dllMap)
              ∧ mapIndex dllMap "classes" = some (JSONValue.object classesMap)
              ∧ mapIndex classesMap classKey = some (JSONValue.object classMap)
              ∧ mapIndex classMap "fields" = some (JSONValue.object fieldsMap)
              ∧ mapIndex fieldsMap fieldKey = some (JSONValue.number floatValue))
          ↔ getNestedFieldValue outOfRange data dllKey classKey fieldKey = none)
      ∧ (∀ m : Nat, m < 2 ^ 64 → uintptrOfFloat64 outOfRange (m : ℚ) = m) := by
  refine ⟨?_, ?_, ?_, ?_, fun m hm => uintptrOfFloat64_nat outOfRange m hm⟩
  · unfold getValue
    cases h : mapIndex data key with
    | none => simp
    | some v => cases v <;> simp
  · unfold getValue
    cases h : mapIndex data key with
    | none => simp
    | some v => cases v <;> simp
  · unfold getNestedFieldValue
    cases h1 : mapIndex data dllKey with
    | none => simp
    | some v1 =>
      cases v1 <;> simp
      rename_i dllMap
      cases h2 : mapIndex dllMap "classes" with
      | none => simp
      | some v2 =>
        cases v2 <;> simp
        rename_i classesMap
        cases h3 : mapIndex classesMap classKey with
        | none => simp
        | some v3 =>
          cases v3 <;> simp
          rename_i classMap
          cases h4 : mapIndex classMap "fields" with
          | none => simp
          | some v4 =>
            cases v4 <;> simp
            rename_i fieldsMap
            cases h5 : mapIndex fieldsMap fieldKey with
            | none => simp
            | some v5 => cases v5 <;> simp
  · unfold getNestedFieldValue
    cases h1 : mapIndex data dllKey with
    | none => simp
    | some v1 =>
      cases v1 <;> simp
      rename_i dllMap
      cases h2 : mapIndex dllMap "classes" with
      | none => simp
      | some v2 =>
        cases v2 <;> simp
        rename_i classesMap
        cases h3 : mapIndex classesMap classKey with
        | none => simp
        | some v3 =>
          cases v3 <;> simp
          rename_i classMap
          cases h4 : mapIndex classMap "fields" with
          | none => simp
          | some v4 =>
            cases v4 <;> simp
            rename_i fieldsMap
            cases h5 : mapIndex fieldsMap fieldKey with
            | none => simp
            | some v5 => cases v5 <;> simp


/-- C19: a successfully read raw name has exactly 16 bytes and is never
empty, sanitizing never makes a name longer, and the `Name` of every emitted
snapshot is the sanitized 16-byte raw name, at most 16 bytes long. -/
theorem name_is_at_most_16_bytes (host : Host) (process : Image)
    (clientDll screenWidth screenHeight : Nat) (offsets : Offset) (e : Entity)
    (h : e ∈ getEntitiesInfo host process clientDll screenWidth screenHeight offsets) :
    (∀ (address : Nat) (raw : List Nat),
        peek_string process address = some raw → raw.length = 16 ∧ raw ≠ [])
      ∧ (∀ raw : List Nat, (sanitize host.tables raw).length ≤ raw.length)
      ∧ ∃ (entityNameAddress : Nat) (entityName : List Nat),
        peek_string process entityNameAddress = some entityName
          ∧ entityName.length = 16
          ∧ e.Name = sanitize host.tables entityName
          ∧ e.Name.length ≤ 16 := by
  have hlen : ∀ (address : Nat) (raw : List Nat),
      peek_string process address = some raw → raw.length = 16 ∧ raw ≠ [] := by
    intro address raw hraw
    have h16 := peek_string_length process address raw hraw
    refine ⟨h16, ?_⟩
    intro hnil
    rw [hnil] at h16
    simp at h16
  obtain ⟨frame, i, p, hf, _, ha⟩ := mem_getEntitiesInfo _ _ _ _ _ _ _ h
  have hname : e.Name = sanitize host.tables p.entityName := by rw [ha.snapshot]
  refine ⟨hlen, fun raw => sanitize_length_le _ raw, p.entityNameAddress, p.entityName, ha.name,
    (hlen _ _ ha.name).1, hname, ?_⟩
  rw [hname, ← (hlen _ _ ha.name).1]
  exact sanitize_length_le _ _

/-- Witness of `name_is_at_most_16_bytes`: the snapshot of `plainScene`. -/
theorem name_is_at_most_16_bytes_witness :
    plainSnapshot ∈ getEntitiesInfo (sceneHost true true) (sceneImage plainScene) 0x10000
        1920 1080 sceneOffsets
      ∧ ((∀ (address : Nat) (raw : List Nat),
          peek_string (sceneImage plainScene) address = some raw → raw.length = 16 ∧ raw ≠ [])
        ∧ (∀ raw : List Nat, (sanitize (sceneHost true true).tables raw).length ≤ raw.length)
        ∧ ∃ (entityNameAddress : Nat) (entityName : List Nat),
          peek_string (sceneImage plainScene) entityNameAddress = some entityName
            ∧ entityName.length = 16
            ∧ plainSnapshot.Name = sanitize (sceneHost true true).tables entityName
            ∧ plainSnapshot.Name.length ≤ 16) :=
  ⟨by rw [plain_result]; exact List.mem_singleton_self _,
    name_is_at_most_16_bytes (sceneHost true true) (sceneImage plainScene) 0x10000 1920 1080
      sceneOffsets plainSnapshot (by rw [plain_result]; exact List.mem_singleton_self _)⟩


/-- C12: the team filter. For a candidate that got as far as the team value
(`ReachedTeam`): with team 0 the pass ends in `continue` right after the team
read; with `teamCheck` on, the local team is read next, and the pass ends in
`continue` there when it equals the candidate's team and goes on to read the
health when it differs; with `teamCheck` off the health is read right after
the team value, without any read of the local team. Every emitted snapshot
has `Team ≠ 0` and, when `teamCheck` is on, a `Team` other than the local
team read from the local pawn. -/
theorem team_filter (host : Host) (process : Image) (clientDll screenWidth screenHeight : Nat)
    (offsets : Offset) :
    (∀ (frame : Frame) (i : Nat) (p : Probe) (s : Vars),
        ReachedTeam process offsets frame i p →
        (p.entityTeam = 0 →
            (candidate host process screenWidth screenHeight offsets frame i s).1 = Flow.skip
              ∧ (candidate host process screenWidth screenHeight offsets frame i s).2.reads
                = s.reads ++ readsToTeam offsets frame i p)
          ∧ (p.entityTeam ≠ 0 → host.teamCheck = true →
              ∀ localTeam : Int,
                peek_int32 process (uintptr (frame.localPlayerP + offsets.M_iTeamNum))
                    = some localTeam →
                  (localTeam = p.entityTeam →
                    (candidate host process screenWidth screenHeight offsets frame i s).1
                        = Flow.skip
                      ∧ (candidate host process screenWidth screenHeight offsets frame i
                          s).2.reads
                        = s.reads ++ readsToTeam offsets frame i p
                          ++ [uintptr (frame.localPlayerP + offsets.M_iTeamNum)])
                    ∧ (localTeam ≠ p.entityTeam →
                      ∃ rest,
                        (candidate host process screenWidth screenHeight offsets frame i
                            s).2.reads
                          = s.reads ++ readsToTeam offsets frame i p
                            ++ uintptr (frame.localPlayerP + offsets.M_iTeamNum)
                              :: uintptr (p.entityPawn + offsets.M_iHealth) :: rest))
          ∧ (p.entityTeam ≠ 0 → host.teamCheck = false →
              ∃ rest,
                (candidate host process screenWidth screenHeight offsets frame i s).2.reads
                  = s.reads ++ readsToTeam offsets frame i p
                    ++ uintptr (p.entityPawn + offsets.M_iHealth) :: rest))
      ∧ ∀ e ∈ getEntitiesInfo host process clientDll screenWidth screenHeight offsets,
        e.Team ≠ 0
          ∧ (host.teamCheck = true →
              ∃ (localPlayerP : Nat) (localTeam : Int),
                peek_uintptr process (uintptr (clientDll + offsets.DwLocalPlayerPawn))
                    = some localPlayerP
                  ∧ peek_int32 process (uintptr (localPlayerP + offsets.M_iTeamNum))
                    = some localTeam
                  ∧ e.Team ≠ localTeam) := by
  constructor
  · intro frame i p s hp
    obtain ⟨k, hk, heq⟩ :=
      run_to_team host process screenWidth screenHeight offsets frame i p hp s
    rw [heq]
    refine ⟨?_, ?_, ?_⟩
    · intro h0
      rw [bind_continueIf_pos _ _ _ h0]
      exact ⟨rfl, foldl_log_reads _ _⟩
    · intro hne hon localTeam hread
      rw [bind_continueIf_neg _ _ _ hne]
      constructor
      · intro hsame
        rw [bind_of_skip _ _ _ _
          (teamCheckStep_same host process offsets _ _ localTeam _ hon hread hsame)]
        refine ⟨rfl, ?_⟩
        show (Vars.log _ _).reads = _
        rw [log_reads, foldl_log_reads]
      · intro hdiff
        rw [bind_teamCheckStep_differs host process offsets _ _ localTeam _ _ hon hread hdiff]
        obtain ⟨rest, hrest⟩ := first_read_any process
          (uintptr (p.entityPawn + offsets.M_iHealth)) 4 decodeInt32 k hk
          (((readsToTeam offsets frame i p).foldl Vars.log s).log
            (uintptr (frame.localPlayerP + offsets.M_iTeamNum)))
        refine ⟨rest, ?_⟩
        rw [log_reads, foldl_log_reads] at hrest
        rw [show ∀ (a b : List Nat) (x : Nat) (r : List Nat),
            a ++ b ++ x :: r = a ++ b ++ [x] ++ r from fun a b x r => by simp]
        exact hrest
    · intro hne hoff
      rw [bind_continueIf_neg _ _ _ hne,
        bind_teamCheckStep_off host process offsets _ _ _ _ hoff]
      obtain ⟨rest, hrest⟩ := first_read_any process
        (uintptr (p.entityPawn + offsets.M_iHealth)) 4 decodeInt32 k hk
        ((readsToTeam offsets frame i p).foldl Vars.log s)
      refine ⟨rest, ?_⟩
      rw [foldl_log_reads] at hrest
      exact hrest
  · intro e he
    obtain ⟨frame2, j, q, hf, _, ha⟩ :=
      mem_getEntitiesInfo host process clientDll screenWidth screenHeight offsets e he
    have hteam : e.Team = q.entityTeam := by rw [ha.snapshot]
    refine ⟨by rw [hteam]; exact ha.team_ne, fun hon => ?_⟩
    obtain ⟨s1, s2, hstep⟩ := ha.teamCheckStep
    obtain ⟨localTeam, hread, hne⟩ :=
      teamCheckStep_next host process offsets _ _ s1 s2 () hstep hon
    exact ⟨frame2.localPlayerP, localTeam, hf.localPlayerP, hread,
      by rw [hteam]; exact fun h => hne h.symm⟩

set_option maxRecDepth 100000 in
/-- Witness of `team_filter`, on `plainScene` (team 3, local team 2) and on
its variants with the player's team set to 0 and to 2. With team 0 the pass
for slot 3 ends in `continue` and nothing is returned; with team 2 and
`teamCheck` on the same happens after the read of the local team; with team
2 and `teamCheck` off the player is returned; with team 3 and `teamCheck` on
the health is read after the local team and the player is returned. -/
theorem team_filter_witness :
    (ReachedTeam (teamImage 0) sceneOffsets sceneFrame 3 { sceneProbe with entityTeam := 0 }
        ∧ (candidate (sceneHost true true) (teamImage 0) 1920 1080 sceneOffsets sceneFrame 3
            ⟨[], ⟨0, 0, 0⟩⟩).1 = Flow.skip
        ∧ getEntitiesInfo (sceneHost true true) (teamImage 0) 0x10000 1920 1080 sceneOffsets
          = [])
      ∧ (ReachedTeam (teamImage 2) sceneOffsets sceneFrame 3 { sceneProbe with entityTeam := 2 }
        ∧ (candidate (sceneHost true true) (teamImage 2) 1920 1080 sceneOffsets sceneFrame 3
            ⟨[], ⟨0, 0, 0⟩⟩).1 = Flow.skip
        ∧ (candidate (sceneHost true true) (teamImage 2) 1920 1080 sceneOffsets sceneFrame 3
            ⟨[], ⟨0, 0, 0⟩⟩).2.reads
          = [] ++ readsToTeam sceneOffsets sceneFrame 3 { sceneProbe with entityTeam := 2 }
            ++ [uintptr (sceneFrame.localPlayerP + sceneOffsets.M_iTeamNum)]
        ∧ getEntitiesInfo (sceneHost true true) (teamImage 2) 0x10000 1920 1080 sceneOffsets
          = [])
      ∧ ((∃ rest,
            (candidate (sceneHost false true) (teamImage 2) 1920 1080 sceneOffsets sceneFrame 3
                ⟨[], ⟨0, 0, 0⟩⟩).2.reads
              = [] ++ readsToTeam sceneOffsets sceneFrame 3 { sceneProbe with entityTeam := 2 }
                ++ uintptr (sceneProbe.entityPawn + sceneOffsets.M_iHealth) :: rest)
        ∧ (getEntitiesInfo (sceneHost false true) (teamImage 2) 0x10000 1920 1080
            sceneOffsets).map (fun e => e.Team) = [2])
      ∧ (ReachedTeam (sceneImage plainScene) sceneOffsets sceneFrame 3 sceneProbe
        ∧ (∃ rest,
            (candidate (sceneHost true true) (sceneImage plainScene) 1920 1080 sceneOffsets
                sceneFrame 3 ⟨[], ⟨0, 0, 0⟩⟩).2.reads
              = [] ++ readsToTeam sceneOffsets sceneFrame 3 sceneProbe
                ++ uintptr (sceneFrame.localPlayerP + sceneOffsets.M_iTeamNum)
                  :: uintptr (sceneProbe.entityPawn + sceneOffsets.M_iHealth) :: rest)
        ∧ (getEntitiesInfo (sceneHost true true) (sceneImage plainScene) 0x10000 1920 1080
            sceneOffsets).map (fun e => e.Team) = [3]
        ∧ ∀ e ∈ getEntitiesInfo (sceneHost true true) (sceneImage plainScene) 0x10000 1920
            1080 sceneOffsets,
          e.Team ≠ 0
            ∧ ((sceneHost true true).teamCheck = true →
                ∃ (localPlayerP : Nat) (localTeam : Int),
                  peek_uintptr (sceneImage plainScene)
                      (uintptr (0x10000 + sceneOffsets.DwLocalPlayerPawn)) = some localPlayerP
                    ∧ peek_int32 (sceneImage plainScene)
                      (uintptr (localPlayerP + sceneOffsets.M_iTeamNum)) = some localTeam
                    ∧ e.Team ≠ localTeam)) :=
  have h0 := teamImage_reached 0 (by decide)
  have h2 := teamImage_reached 2 (by decide)
  ⟨⟨h0,
      (((team_filter (sceneHost true true) (teamImage 0) 0x10000 1920 1080 sceneOffsets).1
        sceneFrame 3 _ ⟨[], ⟨0, 0, 0⟩⟩ h0).1 rfl).1,
      by decide!⟩,
    ⟨h2,
      ((((team_filter (sceneHost true true) (teamImage 2) 0x10000 1920 1080 sceneOffsets).1
        sceneFrame 3 _ ⟨[], ⟨0, 0, 0⟩⟩ h2).2.1 (by decide) rfl 2 (by decide!)).1 rfl).1,
      ((((team_filter (sceneHost true true) (teamImage 2) 0x10000 1920 1080 sceneOffsets).1
        sceneFrame 3 _ ⟨[], ⟨0, 0, 0⟩⟩ h2).2.1 (by decide) rfl 2 (by decide!)).1 rfl).2,
      by decide!⟩,
    ⟨((team_filter (sceneHost false true) (teamImage 2) 0x10000 1920 1080 sceneOffsets).1
        sceneFrame 3 _ ⟨[], ⟨0, 0, 0⟩⟩ h2).2.2 (by decide) rfl,
      by decide!⟩,
    ⟨scene_reachedTeam,
      (((team_filter (sceneHost true true) (sceneImage plainScene) 0x10000 1920 1080
        sceneOffsets).1 sceneFrame 3 _ ⟨[], ⟨0, 0, 0⟩⟩ scene_reachedTeam).2.1 (by decide) rfl 2
          (by decide!)).2 (by decide),
      by decide!,
      (team_filter (sceneHost true true) (sceneImage plainScene) 0x10000 1920 1080
        sceneOffsets).2⟩⟩


/-- C11: the health filter. For a candidate that got as far as the health
value `h` (`ReachedHealth`), the pass ends in `continue` right after the
health read exactly when `h < 1` or `h > 100`; when `1 ≤ h ≤ 100` the pass
goes on to read the name pointer. Every emitted snapshot has
`1 ≤ Health ≤ 100`. -/
theorem health_filter (host : Host) (process : Image)
    (clientDll screenWidth screenHeight : Nat) (offsets : Offset) :
    (∀ (frame : Frame) (i : Nat) (p : Probe) (s : Vars),
        ReachedHealth host process offsets frame i p →
        (((candidate host process screenWidth screenHeight offsets frame i s).1 = Flow.skip
              ∧ (candidate host process screenWidth screenHeight offsets frame i s).2.reads
                = s.reads ++ readsToHealth host offsets frame i p)
            ↔ (p.entityHealth < 1 ∨ p.entityHealth > 100))
          ∧ (1 ≤ p.entityHealth ∧ p.entityHealth ≤ 100 →
              ∃ rest,
                (candidate host process screenWidth screenHeight offsets frame i s).2.reads
                  = s.reads ++ readsToHealth host offsets frame i p
                    ++ uintptr (p.entityController + offsets.M_sSanitizedPlayerName) :: rest))
      ∧ ∀ e ∈ getEntitiesInfo host process clientDll screenWidth screenHeight offsets,
        1 ≤ e.Health ∧ e.Health ≤ 100 := by
  constructor
  · intro frame i p s hp
    obtain ⟨k, hk, heq⟩ :=
      run_to_health host process screenWidth screenHeight offsets frame i p hp s
    rw [heq]
    have hin : 1 ≤ p.entityHealth ∧ p.entityHealth ≤ 100 →
        ∃ rest,
          ((continueIf (p.entityHealth < 1 ∨ p.entityHealth > 100) >>= fun _ =>
              readSafe_uintptr process
                (uintptr (p.entityController + offsets.M_sSanitizedPlayerName)) >>= k)
            ((readsToHealth host offsets frame i p).foldl Vars.log s)).2.reads
            = s.reads ++ readsToHealth host offsets frame i p
              ++ uintptr (p.entityController + offsets.M_sSanitizedPlayerName) :: rest := by
      intro hrange
      have hnot : ¬ (p.entityHealth < 1 ∨ p.entityHealth > 100) := by omega
      rw [bind_continueIf_neg _ _ _ hnot]
      obtain ⟨rest, hrest⟩ := first_read_any process
        (uintptr (p.entityController + offsets.M_sSanitizedPlayerName)) 8 Uint64 k hk
        ((readsToHealth host offsets frame i p).foldl Vars.log s)
      refine ⟨rest, ?_⟩
      rw [foldl_log_reads] at hrest
      exact hrest
    refine ⟨⟨fun hskip => ?_, fun hout => ?_⟩, hin⟩
    · by_contra hnot
      obtain ⟨rest, hrest⟩ := hin (by omega)
      have h2 := hskip.2
      rw [hrest] at h2
      have h3 := congrArg List.length h2
      simp only [List.length_append, List.length_cons] at h3
      omega
    · rw [bind_continueIf_pos _ _ _ hout]
      exact ⟨rfl, foldl_log_reads _ _⟩
  · intro e he
    obtain ⟨frame2, j, q, _, _, ha⟩ :=
      mem_getEntitiesInfo host process clientDll screenWidth screenHeight offsets e he
    have hhealth : e.Health = q.entityHealth := by rw [ha.snapshot]
    rw [hhealth]
    exact ⟨ha.health_lo, ha.health_hi⟩

set_option maxRecDepth 100000 in
/-- Witness of `health_filter`, on the variants of `plainScene` with the
player's health set to 0, 101, 1 and 100: with 0 and with 101 the pass for
slot 3 ends in `continue` right after the health read and nothing is
returned; with 1 and with 100 the name pointer is read next and the player is
returned. -/
theorem health_filter_witness :
    (ReachedHealth (sceneHost true true) (healthImage 0) sceneOffsets sceneFrame 3
          { sceneProbe with entityHealth := 0 }
        ∧ (candidate (sceneHost true true) (healthImage 0) 1920 1080 sceneOffsets sceneFrame 3
            ⟨[], ⟨0, 0, 0⟩⟩).1 = Flow.skip
        ∧ getEntitiesInfo (sceneHost true true) (healthImage 0) 0x10000 1920 1080 sceneOffsets
          = [])
      ∧ (ReachedHealth (sceneHost true true) (healthImage 101) sceneOffsets sceneFrame 3
          { sceneProbe with entityHealth := 101 }
        ∧ (candidate (sceneHost true true) (healthImage 101) 1920 1080 sceneOffsets sceneFrame 3
            ⟨[], ⟨0, 0, 0⟩⟩).1 = Flow.skip
        ∧ getEntitiesInfo (sceneHost true true) (healthImage 101) 0x10000 1920 1080
            sceneOffsets = [])
      ∧ (ReachedHealth (sceneHost true true) (healthImage 1) sceneOffsets sceneFrame 3
          { sceneProbe with entityHealth := 1 }
        ∧ (∃ rest,
            (candidate (sceneHost true true) (healthImage 1) 1920 1080 sceneOffsets sceneFrame 3
                ⟨[], ⟨0, 0, 0⟩⟩).2.reads
              = [] ++ readsToHealth (sceneHost true true) sceneOffsets sceneFrame 3
                  { sceneProbe with entityHealth := 1 }
                ++ uintptr (sceneProbe.entityController + sceneOffsets.M_sSanitizedPlayerName)
                  :: rest)
        ∧ (getEntitiesInfo (sceneHost true true) (healthImage 1) 0x10000 1920 1080
            sceneOffsets).map (fun e => e.Health) = [1])
      ∧ (ReachedHealth (sceneHost true true) (healthImage 100) sceneOffsets sceneFrame 3
          { sceneProbe with entityHealth := 100 }
        ∧ (∃ rest,
            (candidate (sceneHost true true) (healthImage 100) 1920 1080 sceneOffsets sceneFrame
                3 ⟨[], ⟨0, 0, 0⟩⟩).2.reads
              = [] ++ readsToHealth (sceneHost true true) sceneOffsets sceneFrame 3
                  { sceneProbe with entityHealth := 100 }
                ++ uintptr (sceneProbe.entityController + sceneOffsets.M_sSanitizedPlayerName)
                  :: rest)
        ∧ (getEntitiesInfo (sceneHost true true) (healthImage 100) 0x10000 1920 1080
            sceneOffsets).map (fun e => e.Health) = [100]
        ∧ ∀ e ∈ getEntitiesInfo (sceneHost true true) (healthImage 100) 0x10000 1920 1080
            sceneOffsets, 1 ≤ e.Health ∧ e.Health ≤ 100) :=
  have h0 := healthImage_reached 0 (by decide)
  have h101 := healthImage_reached 101 (by decide)
  have h1 := healthImage_reached 1 (by decide)
  have h100 := healthImage_reached 100 (by decide)
  ⟨⟨h0,
      (((health_filter (sceneHost true true) (healthImage 0) 0x10000 1920 1080 sceneOffsets).1
        sceneFrame 3 _ ⟨[], ⟨0, 0, 0⟩⟩ h0).1.mpr (Or.inl (by decide))).1,
      by decide!⟩,
    ⟨h101,
      (((health_filter (sceneHost true true) (healthImage 101) 0x10000 1920 1080
        sceneOffsets).1 sceneFrame 3 _ ⟨[], ⟨0, 0, 0⟩⟩ h101).1.mpr (Or.inr (by decide))).1,
      by decide!⟩,
    ⟨h1,
      ((health_filter (sceneHost true true) (healthImage 1) 0x10000 1920 1080 sceneOffsets).1
        sceneFrame 3 _ ⟨[], ⟨0, 0, 0⟩⟩ h1).2 ⟨by decide, by decide⟩,
      by decide!⟩,
    ⟨h100,
      ((health_filter (sceneHost true true) (healthImage 100) 0x10000 1920 1080 sceneOffsets).1
        sceneFrame 3 _ ⟨[], ⟨0, 0, 0⟩⟩ h100).2 ⟨by decide, by decide⟩,
      by decide!,
      (health_filter (sceneHost true true) (healthImage 100) 0x10000 1920 1080
        sceneOffsets).2⟩⟩

/-- C18: the scan aborts on the first failed read. When one of the five reads
before the loop fails, the result is the empty list and nothing more is read.
When these reads succeed (`FrameRead`), no pass for a candidate below `i`
ends in a failed read and the pass for candidate `i < 64` does, then the
result is the list of the snapshots accepted for the candidates `0..i-1`, in
index order, nothing is appended for candidate `i`, and the whole run, log of
reads included, is the run of the loop over the indices `0..i` only: the
candidates `i+1..63` are never examined. -/
theorem scan_aborts_on_first_fault (host : Host) (process : Image)
    (clientDll screenWidth screenHeight : Nat) (offsets : Offset) :
    ((bootstrap process clientDll offsets ⟨[], ⟨0, 0, 0⟩⟩).1 = Flow.fault →
        getEntitiesInfo host process clientDll screenWidth screenHeight offsets = []
          ∧ readsIssued host process clientDll screenWidth screenHeight offsets
            = (bootstrap process clientDll offsets ⟨[], ⟨0, 0, 0⟩⟩).2.reads)
      ∧ ∀ (frame : Frame) (i : Nat),
        FrameRead process clientDll offsets frame → i < 64 →
        (∀ j, j < i →
          verdict (candidate host process screenWidth screenHeight offsets frame) j
            ≠ Flow.fault) →
        verdict (candidate host process screenWidth screenHeight offsets frame) i = Flow.fault →
          getEntitiesInfo host process clientDll screenWidth screenHeight offsets
              = (List.range i).filterMap (fun j =>
                  (verdict (candidate host process screenWidth screenHeight offsets frame)
                    j).toOption)
            ∧ (∀ e, e ∈ getEntitiesInfo host process clientDll screenWidth screenHeight offsets
                ↔ ∃ j p, j < i
                  ∧ Accepted host process screenWidth screenHeight offsets frame j p e)
            ∧ getEntitiesRun host process clientDll screenWidth screenHeight offsets
              = scanLoop (candidate host process screenWidth screenHeight offsets frame)
                  (List.range (i + 1)) []
                  (bootstrap process clientDll offsets ⟨[], ⟨0, 0, 0⟩⟩).2 := by
  constructor
  · intro hb
    unfold getEntitiesInfo readsIssued getEntitiesRun
    rcases hrun : bootstrap process clientDll offsets ⟨[], ⟨0, 0, 0⟩⟩ with ⟨f, s1⟩
    rw [hrun] at hb
    simp only at hb
    subst hb
    exact ⟨rfl, rfl⟩
  · intro frame i hf hi hbefore hfault
    have hres : getEntitiesInfo host process clientDll screenWidth screenHeight offsets
        = (List.range i).filterMap (fun j =>
            (verdict (candidate host process screenWidth screenHeight offsets frame)
              j).toOption) := by
      obtain ⟨after, hsplit⟩ := range_split 64 i hi
      rw [getEntitiesInfo_gather host process clientDll screenWidth screenHeight offsets frame
        hf, hsplit, List.map_append, List.map_cons, hfault, gather_no_fault,
        List.filterMap_map]
      · rfl
      · intro f hmem
        obtain ⟨j, hj, rfl⟩ := List.mem_map.mp hmem
        exact hbefore j (List.mem_range.mp hj)
    refine ⟨hres, fun e => ?_, ?_⟩
    · rw [hres, List.mem_filterMap]
      constructor
      · rintro ⟨j, hj, hsome⟩
        have hv : verdict (candidate host process screenWidth screenHeight offsets frame) j
            = Flow.next e := by
          cases hf2 : verdict (candidate host process screenWidth screenHeight offsets frame) j
            with
          | next t =>
            rw [hf2] at hsome
            simp only [Flow.toOption, Option.some.injEq] at hsome
            rw [hsome]
          | skip => rw [hf2] at hsome; simp [Flow.toOption] at hsome
          | fault => rw [hf2] at hsome; simp [Flow.toOption] at hsome
        obtain ⟨p, hp⟩ := verdict_accepted _ _ _ _ _ _ _ _ hv
        exact ⟨j, p, List.mem_range.mp hj, hp⟩
      · rintro ⟨j, p, hj, hp⟩
        refine ⟨j, List.mem_range.mpr hj, ?_⟩
        rw [accepted_verdict _ _ _ _ _ _ _ _ _ hp]
        rfl
    · obtain ⟨s1, hb⟩ :=
        bootstrap_of_frameRead process clientDll offsets frame hf ⟨[], ⟨0, 0, 0⟩⟩
      obtain ⟨after, hsplit⟩ := range_split 64 i hi
      unfold getEntitiesRun
      rw [hb]
      simp only
      rw [hsplit, List.range_succ]
      exact scanLoop_stops _
        (candidate_steady host process screenWidth screenHeight offsets frame) i hfault after
        _ _ _

set_option maxRecDepth 100000 in
/-- Witness of `scan_aborts_on_first_fault`: in `emptyImage` the first read
before the loop fails; in `faultImage` candidate 3 is accepted and the pass
for candidate 5 fails at its third read. -/
theorem scan_aborts_on_first_fault_witness :
    ((bootstrap emptyImage 0x10000 sceneOffsets ⟨[], ⟨0, 0, 0⟩⟩).1 = Flow.fault
        ∧ getEntitiesInfo (sceneHost true true) emptyImage 0x10000 1920 1080 sceneOffsets = []
        ∧ readsIssued (sceneHost true true) emptyImage 0x10000 1920 1080 sceneOffsets
          = (bootstrap emptyImage 0x10000 sceneOffsets ⟨[], ⟨0, 0, 0⟩⟩).2.reads)
      ∧ FrameRead faultImage 0x10000 sceneOffsets sceneFrame
      ∧ (∀ j, j < 5 →
          verdict (candidate (sceneHost true true) faultImage 1920 1080 sceneOffsets sceneFrame) j
            ≠ Flow.fault)
      ∧ verdict (candidate (sceneHost true true) faultImage 1920 1080 sceneOffsets sceneFrame) 5
        = Flow.fault
      ∧ (List.range 5).filterMap (fun j =>
          (verdict (candidate (sceneHost true true) faultImage 1920 1080 sceneOffsets sceneFrame)
            j).toOption) = [plainSnapshot]
      ∧ getEntitiesInfo (sceneHost true true) faultImage 0x10000 1920 1080 sceneOffsets
          = (List.range 5).filterMap (fun j =>
              (verdict (candidate (sceneHost true true) faultImage 1920 1080 sceneOffsets
                sceneFrame) j).toOption)
      ∧ getEntitiesRun (sceneHost true true) faultImage 0x10000 1920 1080 sceneOffsets
          = scanLoop (candidate (sceneHost true true) faultImage 1920 1080 sceneOffsets sceneFrame)
              (List.range (5 + 1)) [] (bootstrap faultImage 0x10000 sceneOffsets ⟨[], ⟨0, 0, 0⟩⟩).2 :=
  have h := scan_aborts_on_first_fault (sceneHost true true) faultImage 0x10000 1920 1080
    sceneOffsets
  have hb : ∀ j, j < 5 →
      verdict (candidate (sceneHost true true) faultImage 1920 1080 sceneOffsets sceneFrame) j
        ≠ Flow.fault := by decide!
  have hfault :
      verdict (candidate (sceneHost true true) faultImage 1920 1080 sceneOffsets sceneFrame) 5
        = Flow.fault := by decide!
  have h5 := h.2 sceneFrame 5 fault_frameRead (by decide) hb hfault
  ⟨⟨rfl,
      (scan_aborts_on_first_fault (sceneHost true true) emptyImage 0x10000 1920 1080
        sceneOffsets).1 rfl⟩,
    fault_frameRead, hb, hfault, by decide!, h5.1, h5.2.2⟩

/-- C15: switching skeleton rendering off changes only `Bones`. Let the five
reads before the loop succeed and let no pass of the run with skeleton
rendering on end in a failed read. Then the run with skeleton rendering off,
in any visiting order `order` of the joint table, returns the same list as the
run with it on (in the visiting order of `host`, which is arbitrary), up to
the field `Bones` of each snapshot. In both runs `HeadPos` of every snapshot
is made of the projections of the sample of joint 6 moved by `+7` and by `-5`
in `Z`. -/
theorem skeleton_off_changes_only_bones (host : Host) (order : Nat → BoneOrder)
    (process : Image) (clientDll screenWidth screenHeight : Nat) (offsets : Offset)
    (frame : Frame) (hsk : host.skeletonRendering = true)
    (hf : FrameRead process clientDll offsets frame)
    (hreads : ∀ i, i < 64 →
      verdict (candidate host process screenWidth screenHeight offsets frame) i ≠ Flow.fault) :
    (getEntitiesInfo { host with skeletonRendering := false, boneOrder := order } process
          clientDll screenWidth screenHeight offsets).map Entity.withoutBones
        = (getEntitiesInfo host process clientDll screenWidth screenHeight offsets).map
          Entity.withoutBones
      ∧ ∀ e,
        (e ∈ getEntitiesInfo host process clientDll screenWidth screenHeight offsets
          ∨ e ∈ getEntitiesInfo { host with skeletonRendering := false, boneOrder := order }
            process clientDll screenWidth screenHeight offsets) →
        ∃ (entityBoneArray : Nat) (entityHead : Vector3),
          peek_Vector3 process (uintptr (entityBoneArray + 6 * 32)) = some entityHead
            ∧ e.HeadPos
              = ⟨(worldToScreen host.width host.height frame.viewMatrix
                    ⟨entityHead.X, entityHead.Y, entityHead.Z + 7⟩).1,
                  (worldToScreen host.width host.height frame.viewMatrix
                    ⟨entityHead.X, entityHead.Y, entityHead.Z + 7⟩).2,
                  (worldToScreen host.width host.height frame.viewMatrix
                    ⟨entityHead.X, entityHead.Y, entityHead.Z - 5⟩).2⟩ := by
  constructor
  · rw [getEntitiesInfo_gather host process clientDll screenWidth screenHeight offsets frame hf,
      getEntitiesInfo_gather _ process clientDll screenWidth screenHeight offsets frame hf]
    refine gather_sameButBones _ _ _ (fun i hi => hreads i (List.mem_range.mp hi))
      (fun i _ => ?_)
    exact candidate_sameButBones host hsk order process screenWidth screenHeight offsets frame i
      _ _
  · have hview : ∀ frame2 : Frame, FrameRead process clientDll offsets frame2 →
        frame2.viewMatrix = frame.viewMatrix := by
      intro frame2 hf2
      have h := hf2.viewMatrix
      rw [hf.viewMatrix] at h
      exact (Option.some.inj h).symm
    rintro e (he | he)
    · obtain ⟨frame2, j, q, hf2, _, ha⟩ :=
        mem_getEntitiesInfo host process clientDll screenWidth screenHeight offsets e he
      refine ⟨q.entityBoneArray, q.entityHead, ha.head, ?_⟩
      rw [ha.snapshot, hview frame2 hf2]
    · obtain ⟨frame2, j, q, hf2, _, ha⟩ :=
        mem_getEntitiesInfo _ process clientDll screenWidth screenHeight offsets e he
      refine ⟨q.entityBoneArray, q.entityHead, ha.head, ?_⟩
      rw [ha.snapshot, hview frame2 hf2]

set_option maxRecDepth 100000 in
/-- Witness of `skeleton_off_changes_only_bones`: `plainScene`, with the
joint table visited in reverse when skeleton rendering is off; the run then
stores 16 joints instead of 17. -/
theorem skeleton_off_changes_only_bones_witness :
    (sceneHost true true).skeletonRendering = true
      ∧ FrameRead (sceneImage plainScene) 0x10000 sceneOffsets sceneFrame
      ∧ (∀ i, i < 64 →
          verdict (candidate (sceneHost true true) (sceneImage plainScene) 1920 1080
            sceneOffsets sceneFrame) i ≠ Flow.fault)
      ∧ (getEntitiesInfo
            { sceneHost true true with skeletonRendering := false, boneOrder := reversedOrder }
            (sceneImage plainScene) 0x10000 1920 1080 sceneOffsets).map Entity.withoutBones
          = (getEntitiesInfo (sceneHost true true) (sceneImage plainScene) 0x10000 1920 1080
              sceneOffsets).map Entity.withoutBones
      ∧ (getEntitiesInfo
            { sceneHost true true with skeletonRendering := false, boneOrder := reversedOrder }
            (sceneImage plainScene) 0x10000 1920 1080 sceneOffsets).map
              (fun e => e.Bones.length) = [16] :=
  ⟨rfl, plain_frameRead, plain_no_fault,
    (skeleton_off_changes_only_bones (sceneHost true true) reversedOrder (sceneImage plainScene)
      0x10000 1920 1080 sceneOffsets sceneFrame rfl plain_frameRead plain_no_fault).1,
    by decide!⟩

end CS2GO
